import Mathlib

/-!
# emproto4go: codec, sessions, charge commands, debouncer, watchers, handlers and ticker

A shallow embedding of `internal/datagram.go` (`Encode`, `Decode`), `internal/util.go`
(`ReadString`, `MakeChargeId`, the `Read...` functions), `internal/evse.go` (`IsOnline`,
`IsLoggedIn`, `MetaState`, `StartCharge`, `StopCharge`, `Login`, `UsePassword`,
`WaitForDatagram`, `DatagramReceived`, `Tick`), `internal/event_watcher.go`, the handlers
of `internal/handlers` and `internal/pkg/emproto4go/communicator.go` (`DefineEvse`,
`RemoveEvse`, `QueueEvent`, `dispatchDebouncedEvent`, `clearQueuedEvents`, `SendDatagram`,
`WatchImpl`, `RemoveWatcher`, `packetReceived`), with the library functions they call (`fmt.Sscanf`, `fmt.Sprintf`,
`bytes.Trim`, `encoding/binary`) modelled from the behaviour of the Go standard library.

Conventions.
* A Go `byte` is a `Nat` below 256, a `uint16` a `Nat` below 65536; a Go `string` or
  `[]byte` is a `List Nat` of bytes.  Where the source converts or overflows, the
  reduction `% 2^w` is written out.
* A runtime panic (index out of range, nil dereference, send on a closed channel) is the
  `none` of an `Option` result, or the `panic` of an `Outcome`.
* An instant is an `Int` number of nanoseconds on one time line; a call receives the
  reading of `time.Now()` as the argument `now`, the same for every reading it takes.
* A pointer to an EVSE record is modelled by the record or, inside events and errors, by
  its serial.
* A goroutine that a function starts to send one answer runs where it is started.
-/

namespace Emproto

/-! ## Go library primitives used by the codec -/

/-- Bytes written by `binary.BigEndian.PutUint16(dst, v)`: `dst[0] = byte(v >> 8)`,
`dst[1] = byte(v)`. -/
def putUint16 (v : Nat) : List Nat := [v / 256 % 256, v % 256]

/-- Value read by `binary.BigEndian.Uint16(b)`, that is `uint16(b[1]) | uint16(b[0])<<8`;
`none` is the bounds-check panic on a slice shorter than two bytes. -/
def Uint16 (b : List Nat) : Option Nat :=
  match b with
  | b0 :: b1 :: _ => some (b0 * 256 + b1)
  | _ => none

/-- Slice expression `data[lo:hi]`; `none` is the panic raised when the bounds are not
`lo ≤ hi ≤ len(data)`. -/
def slice (data : List Nat) (lo hi : Nat) : Option (List Nat) :=
  if lo ≤ hi ∧ hi ≤ data.length then some ((data.take hi).drop lo) else none

/-- Effect of `copy(data[lo:hi], src)` on `data`: the first `min (hi - lo) (len src)` bytes
of `src` replace the bytes of `data` starting at offset `lo`. -/
def copyInto (data : List Nat) (lo hi : Nat) (src : List Nat) : List Nat :=
  data.take lo ++ src.take (hi - lo) ++ data.drop (lo + min (hi - lo) src.length)

/-! ### `fmt.Sscanf(s, "%02X", &b)` with `b` a byte -/

/-- The digit set `"0123456789aAbBcCdDeEfF"` the scanner accepts for the verbs `x` and `X`
alike. -/
def isHexDigit (c : Nat) : Bool :=
  (48 ≤ c && c ≤ 57) || (65 ≤ c && c ≤ 70) || (97 ≤ c && c ≤ 102)

/-- Value of one hexadecimal digit, as `strconv.ParseUint(tok, 16, 64)` reads it. -/
def hexDigitVal (c : Nat) : Nat :=
  if c ≤ 57 then c - 48 else if c ≤ 70 then c - 55 else c - 87

/-- ASCII members of the scanner's white-space table other than the newline
(`\t`, `\v`, `\f`, `\r` and the blank). -/
def isScanSpace (c : Nat) : Bool :=
  c = 9 || c = 11 || c = 12 || c = 13 || c = 32

/-- The scanner's `SkipSpace` for `Sscanf`: blanks are dropped, a newline is the error
"unexpected newline" (`none`), a carriage return directly before a newline is passed over so
that the newline is met next. -/
def skipSpace : List Nat → Option (List Nat)
  | [] => some []
  | c :: rest =>
    if c = 13 ∧ rest.head? = some 10 then skipSpace rest
    else if c = 10 then none
    else if isScanSpace c then skipSpace rest
    else some (c :: rest)

/-- Model of `fmt.Sscanf(s, "%02X", &b)` and of `fmt.Sscanf(s, "%02x", &b)` for a byte `b`
(the two verbs select the same base and the same digit set): leading space is skipped, then
at least one and at most two (the width) hexadecimal digits are read and converted; input
left over after the token is not an error.  `none` is a returned error: no digit at the
scan position, an unexpected newline, or a value that does not fit a byte.  On the two-byte
arguments `Encode` passes, a byte above 0x7F never starts a token and never counts as
space before one, so bytes and runes need not be told apart. -/
def SscanfHexByte (s : List Nat) : Option Nat :=
  match skipSpace s with
  | none => none
  | some rest =>
    let tok := (rest.take 2).takeWhile isHexDigit
    if tok = [] then none
    else
      let v := tok.foldl (fun acc c => acc * 16 + hexDigitVal c) 0
      if v < 256 then some v else none

/-! ### `fmt.Sprintf("%02x", bytes)` -/

/-- Lowercase hexadecimal digit of a value below 16. -/
def lowerHexDigit (n : Nat) : Nat := if n < 10 then 48 + n else 87 + n

/-- Model of `fmt.Sprintf("%02x", b)` for a byte slice `b` of at least one byte: two
lowercase hexadecimal digits per byte, no separator (the width 2 pads nothing then). -/
def sprintfHex (b : List Nat) : List Nat :=
  b.flatMap fun x => [lowerHexDigit (x / 16 % 16), lowerHexDigit (x % 16)]

/-! ### `bytes.Trim(data, "\x00\xFF\x20")` -/

/-- The rune `utf8.RuneError`. -/
def RuneError : Nat := 0xFFFD

/-- Model of `utf8.DecodeRune`: the rune at the head of `p` and its width in bytes; an
invalid or truncated encoding is `(RuneError, 1)`. -/
def DecodeRune (p : List Nat) : Nat × Nat :=
  match p with
  | [] => (RuneError, 0)
  | p0 :: rest =>
    if p0 < 0x80 then (p0, 1)
    else if p0 < 0xC2 ∨ 0xF5 ≤ p0 then (RuneError, 1)
    else
      let sz := if p0 < 0xE0 then 2 else if p0 < 0xF0 then 3 else 4
      let lo := if p0 = 0xE0 then 0xA0 else if p0 = 0xF0 then 0x90 else 0x80
      let hi := if p0 = 0xED then 0x9F else if p0 = 0xF4 then 0x8F else 0xBF
      if p.length < sz then (RuneError, 1)
      else
        match rest with
        | [] => (RuneError, 1)
        | b1 :: rest1 =>
          if b1 < lo ∨ hi < b1 then (RuneError, 1)
          else if sz ≤ 2 then (p0 % 32 * 64 + b1 % 64, 2)
          else
            match rest1 with
            | [] => (RuneError, 1)
            | b2 :: rest2 =>
              if b2 < 0x80 ∨ 0xBF < b2 then (RuneError, 1)
              else if sz ≤ 3 then (p0 % 16 * 4096 + b1 % 64 * 64 + b2 % 64, 3)
              else
                match rest2 with
                | [] => (RuneError, 1)
                | b3 :: _ =>
                  if b3 < 0x80 ∨ 0xBF < b3 then (RuneError, 1)
                  else (p0 % 8 * 262144 + b1 % 64 * 4096 + b2 % 64 * 64 + b3 % 64, 4)

/-- `utf8.RuneStart(b)`: `b` is not a continuation byte. -/
def RuneStart (b : Nat) : Bool := b / 64 % 4 ≠ 2

/-- Backward search of `utf8.DecodeLastRune` for the start of the last rune:
`for start--; start >= lim; start-- { if RuneStart(p[start]) { break } }`, entered with the
already decremented `start`. -/
def lastRuneStart (p : List Nat) (lim : Int) : Nat → Int → Int
  | 0, start => start
  | fuel + 1, start =>
    if start ≥ lim then
      if RuneStart (p.getD start.toNat 0) then start
      else lastRuneStart p lim fuel (start - 1)
    else start

/-- Model of `utf8.DecodeLastRune`: the last rune of `p` and its width. -/
def DecodeLastRune (p : List Nat) : Nat × Nat :=
  if p.length = 0 then (RuneError, 0)
  else
    let last := p.getD (p.length - 1) 0
    if last < 0x80 then (last, 1)
    else
      let lim : Int := if (p.length : Int) - 4 < 0 then 0 else (p.length : Int) - 4
      let start0 := lastRuneStart p lim 4 ((p.length : Int) - 2)
      let start := if start0 < 0 then 0 else start0.toNat
      let rs := DecodeRune (p.drop start)
      if start + rs.2 ≠ p.length then (RuneError, 1) else rs

/-- `containsRune("\x00\xFF\x20", r)`: ranging over the cutset string yields U+0000, the
rune error U+FFFD for the stray byte 0xFF, and U+0020. -/
def inCutset (r : Nat) : Bool := r = 0 || r = RuneError || r = 0x20

/-- Loop of `bytes.trimRightUnicode`; the fuel is the length of the slice, one byte at
least is dropped per round. -/
def trimRightUnicode : Nat → List Nat → List Nat
  | 0, s => s
  | fuel + 1, s =>
    if s.length = 0 then s
    else
      let last := s.getD (s.length - 1) 0
      let rn := if last ≥ 0x80 then DecodeLastRune s else (last, 1)
      if inCutset rn.1 then trimRightUnicode fuel (s.take (s.length - rn.2)) else s

/-- Loop of `bytes.trimLeftUnicode`. -/
def trimLeftUnicode : Nat → List Nat → List Nat
  | 0, s => s
  | fuel + 1, s =>
    match s with
    | [] => s
    | s0 :: _ =>
      let rn := if s0 ≥ 0x80 then DecodeRune s else (s0, 1)
      if inCutset rn.1 then trimLeftUnicode fuel (s.drop rn.2) else s

/-- Source `ReadString`: `string(bytes.Trim(data, "\x00\xFF\x20"))`.  The cutset is not
pure ASCII, so `bytes.Trim` takes its rune-wise path, right end first. -/
def ReadString (data : List Nat) : List Nat :=
  let r := trimRightUnicode data.length data
  trimLeftUnicode r.length r

/-! ## The datagram codec (`internal/datagram.go`) -/

/-- Source `Datagram`. `Serial` and `Password` are Go strings, `Command` a `uint16`. -/
structure Datagram where
  Key : Nat
  Serial : List Nat
  Password : List Nat
  Command : Nat
  Payload : List Nat
deriving DecidableEq, Repr

/-- The errors `Encode` returns. -/
inductive EncodeError where
  | nilDatagram
  | serialLength (got : Nat)
  | invalidSerialHex (position : Nat)
deriving DecidableEq, Repr

/-- What `Encode` returns: `([]byte, nil)` or `(nil, error)`. -/
inductive EncodeResult where
  | ok (data : List Nat)
  | error (e : EncodeError)
deriving DecidableEq, Repr

/-- The checksum loop shared by `Encode` and `Decode`:
`checksum = (checksum + uint16(b)) % 0xffff` on a `uint16` accumulator, so the addition
wraps at 65536 before the remainder is taken. -/
def checksum (bytes : List Nat) : Nat :=
  bytes.foldl (fun c b => (c + b) % 65536 % 65535) 0

/-- The serial loop of `Encode`, from index `i` on with `n` rounds left: each pair of
characters is scanned with `%02X`, on an error again with `%02x`, and the byte is stored
at `data[5+i]`; both scans failing is the error "invalid serial hex at position i". -/
def encodeSerial (serialStr : List Nat) : Nat → Nat → List Nat → Except EncodeError (List Nat)
  | 0, _, data => .ok data
  | n + 1, i, data =>
    let pair := (serialStr.take (i * 2 + 2)).drop (i * 2)
    match SscanfHexByte pair with
    | some b => encodeSerial serialStr n (i + 1) (data.set (5 + i) b)
    | none =>
      match SscanfHexByte pair with
      | some b => encodeSerial serialStr n (i + 1) (data.set (5 + i) b)
      | none => .error (.invalidSerialHex i)

/-- The loop `for i := 13; i < 19; i++ { data[i] = 0x00 }`. -/
def zeroPassword (data : List Nat) : List Nat :=
  [13, 14, 15, 16, 17, 18].foldl (fun d i => d.set i 0) data

/-- Source `(*Datagram).Encode`; `none` is the nil receiver. -/
def Encode (datagram : Option Datagram) : EncodeResult :=
  match datagram with
  | none => .error .nilDatagram
  | some d =>
    let packetLen := 25 + d.Payload.length
    let data := List.replicate packetLen 0
    let data := copyInto data 0 2 (putUint16 0x0601)
    let data := copyInto data 2 4 (putUint16 (packetLen % 65536))
    let data := data.set 4 d.Key
    if d.Serial.length ≠ 16 then .error (.serialLength d.Serial.length)
    else
      match encodeSerial d.Serial 8 0 data with
      | .error e => .error e
      | .ok data =>
        let data :=
          if d.Password.length ≠ 6 then zeroPassword data
          else copyInto data 13 19 d.Password
        let data := copyInto data 19 21 (putUint16 d.Command)
        let data := copyInto data 21 (21 + d.Payload.length) d.Payload
        let sum := checksum (data.take (data.length - 4))
        let data := copyInto data (data.length - 4) (data.length - 2) (putUint16 sum)
        let data := copyInto data (data.length - 2) data.length (putUint16 0x0F02)
        .ok data

/-- What `Decode` returns: `(nil, nil)`, `(nil, InvalidDatagramError)` with the two
checksums of its message, or `(&datagram, nil)`. -/
inductive DecodeResult where
  | ignored
  | invalidDatagram (computedChecksum packetChecksum : Nat)
  | parsed (d : Datagram)
deriving DecidableEq, Repr

/-- Source `Decode`.  Every slice and index expression is checked; `none` would be a
runtime panic. -/
def Decode (data : List Nat) : Option DecodeResult :=
  if data.length < 25 then some .ignored
  else
    (slice data 0 2).bind fun s01 => (Uint16 s01).bind fun magicHeader =>
    if magicHeader ≠ 0x0601 then some .ignored
    else
      (slice data 2 4).bind fun s23 => (Uint16 s23).bind fun packetLen =>
      if packetLen ≠ data.length % 65536 then some .ignored
      else
        (slice data (data.length - 4) (data.length - 2)).bind fun sck =>
        (Uint16 sck).bind fun packetChecksum =>
        (slice data 0 (data.length - 4)).bind fun body =>
        let computedChecksum := checksum body
        if computedChecksum ≠ packetChecksum then
          some (.invalidDatagram computedChecksum packetChecksum)
        else
          data[4]?.bind fun key =>
          (slice data 5 13).bind fun serial =>
          (slice data 13 19).bind fun password =>
          (slice data 19 21).bind fun s1920 => (Uint16 s1920).bind fun command =>
          (slice data 21 (data.length - 4)).bind fun payload =>
          some (.parsed
            { Key := key
              Serial := sprintfHex serial
              Password := ReadString password
              Command := command
              Payload := payload })

/-! ## Reference layout of a frame

The layout of the wire format written as a concatenation; the theorems below relate the
buffer `Encode` fills in place to it. -/

/-- The six bytes at offsets 13..18: the password when it has exactly six bytes, six zero
bytes otherwise. -/
def passwordField (password : List Nat) : List Nat :=
  if password.length ≠ 6 then List.replicate 6 0 else password

/-- Offsets `0..len-5` of a frame: magic, length, key, serial bytes, password field,
command and payload. -/
def frameBody (d : Datagram) (serialBytes : List Nat) : List Nat :=
  [6, 1] ++ putUint16 ((25 + d.Payload.length) % 65536) ++ [d.Key] ++ serialBytes ++
    passwordField d.Password ++ putUint16 d.Command ++ d.Payload

/-- A whole frame: the body, its checksum and the trailer `0F 02`. -/
def frameOf (d : Datagram) (serialBytes : List Nat) : List Nat :=
  frameBody d serialBytes ++ putUint16 (checksum (frameBody d serialBytes)) ++ [0x0F, 0x02]

/-- A lowercase hexadecimal character, `0`..`9` or `a`..`f`. -/
def isLowerHex (c : Nat) : Bool := (48 ≤ c && c ≤ 57) || (97 ≤ c && c ≤ 102)

/-- An ASCII decimal digit. -/
def isAsciiDigit (c : Nat) : Bool := 48 ≤ c && c ≤ 57

/-- Big-endian 16-bit value held by the bytes at offsets `i` and `i+1` of `b`. -/
def be16At (b : List Nat) (i : Nat) : Nat := b.getD i 0 * 256 + b.getD (i + 1) 0

/-- Framing test of the spec: the input is not a datagram of this protocol when it is
shorter than 25 bytes, does not start with `06 01`, or carries a length field that differs
from its length. -/
def notOurProtocol (b : List Nat) : Bool :=
  decide (b.length < 25) || !(b.getD 0 0 == 6 && b.getD 1 0 == 1) ||
    decide (be16At b 2 ≠ b.length)

/-- The checksum field at `b[len-4..len-2]` differs from the checksum of `b[0..len-4)`. -/
def checksumMismatch (b : List Nat) : Bool :=
  decide (be16At b (b.length - 4) ≠ checksum (b.take (b.length - 4)))

/-- The bytes denoted by the hexadecimal pairs of a serial: one byte per two characters. -/
def hexPairs : List Nat → List Nat
  | a :: b :: rest => (hexDigitVal a * 16 + hexDigitVal b) :: hexPairs rest
  | _ => []

/-! ## Liveness and meta state (`internal/evse.go`, `types/types.go`) -/

/-- `time.Second` in nanoseconds. -/
def Second : Int := 1000000000

/-- `time.Millisecond` in nanoseconds. -/
def Millisecond : Int := 1000000

/-- Source `types.GunNotConnected`. -/
def GunNotConnected : Nat := 1

/-- Source `types.OutputStateCharging`. -/
def OutputStateCharging : Nat := 1

/-- Source `EmMetaState`, the six constants the type declares. -/
inductive EmMetaState where
  | MetaStateOffline
  | MetaStateNotLoggedIn
  | MetaStateIdle
  | MetaStatePluggedIn
  | MetaStateCharging
  | MetaStateError
deriving DecidableEq, Repr

/-- Source `EvseState`; every field has the zero value of its Go type as default.  A
`Volts`, `Amps` or `TempCelsius` value (a finite `float32`) and a `KWh` value (a finite
`float64`) are the rationals they denote, a `Watts` value is a `uint32`. -/
structure EvseState where
  GunState_ : Nat := 0
  OutputState_ : Nat := 0
  Errors_ : List Nat := []
  LineId_ : Nat := 0
  CurrentPower_ : Nat := 0
  EnergyCounter_ : ℚ := 0
  L1Voltage_ : ℚ := 0
  L1Current_ : ℚ := 0
  L2Voltage_ : ℚ := 0
  L2Current_ : ℚ := 0
  L3Voltage_ : ℚ := 0
  L3Current_ : ℚ := 0
  InnerTemp_ : ℚ := 0
  OuterTemp_ : ℚ := 0
  EmergencyBtnState_ : Nat := 0
  CurrentState_ : Nat := 0
  NewProtocol_ : Bool := false
deriving DecidableEq, Repr

/-- Source `EvseInfo` (the serial is the field `serial` of `Evse`).  An `Amps` value, a
finite `float32`, is the rational it denotes; `LastFetched` is `none` for nil. -/
structure EvseInfo where
  EvseType_ : Nat := 0
  MaxCurrent_ : ℚ := 0
  Byte70_ : Nat := 0
  LastFetched : Option Int := none
  Brand_ : List Nat := []
  Model_ : List Nat := []
  HardwareVersion_ : List Nat := []
  SoftwareVersion_ : List Nat := []
  Phases_ : Int := 0
  MaxPower_ : Nat := 0
  Feature_ : Nat := 0
  SupportNew_ : Nat := 0
deriving DecidableEq, Repr

/-- Source `EvseConfig`. -/
structure EvseConfig where
  MaxCurrent_ : ℚ := 0
  LastFetched : Option Int := none
  Name_ : List Nat := []
  Language_ : Int := 0
  TemperatureUnit_ : Nat := 0
  OfflineCharge_ : Bool := false
deriving DecidableEq, Repr

/-- Source `EvseCharge`.  A pointer field (`*time.Duration`, `*types.KWh`, `*time.Time`) is
the value it points to, `none` for nil; durations and instants are in nanoseconds. -/
structure EvseCharge where
  LastFetched : Option Int := none
  Port_ : Nat := 0
  ChargeState_ : Nat := 0
  ChargeId_ : List Nat := []
  StartType_ : Nat := 0
  ChargeType_ : Nat := 0
  MaxDuration_ : Option Int := none
  MaxEnergy_ : Option ℚ := none
  ReservationTime_ : Option Int := none
  UserId_ : List Nat := []
  MaxCurrent_ : ℚ := 0
  StartTime_ : Option Int := none
  Duration_ : Int := 0
  StartEnergyCounter_ : ℚ := 0
  CurrentEnergyCounter_ : ℚ := 0
  ChargedEnergy_ : ℚ := 0
  ChargePrice_ : ℚ := 0
  FeeType_ : Nat := 0
  ChargeFee_ : ℚ := 0
deriving DecidableEq, Repr

/-- Source `Evse`: the serial held by `info`, the info, state, config and charge sections,
the two liveness stamps (`nil` is `none`), the stored password, the address the last
datagram came from (a nil `ip` is the empty list) and the table of response waiters, which
maps a command to the channels waiting for it (a channel is named by a number).  `inbox`
holds, by channel, the datagram in the one-place buffer of a waiter channel. -/
structure Evse where
  serial : List Nat := []
  state : EvseState := {}
  LastSeen : Option Int := none
  LastActiveLogin : Option Int := none
  password : List Nat := []
  info : EvseInfo := {}
  config : EvseConfig := {}
  waiters : List (Nat × List Nat) := []
  charge : EvseCharge := {}
  ip : List Nat := []
  port : Int := 0
  inbox : List (Nat × Datagram) := []
deriving DecidableEq, Repr

/-- Source `(*Evse).IsOnline`: `LastSeen.After(time.Now().Add(-11 * time.Second))`. -/
def IsOnline (evse : Evse) (now : Int) : Bool :=
  match evse.LastSeen with
  | none => false
  | some lastSeen => decide (lastSeen > now + -11 * Second)

/-- Source `(*Evse).IsLoggedIn`. -/
def IsLoggedIn (evse : Evse) (now : Int) : Bool :=
  if !IsOnline evse now || evse.LastActiveLogin.isNone then false
  else
    match evse.LastActiveLogin with
    | none => false
    | some lastActiveLogin => decide (lastActiveLogin > now + -15 * Second)

/-- Source `(*Evse).MetaState`. -/
def MetaState (evse : Evse) (now : Int) : EmMetaState :=
  if !IsOnline evse now then .MetaStateOffline
  else if !IsLoggedIn evse now then .MetaStateNotLoggedIn
  else if evse.state.Errors_.length > 0 then .MetaStateError
  else if evse.state.OutputState_ = OutputStateCharging then .MetaStateCharging
  else if evse.state.GunState_ > GunNotConnected then .MetaStatePluggedIn
  else .MetaStateIdle

/-- The rule list of the spec for the meta state, in its order: each rule is a condition
and the state it yields. -/
def metaStateRules (online loggedIn : Bool) (errors : List Nat) (outputState gunState : Nat) :
    List (Bool × EmMetaState) :=
  [(!online, .MetaStateOffline),
   (!loggedIn, .MetaStateNotLoggedIn),
   (!errors.isEmpty, .MetaStateError),
   (outputState == 1, .MetaStateCharging),
   (decide (gunState > 1), .MetaStatePluggedIn)]

/-- The state of the first rule whose condition holds, `Idle` when none does. -/
def firstMatch (rules : List (Bool × EmMetaState)) : EmMetaState :=
  match rules.find? (fun r => r.1) with
  | some r => r.2
  | none => .MetaStateIdle

/-! ## The registry and the event debouncer (`internal/pkg/emproto4go/communicator.go`) -/

/-- Source `EmEventType`, the twelve constants the type declares. -/
inductive EmEventType where
  | EvseAdded
  | EvseRemoved
  | EvseOnline
  | EvseOffline
  | EvseLoggedIn
  | EvseLoggedOut
  | EvseInfoUpdated
  | EvseStateUpdated
  | EvseChargeUpdated
  | EvseConfigUpdated
  | EvseChargeStarted
  | EvseChargeStopped
deriving DecidableEq, Repr

/-- The string value of each event type constant. -/
def EmEventType.text : EmEventType → String
  | .EvseAdded => "EVSE_ADDED"
  | .EvseRemoved => "EVSE_REMOVED"
  | .EvseOnline => "EVSE_ONLINE"
  | .EvseOffline => "EVSE_OFFLINE"
  | .EvseLoggedIn => "EVSE_LOGGED_IN"
  | .EvseLoggedOut => "EVSE_LOGGED_OUT"
  | .EvseInfoUpdated => "EVSE_INFO_UPDATED"
  | .EvseStateUpdated => "EVSE_STATE_UPDATED"
  | .EvseChargeUpdated => "EVSE_CHARGE_UPDATED"
  | .EvseConfigUpdated => "EVSE_CONFIG_UPDATED"
  | .EvseChargeStarted => "EVSE_CHARGE_STARTED"
  | .EvseChargeStopped => "EVSE_CHARGE_STOPPED"

/-- Source `EmEvent` (`Type_` is its field `Type`); the record an event points to is named
by its serial, the key of the registry. -/
structure EmEvent where
  Type_ : EmEventType
  Evse : List Nat
  Timestamp : Int
deriving DecidableEq, Repr

/-- The errors `RemoveEvse` returns. -/
inductive CommunicatorError where
  | EvseOnlineError (evse : List Nat)
deriving DecidableEq, Repr

/-- Lookup in a Go map kept as an association list with at most one entry per key. -/
def mapGet {K V : Type} [DecidableEq K] (m : List (K × V)) (k : K) : Option V :=
  match m.find? (fun e => decide (e.1 = k)) with
  | some e => some e.2
  | none => none

/-- The builtin `delete(m, k)`. -/
def mapDelete {K V : Type} [DecidableEq K] (m : List (K × V)) (k : K) : List (K × V) :=
  m.filter (fun e => !decide (e.1 = k))

/-- The assignment `m[k] = v`. -/
def mapSet {K V : Type} [DecidableEq K] (m : List (K × V)) (k : K) (v : V) : List (K × V) :=
  (k, v) :: mapDelete m k

/-- Source `Communicator`: the registry `evses`, the pending events and the debounce
timers, each timer given by the instant at which it is due.  `dispatched` records, oldest
first, the events handed to `dispatchEvent` for the fan-out to the watchers.  `udpConn`
tells whether the socket is set (not `nil`), and `written` records, oldest first, the
frames handed to `udpConn.WriteTo`. -/
structure Communicator where
  evses : List (List Nat × Evse) := []
  debouncedEvents : List (List Nat × EmEvent) := []
  debounceTimers : List (List Nat × Int) := []
  dispatched : List EmEvent := []
  AppName_ : List Nat := []
  udpConn : Bool := false
  written : List (List Nat) := []
deriving DecidableEq, Repr

/-- The debounce key `string(evse.Serial()) + ":" + string(eventType)`. -/
def eventKey (serial : List Nat) (eventType : EmEventType) : List Nat :=
  serial ++ [58] ++ eventType.text.toList.map Char.toNat

/-- Source `dispatchEvent`: the event goes to the watchers. -/
def dispatchEvent (c : Communicator) (event : EmEvent) : Communicator :=
  { c with dispatched := c.dispatched ++ [event] }

/-- Source `dispatchDebouncedEvent`: a pending event leaves the table, its timer is
stopped and removed, and the event is dispatched; without a pending event nothing
happens. -/
def dispatchDebouncedEvent (c : Communicator) (key : List Nat) : Communicator :=
  match mapGet c.debouncedEvents key with
  | none => c
  | some event =>
    let c := { c with debouncedEvents := mapDelete c.debouncedEvents key }
    let c :=
      match mapGet c.debounceTimers key with
      | some _ => { c with debounceTimers := mapDelete c.debounceTimers key }
      | none => c
    dispatchEvent c event

/-- Source `QueueEvent` for a non-nil record, `depth` bounding the nesting of the calls
that queue the secondary events (a secondary event has none of its own). -/
def QueueEventAux : Nat → Communicator → Evse → EmEventType → Int → Communicator
  | 0, c, _, _, _ => c
  | depth + 1, c, evse, eventType, now =>
    let key := eventKey evse.serial eventType
    let eventInstance : EmEvent := { Evse := evse.serial, Type_ := eventType, Timestamp := now }
    let c := { c with debouncedEvents := mapSet c.debouncedEvents key eventInstance }
    let force : Bool :=
      match mapGet c.debounceTimers key, mapGet c.debouncedEvents key with
      | some _, some queued => decide (now - queued.Timestamp ≥ 2000 * Millisecond)
      | _, _ => false
    if force then
      dispatchDebouncedEvent { c with debounceTimers := mapDelete c.debounceTimers key } key
    else
      let c := { c with debounceTimers := mapSet c.debounceTimers key (now + 400 * Millisecond) }
      let c :=
        if eventType = .EvseOnline ∨ eventType = .EvseOffline ∨ eventType = .EvseLoggedIn ∨
            eventType = .EvseLoggedOut then
          QueueEventAux depth c evse .EvseInfoUpdated now
        else c
      if eventType = .EvseChargeStarted ∨ eventType = .EvseChargeStopped then
        QueueEventAux depth c evse .EvseStateUpdated now
      else c

/-- Source `QueueEvent`; `none` is the nil record, for which nothing is queued. -/
def QueueEvent (c : Communicator) (evse : Option Evse) (eventType : EmEventType) (now : Int) :
    Communicator :=
  match evse with
  | none => c
  | some e => QueueEventAux 2 c e eventType now

/-- Source `clearQueuedEvents`: every pending event and every timer whose key starts with
`serial + ":"` is removed (`strings.HasPrefix`). -/
def clearQueuedEvents (c : Communicator) (evse : Evse) : Communicator :=
  let serialPrefix := evse.serial ++ [58]
  { c with
    debouncedEvents := c.debouncedEvents.filter (fun e => !serialPrefix.isPrefixOf e.1)
    debounceTimers := c.debounceTimers.filter (fun e => !serialPrefix.isPrefixOf e.1) }

/-- Source `RemoveEvse`: the new state and the returned error (`none` is `nil`). -/
def RemoveEvse (c : Communicator) (evse : Evse) (now : Int) :
    Communicator × Option CommunicatorError :=
  if IsOnline evse now then (c, some (.EvseOnlineError evse.serial))
  else
    let c := clearQueuedEvents c evse
    let c := QueueEvent c (some evse) .EvseRemoved now
    ({ c with evses := mapDelete c.evses evse.serial }, none)

/-- The record `defineEvseImpl` builds for a serial not yet in the registry:
`Evse{info: &EvseInfo{serial: serial}, state: &EvseState{}, ...}`, every other field at
its zero value. -/
def newEvse (serial : List Nat) : Evse := { serial := serial }

/-- Source `defineEvseImpl`: the record already registered under the serial, or a new one
that is stored and announced with `EvseAdded`. -/
def defineEvseImpl (c : Communicator) (serial : List Nat) (now : Int) : Communicator × Evse :=
  match mapGet c.evses serial with
  | some existing => (c, existing)
  | none =>
    let evse := newEvse serial
    let c := { c with evses := mapSet c.evses serial evse }
    let c := QueueEvent c (some evse) .EvseAdded now
    (c, evse)

/-- The pending events of a serial: the entries of the table whose key starts with
`serial + ":"`. -/
def pendingFor (c : Communicator) (serial : List Nat) : List (List Nat × EmEvent) :=
  c.debouncedEvents.filter (fun e => (serial ++ [58]).isPrefixOf e.1)

/-! ## Charge identifiers and EM timestamps (`internal/util.go`) -/

/-- The civil fields of an instant in a time zone, as `time.Time.Format` reads them. -/
structure Civil where
  year : Nat := 1
  month : Nat := 1
  day : Nat := 1
  hour : Nat := 0
  minute : Nat := 0
deriving DecidableEq, Repr

/-- Model of the `appendInt(b, x, width)` of package `time` for `x ≥ 0`: the decimal digits
of `x`, padded with zeros to `width`. -/
def appendInt (x width : Nat) : List Nat :=
  if width = 2 ∧ x < 100 then [48 + x / 10, 48 + x % 10]
  else if width = 4 ∧ x < 10000 then
    [48 + x / 1000, 48 + x / 100 % 10, 48 + x / 10 % 10, 48 + x % 10]
  else
    let digits := (Nat.toDigits 10 x).map Char.toNat
    List.replicate (width - digits.length) 48 ++ digits

/-- `t.Format("20060102")`. -/
def formatDate (t : Civil) : List Nat :=
  appendInt t.year 4 ++ appendInt t.month 2 ++ appendInt t.day 2

/-- `t.Format("200601021504")`. -/
def formatDateTime (t : Civil) : List Nat :=
  formatDate t ++ appendInt t.hour 2 ++ appendInt t.minute 2

/-- The byte `'0' + byte(n % 10)` for a reading `n` of `UnixNano()`: the remainder
truncates toward zero, the conversion and the addition wrap at 256. -/
def nanoDigit (n : Int) : Nat := (48 + (Int.tmod n 10 % 256).toNat) % 256

/-- Source `MakeChargeId`.  `shanghai` holds the civil fields of `time.Now()` in
Asia/Shanghai and `unixNano i` is the reading `time.Now().UnixNano()` of round `i` of the
loop over the four suffix bytes. -/
def MakeChargeId (shanghai : Civil) (unixNano : Nat → Int) (chargeIdSuffix : List Nat) :
    List Nat :=
  if chargeIdSuffix.length = 0 then
    formatDateTime shanghai ++ (List.range 4).map fun i => nanoDigit (unixNano i)
  else if chargeIdSuffix.length > 8 then formatDate shanghai ++ chargeIdSuffix.take 8
  else formatDate shanghai ++ chargeIdSuffix

/-- Bytes written by `binary.BigEndian.PutUint32(dst, v)`. -/
def putUint32 (v : Nat) : List Nat :=
  [v / 16777216 % 256, v / 65536 % 256, v / 256 % 256, v % 256]

/-- The offsets from UTC, in seconds, of `time.Local` and of Asia/Shanghai at an instant. -/
structure Zones where
  localOffset : Int → Int
  shanghaiOffset : Int → Int

/-- Source `getOffsetBetweenLocalAndShanghai`. -/
def getOffsetBetweenLocalAndShanghai (z : Zones) (t : Int) : Int :=
  z.shanghaiOffset t - z.localOffset t

/-- Source `TimeToEmTimestamp`; `none` is the nil pointer.  `t.Unix()` and `t.UnixMilli()`
round down, and the conversion to `uint32` keeps the low 32 bits. -/
def TimeToEmTimestamp (z : Zones) (time : Option Int) : Nat :=
  match time with
  | none => 0xFFFFFFFF
  | some t =>
    if t / 1000000 = 0 then 0xFFFFFFFF
    else ((t / 1000000000 - getOffsetBetweenLocalAndShanghai z t) % 4294967296).toNat

/-- Source `WriteUserId(data[lo:hi], userId)`, as its effect on `data`. -/
def WriteUserId (data : List Nat) (lo hi : Nat) (userId : List Nat) : List Nat :=
  copyInto data lo hi (if userId.length > 16 then userId.take 16 else userId)

/-! ## Starting and stopping a charge (`internal/evse.go`) -/

/-- What Go leaves to the implementation in the floating-point conversions: the result of
converting a value that the target type cannot hold, and the rounded `float64` product
`x * 100`.  The status and charging handlers scale the integers of a payload:
`tenth32 n` is the `float32` product `float32(n) * 0.1`, `hundredth32 n` is
`float32(n) * 0.01`, `hundredth64 n` is the `float64` product `float64(n) * 0.01`, and
`maxPower p c1 v1 c2 v2 c3 v3` is `Watts(math.Max(float64(p), computedPower))` with
`computedPower` the `float64` sum of the three products current times voltage. -/
structure FloatOps where
  byteOutOfRange : ℚ → Nat
  uint16OutOfRange : ℚ → Nat
  mul100 : ℚ → ℚ
  tenth32 : Nat → ℚ := fun n => (n : ℚ) / 10
  hundredth32 : Nat → ℚ := fun n => (n : ℚ) / 100
  hundredth64 : Nat → ℚ := fun n => (n : ℚ) / 100
  maxPower : Nat → ℚ → ℚ → ℚ → ℚ → ℚ → ℚ → Nat :=
    fun p c1 v1 c2 v2 c3 v3 => max p ⌊c1 * v1 + c2 * v2 + c3 * v3⌋.toNat % 4294967296

/-- The conversion `byte(x)` of a finite float: truncation toward zero when the result
fits a byte. -/
def floatToByte (fl : FloatOps) (x : ℚ) : Nat :=
  if -1 < x ∧ x < 256 then ⌊x⌋.toNat else fl.byteOutOfRange x % 256

/-- The conversion `uint16(x)` of a finite float. -/
def floatToUint16 (fl : FloatOps) (x : ℚ) : Nat :=
  if -1 < x ∧ x < 65536 then ⌊x⌋.toNat else fl.uint16OutOfRange x % 65536

/-- `time.Minute` in nanoseconds. -/
def Minute : Int := 60 * Second

/-- The conversion `uint16(d.Minutes())` for a duration `d > 0`.  `Minutes` returns
`float64(d / Minute) + float64(d % Minute) / 6e10`; for fewer than 65536 whole minutes the
rounded sum stays below the next integer, so the truncation is `d / Minute`. -/
def minutesToUint16 (fl : FloatOps) (d : Int) : Nat :=
  if d / Minute < 65536 then (d / Minute).toNat
  else fl.uint16OutOfRange ((d : ℚ) / (Minute : ℚ)) % 65536

/-- Source `ChargeStartParams`; `StartAt` is an instant in nanoseconds since the Unix
epoch, the zero `time.Time` lying before it. -/
structure ChargeStartParams where
  MaxCurrent : ℚ := 0
  ForceSinglePhase : Bool := false
  ChargeId : List Nat := []
  UserId : List Nat := []
  StartAt : Int := -62135596800 * Second
  MaxDuration : Int := 0
  MaxEnergy : ℚ := 0
deriving DecidableEq, Repr

/-- Source `ChargeStopParams`. -/
structure ChargeStopParams where
  LineId : Nat := 0
  UserId : List Nat := []
deriving DecidableEq, Repr

/-- Source `EvseInfo.CanForceSinglePhase`. -/
def CanForceSinglePhase (info : EvseInfo) : Bool :=
  decide (info.EvseType_ ≥ 22) && decide (info.EvseType_ ≤ 25) && decide (info.Byte70_ < 11)

/-- The ways a call of `WaitForDatagram` ends: a datagram arrives on its channel, the
timeout elapses, or the communicator is stopped. -/
inductive WaitOutcome where
  | delivered (d : Datagram)
  | timeout
  | stopped
deriving DecidableEq, Repr

/-- What the clock, the time zone database, the platform and the network give to one
call: the reading `now` of `time.Now()`, its civil fields in Asia/Shanghai, the readings of
`UnixNano()`, the zone offsets, the floating-point conversions, the result of
`udpConn.WriteTo` (`none` an error, `some n` the number of bytes written), the channel the
call creates and the way its wait ends. -/
structure CallEnv where
  now : Int
  shanghai : Civil
  unixNano : Nat → Int
  zones : Zones
  fl : FloatOps
  write : Option Nat
  ch : Nat
  wait : WaitOutcome

/-- Source `CmdChargeStart`. -/
def CmdChargeStart : Nat := 0x8007

/-- Source `CmdChargeStartResponse`. -/
def CmdChargeStartResponse : Nat := 0x0007

/-- Source `CmdChargeStop`. -/
def CmdChargeStop : Nat := 0x8008

/-- Source `CmdRequestLogin`. -/
def CmdRequestLogin : Nat := 0x8002

/-- Source `CmdLoginConfirm`. -/
def CmdLoginConfirm : Nat := 0x8001

/-- The current `createChargeStartDatagram` settles on: the request limited by the
configured maximum, raised to 6 when not above it, else cut to the maximum of the info. -/
def chargeStartCurrent (evse : Evse) (params : ChargeStartParams) : ℚ :=
  let maxCurrent := min params.MaxCurrent evse.config.MaxCurrent_
  if maxCurrent ≤ 6 then 6
  else if maxCurrent > evse.info.MaxCurrent_ then evse.info.MaxCurrent_
  else maxCurrent

/-- Source `createChargeStartDatagram`, with `appName` the `AppName_` of the communicator.
The 47 payload bytes start at zero and are written in the order of the source. -/
def createChargeStartDatagram (appName : List Nat) (evse : Evse) (params : ChargeStartParams)
    (env : CallEnv) : Datagram :=
  let now := env.now
  let lineChoice : Nat × Nat :=
    if params.ForceSinglePhase then
      if CanForceSinglePhase evse.info then (1, 11) else (2, 1)
    else (2, 1)
  let lineId := lineChoice.1
  let chargeType := lineChoice.2
  let maxCurrent := chargeStartCurrent evse params
  let userId := if params.UserId = [] then appName else params.UserId
  let chargeId := MakeChargeId env.shanghai env.unixNano params.ChargeId
  let start : Int × Nat :=
    if params.StartAt / 1000000000 > 0 then
      (params.StartAt, if params.StartAt > now + 5 * Second then 1 else 0)
    else (now, 0)
  let startAt := start.1
  let isReservation := start.2
  let payload := List.replicate 47 0
  let payload := payload.set 0 (lineId % 256)
  let payload := WriteUserId payload 1 17 userId
  let payload := copyInto payload 17 33 chargeId
  let payload := payload.set 33 (isReservation % 256)
  let payload := copyInto payload 34 38 (putUint32 (TimeToEmTimestamp env.zones (some startAt)))
  let payload := payload.set 38 1
  let payload := payload.set 39 (chargeType % 256)
  let payload :=
    if params.MaxDuration ≤ 0 then copyInto payload 40 42 (putUint16 0xFFFF)
    else copyInto payload 40 42 (putUint16 (max 1 (minutesToUint16 env.fl params.MaxDuration)))
  let payload :=
    if params.MaxEnergy ≤ 0 then copyInto payload 42 44 (putUint16 0xFFFF)
    else copyInto payload 42 44 (putUint16 (floatToUint16 env.fl (env.fl.mul100 params.MaxEnergy)))
  let payload := copyInto payload 44 46 (putUint16 0xFFFF)
  let payload := payload.set 46 (floatToByte env.fl maxCurrent)
  { Key := 0, Serial := [], Password := [], Command := CmdChargeStart, Payload := payload }

/-- The errors the charge and login commands return. -/
inductive EvseError where
  | EvseOfflineError (evse : List Nat)
  | EvseNotLoggedInError (evse : List Nat)
  | EncodeFailed (e : EncodeError)
  | WriteFailed
  | DatagramSendError (evse : List Nat) (command written length : Nat)
  | WaitTimeout
  | WaitStopped
  | EvseInvalidDatagramError (evse : List Nat) (responseCommand : Nat)
  | EvseChargeStartError (evse : List Nat) (errorReason : Nat) (errorMessage : String)
  | EvseChargeStopError (evse : List Nat) (errorReason : Nat) (errorMessage : String)
  | EvseNoPasswordError (evse : List Nat)
  | EvseInvalidPasswordError (evse : List Nat)
deriving DecidableEq, Repr

/-- Source `Communicator.SendDatagram`: the communicator after the call and the error. -/
def SendDatagram (c : Communicator) (evse : Evse) (datagram : Datagram) (env : CallEnv) :
    Communicator × Option EvseError :=
  if !IsOnline evse env.now then (c, some (.EvseOfflineError evse.serial))
  else if !IsLoggedIn evse env.now && decide (datagram.Command ≠ CmdRequestLogin) &&
      decide (datagram.Command ≠ CmdLoginConfirm) then
    (c, some (.EvseNotLoggedInError evse.serial))
  else
    let datagram := { datagram with Serial := evse.serial }
    let datagram :=
      if datagram.Password = [] ∧ evse.password ≠ [] then
        { datagram with Password := evse.password }
      else datagram
    match Encode (some datagram) with
    | .error e => (c, some (.EncodeFailed e))
    | .ok data =>
      if !c.udpConn then (c, some (.EvseOfflineError evse.serial))
      else
        let c := { c with written := c.written ++ [data] }
        match env.write with
        | none => (c, some .WriteFailed)
        | some n =>
          if n ≠ data.length then
            (c, some (.DatagramSendError evse.serial datagram.Command n data.length))
          else (c, none)

/-- The registration loop of `WaitForDatagram`:
`evse.waiters[cmd] = append(evse.waiters[cmd], ch)` for each command. -/
def registerWaiter (waiters : List (Nat × List Nat)) (ch : Nat) (commands : List Nat) :
    List (Nat × List Nat) :=
  commands.foldl (fun w cmd => mapSet w cmd ((mapGet w cmd).getD [] ++ [ch])) waiters

/-- The cleanup loop of `WaitForDatagram`: the first occurrence of `ch` leaves the list of
each command, and a command left without channel leaves the table. -/
def cleanupWaiter (waiters : List (Nat × List Nat)) (ch : Nat) (commands : List Nat) :
    List (Nat × List Nat) :=
  commands.foldl (fun w cmd =>
    let chs := (mapGet w cmd).getD []
    let w := if ch ∈ chs then mapSet w cmd (chs.erase ch) else w
    if ((mapGet w cmd).getD []).length = 0 then mapDelete w cmd else w) waiters

/-- Source `WaitForDatagram` for the channel `ch`, ending as `outcome` says.  A delivery
leaves the table to the receiver; timeout and stop clean the waiter up. -/
def WaitForDatagram (evse : Evse) (ch : Nat) (commands : List Nat) (outcome : WaitOutcome) :
    Evse × Option Datagram × Option EvseError :=
  if commands.length = 0 then (evse, none, none)
  else
    let evse := { evse with waiters := registerWaiter evse.waiters ch commands }
    match outcome with
    | .delivered d => (evse, some d, none)
    | .timeout =>
      ({ evse with waiters := cleanupWaiter evse.waiters ch commands }, none, some .WaitTimeout)
    | .stopped =>
      ({ evse with waiters := cleanupWaiter evse.waiters ch commands }, none, some .WaitStopped)

/-- Source `ChargeStartErrorReason`, the library-defined codes. -/
def ChargeStartErrorEvseOffline : Nat := 160

/-- Source `ChargeStartErrorEvseNotLoggedIn`. -/
def ChargeStartErrorEvseNotLoggedIn : Nat := 161

/-- Source `ChargeStartErrorSendFailed`. -/
def ChargeStartErrorSendFailed : Nat := 162

/-- Source `ChargeStartErrorNoConfirmation`. -/
def ChargeStartErrorNoConfirmation : Nat := 163

/-- Source `ChargeStopErrorEvseOffline`. -/
def ChargeStopErrorEvseOffline : Nat := 160

/-- Source `ChargeStopErrorEvseNotLoggedIn`. -/
def ChargeStopErrorEvseNotLoggedIn : Nat := 161

/-- Source `ChargeStopErrorSendFailed`. -/
def ChargeStopErrorSendFailed : Nat := 162

/-- Source `ChargeStopErrorNoConfirmation`. -/
def ChargeStopErrorNoConfirmation : Nat := 163

/-- Source `GetChargeStartErrorReasonMessage` over the table `EmChargeStartErrorMessages`. -/
def GetChargeStartErrorReasonMessage (errorReason : Nat) : String :=
  match errorReason with
  | 0 => "No error"
  | 1 => "The charging plug is not plugged in properly"
  | 2 => "System error"
  | 3 => "Already currently charging"
  | 4 => "System maintenance"
  | 5 => "Incorrect set fee"
  | 6 => "Incorrect set power consumption"
  | 7 => "Incorrect set time"
  | 20 => "Charging reservation already active"
  | 160 => "EVSE is offline"
  | 161 => "EVSE is not logged in"
  | 162 => "Failed to send start command to EVSE"
  | 163 => "No confirmation received from EVSE (charge could still have started)"
  | 255 => "Unknown reason"
  | n => "Unknown reason (" ++ toString n ++ ")"

/-- Source `GetChargeStopErrorMessage` over the table `EmChargeStopErrorMessages`. -/
def GetChargeStopErrorMessage (errorReason : Nat) : String :=
  match errorReason with
  | 0 => "No error"
  | 160 => "EVSE is offline"
  | 161 => "EVSE is not logged in"
  | 162 => "Failed to send stop command to EVSE"
  | 163 => "No confirmation received from EVSE (charge could still have stopped)"
  | 255 => "Unknown reason"
  | n => "Unknown reason (" ++ toString n ++ ")"

/-- Source `ChargeStartResult`. -/
structure ChargeStartResult where
  LineId : Nat := 0
  Current : ℚ := 0
  ErrorReason : Nat := 0
  ErrorMessage : String := ""
deriving DecidableEq, Repr

/-- Source `ChargeStopResult`. -/
structure ChargeStopResult where
  LineId : Nat := 0
  ErrorReason : Nat := 0
  ErrorMessage : String := ""
deriving DecidableEq, Repr

/-- Source `CheckPayloadLength`: true when the payload is too short. -/
def CheckPayloadLength (datagram : Datagram) (minLength : Nat) : Bool :=
  decide (datagram.Payload.length < minLength)

/-- Source `(*Evse).StartCharge`: the communicator and the record after the call, the
result and the error (`none` is `nil`).  The outer `none` is a runtime panic: a nil response
without error, or an index out of range. -/
def StartCharge (c : Communicator) (evse : Evse) (params : ChargeStartParams) (env : CallEnv) :
    Option (Communicator × Evse × ChargeStartResult × Option EvseError) :=
  if !IsOnline evse env.now then
    some (c, evse,
      { ErrorReason := ChargeStartErrorEvseOffline
        ErrorMessage := GetChargeStartErrorReasonMessage ChargeStartErrorEvseOffline },
      some (.EvseOfflineError evse.serial))
  else if !IsLoggedIn evse env.now then
    some (c, evse,
      { ErrorReason := ChargeStartErrorEvseNotLoggedIn
        ErrorMessage := GetChargeStartErrorReasonMessage ChargeStartErrorEvseNotLoggedIn },
      some (.EvseNotLoggedInError evse.serial))
  else
    let startChargeDatagram := createChargeStartDatagram c.AppName_ evse params env
    match SendDatagram c evse startChargeDatagram env with
    | (c, some sendErr) =>
      some (c, evse,
        { ErrorReason := ChargeStartErrorSendFailed
          ErrorMessage := GetChargeStartErrorReasonMessage ChargeStartErrorSendFailed },
        some sendErr)
    | (c, none) =>
      match WaitForDatagram evse env.ch [CmdChargeStartResponse] env.wait with
      | (evse, _, some recvErr) =>
        some (c, evse,
          { ErrorReason := ChargeStartErrorNoConfirmation
            ErrorMessage := GetChargeStartErrorReasonMessage ChargeStartErrorNoConfirmation },
          some recvErr)
      | (_, none, none) => none
      | (evse, some response, none) =>
        if CheckPayloadLength response 5 then
          some (c, evse,
            { ErrorReason := ChargeStartErrorNoConfirmation
              ErrorMessage :=
                GetChargeStartErrorReasonMessage ChargeStartErrorNoConfirmation },
            some (.EvseInvalidDatagramError evse.serial (response.Command % 65536)))
        else
          response.Payload[3]?.bind fun errorReason =>
          let errorMessage := GetChargeStartErrorReasonMessage errorReason
          if errorReason ≠ 0 then
            some (c, evse, { ErrorReason := errorReason, ErrorMessage := errorMessage },
              some (.EvseChargeStartError evse.serial errorReason errorMessage))
          else
            response.Payload[0]?.bind fun lineId =>
            response.Payload[4]?.bind fun (current : Nat) =>
            some (c, evse,
              { ErrorReason := 0, LineId := lineId, Current := (current : ℚ) }, none)

/-- The 47 payload bytes `StopCharge` fills in before it builds its datagram. -/
def chargeStopPayload (params : ChargeStopParams) : List Nat :=
  let payload := List.replicate 47 0
  let payload := if params.LineId = 0 then payload.set 0 1 else payload.set 0 params.LineId
  WriteUserId payload 1 17 params.UserId

/-- Source `(*Evse).StopCharge`, with the same reading of the result as `StartCharge`. -/
def StopCharge (c : Communicator) (evse : Evse) (params : ChargeStopParams) (env : CallEnv) :
    Option (Communicator × Evse × ChargeStopResult × Option EvseError) :=
  if !IsOnline evse env.now then
    some (c, evse, { ErrorReason := ChargeStopErrorEvseOffline },
      some (.EvseOfflineError evse.serial))
  else if !IsLoggedIn evse env.now then
    some (c, evse, { ErrorReason := ChargeStopErrorEvseNotLoggedIn },
      some (.EvseNotLoggedInError evse.serial))
  else
    let stopChargeDatagram : Datagram :=
      { Key := 0, Serial := [], Password := [], Command := CmdChargeStop
        Payload := chargeStopPayload params }
    match SendDatagram c evse stopChargeDatagram env with
    | (c, some sendErr) =>
      some (c, evse,
        { ErrorReason := ChargeStopErrorSendFailed
          ErrorMessage := GetChargeStopErrorMessage ChargeStopErrorSendFailed },
        some sendErr)
    | (c, none) =>
      match WaitForDatagram evse env.ch [CmdChargeStartResponse] env.wait with
      | (evse, _, some recvErr) =>
        some (c, evse,
          { ErrorReason := ChargeStopErrorNoConfirmation
            ErrorMessage := GetChargeStopErrorMessage ChargeStopErrorNoConfirmation },
          some recvErr)
      | (_, none, none) => none
      | (evse, some response, none) =>
        if CheckPayloadLength response 5 then
          some (c, evse,
            { ErrorReason := ChargeStopErrorNoConfirmation
              ErrorMessage := GetChargeStopErrorMessage ChargeStopErrorNoConfirmation },
            some (.EvseInvalidDatagramError evse.serial (response.Command % 65536)))
        else
          response.Payload[2]?.bind fun errorReason =>
          if errorReason ≠ 0 then
            some (c, evse,
              { ErrorReason := errorReason
                ErrorMessage := GetChargeStopErrorMessage errorReason },
              some (.EvseChargeStopError evse.serial errorReason
                (GetChargeStopErrorMessage errorReason)))
          else
            response.Payload[0]?.bind fun lineId =>
            some (c, evse, { ErrorReason := 0, LineId := lineId }, none)
/-- A sample environment for the examples: 4 November 2026, 09:05 in Shanghai, a local
zone one hour east of UTC, a complete write and a wait that times out. -/
def sampleEnv : CallEnv :=
  { now := 1793754300 * Second
    shanghai := { year := 2026, month := 11, day := 4, hour := 9, minute := 5 }
    unixNano := fun i => 1793754300 * Second + 1000 + i
    zones := { localOffset := fun _ => 3600, shanghaiOffset := fun _ => 28800 }
    fl := { byteOutOfRange := fun _ => 0, uint16OutOfRange := fun _ => 0,
            mul100 := fun x => x * 100 }
    write := some 72
    ch := 1
    wait := .timeout }

/-! ## Reference layout of the charge payloads -/

/-- A fixed field of `n` bytes holding `src`: its first `n` bytes, padded with zeros. -/
def padTo (n : Nat) (src : List Nat) : List Nat :=
  src.take n ++ List.replicate (n - src.length) 0

/-- The clamp of the spec: `x` brought into `[lo, hi]`. -/
def clamp (x lo hi : ℚ) : ℚ := max lo (min x hi)

/-- The civil fields are those of a date of the years 0..9999. -/
def Civil.valid (t : Civil) : Bool :=
  decide (t.year ≤ 9999) && decide (1 ≤ t.month) && decide (t.month ≤ 12) &&
    decide (1 ≤ t.day) && decide (t.day ≤ 31) && decide (t.hour ≤ 23) &&
    decide (t.minute ≤ 59)

/-! ## The debounce timers over time -/

/-- The timers of the table that are due at `now` fire, the oldest entry first: a timer
made by `time.AfterFunc(400*time.Millisecond, ...)` runs `dispatchDebouncedEvent(key)` when
it fires.  Every timer that is stopped leaves the table or is replaced in it, so the table
holds the running timers. -/
def fireDue (c : Communicator) (now : Int) : Communicator :=
  ((c.debounceTimers.filter (fun t => decide (t.2 ≤ now))).reverse.map (fun t => t.1)).foldl
    dispatchDebouncedEvent c

/-- A run of `QueueEvent` calls for one record and one event type at the instants `times`,
the timers due at each instant firing before the call made at it. -/
def queueRun (c : Communicator) (evse : Evse) (eventType : EmEventType) (times : List Int) :
    Communicator :=
  times.foldl (fun c t => QueueEvent (fireDue c t) (some evse) eventType t) c

/-- The state after one event is put in the debounce table: the event is the pending
event of its key and the timer of the key is due 400 ms later. -/
def queued (c : Communicator) (serial : List Nat) (eventType : EmEventType) (now : Int) :
    Communicator :=
  { c with
    debouncedEvents := mapSet c.debouncedEvents (eventKey serial eventType)
      { Evse := serial, Type_ := eventType, Timestamp := now }
    debounceTimers := mapSet c.debounceTimers (eventKey serial eventType)
      (now + 400 * Millisecond) }

/-- The pending events stored under a key. -/
def pendingAt (c : Communicator) (key : List Nat) : List (List Nat × EmEvent) :=
  c.debouncedEvents.filter (fun e => decide (e.1 = key))

/-- The timers stored under a key. -/
def timersAt (c : Communicator) (key : List Nat) : List (List Nat × Int) :=
  c.debounceTimers.filter (fun e => decide (e.1 = key))

/-- The number of events of a record and type that were dispatched. -/
def dispatchCount (c : Communicator) (serial : List Nat) (eventType : EmEventType) : Nat :=
  (c.dispatched.filter (fun e => decide (e.Evse = serial ∧ e.Type_ = eventType))).length

/-- Every pending event is stored under the key of its record and type, as `QueueEvent`
stores it. -/
def wellKeyed (c : Communicator) : Prop :=
  ∀ p ∈ c.debouncedEvents, p.1 = eventKey p.2.Evse p.2.Type_

/-- Each instant of the list follows the one before it, `t` first, by less than 400 ms. -/
def closeCalls : Int → List Int → Prop
  | _, [] => True
  | t, t' :: ts => (t ≤ t' ∧ t' - t < 400 * Millisecond) ∧ closeCalls t' ts

/-- The last instant of a run that starts at `t`. -/
def lastCall : Int → List Int → Int
  | t, [] => t
  | _, t' :: ts => lastCall t' ts

instance wellKeyed.dec (c : Communicator) : Decidable (wellKeyed c) :=
  inferInstanceAs (Decidable (∀ p ∈ c.debouncedEvents, p.1 = eventKey p.2.Evse p.2.Type_))

instance closeCalls.dec : (t : Int) → (ts : List Int) → Decidable (closeCalls t ts)
  | _, [] => isTrue trivial
  | t, t' :: ts =>
    have := closeCalls.dec t' ts
    inferInstanceAs (Decidable ((t ≤ t' ∧ t' - t < 400 * Millisecond) ∧ closeCalls t' ts))

/-- A burst of `QueueEvent` calls for one record and type: the first at `t`, the following
ones at the instants `ts`. -/
def burst (c : Communicator) (evse : Evse) (eventType : EmEventType) (t : Int)
    (ts : List Int) : Communicator :=
  queueRun (QueueEvent c (some evse) eventType t) evse eventType ts

/-! ## Watchers and the fan-out of events (`internal/event_watcher.go`, `communicator.go`) -/

/-- A Go channel of events as a non-blocking send sees it: `room` is the number of sends
that can proceed at once (free buffer slots and receivers waiting), `closed` tells whether
`close` was called on it, and `received` lists the events sent on it, oldest first. -/
structure EventChannel where
  room : Nat := 0
  closed : Bool := false
  received : List EmEvent := []
deriving DecidableEq, Repr

/-- Source `EventWatcher`: the record it is registered for, by serial (`none` is nil), the
event types, the name of its channel and the flag `stopped`.  Its field `communicator`
always points to the one communicator. -/
structure EventWatcher where
  evse : Option (List Nat) := none
  eventTypes : List EmEventType := []
  channel : Nat := 0
  stopped : Bool := false
deriving DecidableEq, Repr

/-- The result of a call that may not return: `done` with its result, a runtime panic, or
a lock that is never granted. -/
inductive Outcome (α : Type) where
  | done (a : α)
  | panic
  | deadlock
deriving DecidableEq, Repr

/-- Source `Communicator`, the fields the watchers use.  `watchers` is the slice of
`EventWatcher` values and `readLocked` tells whether the running goroutine holds
`watchersMutex` for reading.  The channels are kept by name (a name without entry is a nil
channel).  Every variable has an address: `heap` holds the `EventWatcher` objects that
`WatchImpl` allocates, by address, and `nextAddr` is the address the next new variable
gets, so that a new variable has the address of no variable made before it.  The events of
`Communicator.dispatched` are those `dispatchEvent` passes to the loop
`dispatchEventFanout` below. -/
structure Fanout where
  watchers : List EventWatcher := []
  readLocked : Bool := false
  channels : List (Nat × EventChannel) := []
  heap : List (Nat × EventWatcher) := []
  nextAddr : Nat := 0
deriving DecidableEq, Repr

/-- Source `WatchImpl`: a new `EventWatcher` object is allocated, a copy of it
(`*watcher`) is appended to the slice, and the pointer to the object is returned. -/
def WatchImpl (s : Fanout) (evse : Option (List Nat)) (eventTypes : List EmEventType)
    (channel : Nat) : Outcome (Fanout × Nat) :=
  let watcher : EventWatcher := { evse := evse, eventTypes := eventTypes, channel := channel }
  let addr := s.nextAddr
  let s := { s with heap := mapSet s.heap addr watcher, nextAddr := s.nextAddr + 1 }
  if s.readLocked then .deadlock
  else .done ({ s with watchers := s.watchers ++ [watcher] }, addr)

/-- Source `RemoveWatcher` for the pointer `watcher`: the loop
`for i, w := range communicator.watchers` copies element `i` into the variable `w`, new in
each iteration, and removes element `i` when `&w == watcher`.  Taking the write lock while
the goroutine holds the read lock never returns. -/
def RemoveWatcher (s : Fanout) (watcher : Nat) : Outcome Fanout :=
  if s.readLocked then .deadlock
  else
    match (List.range s.watchers.length).find? (fun i => decide (s.nextAddr + i = watcher)) with
    | some i =>
      .done { s with watchers := s.watchers.eraseIdx i, nextAddr := s.nextAddr + i + 1 }
    | none => .done { s with nextAddr := s.nextAddr + s.watchers.length }

/-- Source `(*EventWatcher).Stop` on the object `w` at the address `addr`: the flag is
set, the channel is closed (closing a nil or a closed channel panics) and `RemoveWatcher`
is called with the address.  The result holds the object after the call. -/
def Stop (s : Fanout) (addr : Nat) (w : EventWatcher) : Outcome (Fanout × EventWatcher) :=
  let w := { w with stopped := true }
  match mapGet s.channels w.channel with
  | none => .panic
  | some ch =>
    if ch.closed then .panic
    else
      let s := { s with channels := mapSet s.channels w.channel { ch with closed := true } }
      match RemoveWatcher s addr with
      | .done s => .done (s, w)
      | .panic => .panic
      | .deadlock => .deadlock

/-- The call `Stop()` on the handle `WatchImpl` returned, the object in `heap`. -/
def StopHandle (s : Fanout) (handle : Nat) : Outcome Fanout :=
  match mapGet s.heap handle with
  | none => .panic
  | some w =>
    match Stop s handle w with
    | .done (s, w) => .done { s with heap := mapSet s.heap handle w }
    | .panic => .panic
    | .deadlock => .deadlock

/-- Source `(*EventWatcher).Notify` on the object `w` at the address `addr`.  The `select`
sends when the channel can take the event at once, panics when the channel is closed (a
send on a closed channel), and takes the `default` branch otherwise. -/
def Notify (s : Fanout) (addr : Nat) (w : EventWatcher) (event : EmEvent) :
    Outcome (Fanout × EventWatcher) :=
  if w.stopped then
    match RemoveWatcher s addr with
    | .done s => .done (s, w)
    | .panic => .panic
    | .deadlock => .deadlock
  else if w.evse.isSome ∧ some event.Evse ≠ w.evse then .done (s, w)
  else if w.eventTypes.length > 0 ∧ ¬ w.eventTypes.any (fun t => decide (t = event.Type_)) then
    .done (s, w)
  else
    match mapGet s.channels w.channel with
    | none => Stop s addr w
    | some ch =>
      if ch.closed then .panic
      else if ch.room > 0 then
        .done ({ s with
                 channels := mapSet s.channels w.channel
                   { ch with room := ch.room - 1, received := ch.received ++ [event] } }, w)
      else Stop s addr w

/-- The loop of `dispatchEvent` from element `ws` of the slice on: each element is copied
into the loop variable, a new variable in each iteration, and `Notify` is called on that
variable. -/
def notifyEach : List EventWatcher → Fanout → EmEvent → Outcome Fanout
  | [], s, _ => .done s
  | w :: ws, s, event =>
    let addr := s.nextAddr
    let s := { s with nextAddr := s.nextAddr + 1 }
    match Notify s addr w event with
    | .done (s, _) => notifyEach ws s event
    | .panic => .panic
    | .deadlock => .deadlock

/-- Source `dispatchEvent`, the fan-out: the read lock is taken, every watcher of the slice
is notified, and the lock is released. -/
def dispatchEventFanout (s : Fanout) (event : EmEvent) : Outcome Fanout :=
  match notifyEach s.watchers { s with readLocked := true } event with
  | .done s' => .done { s' with readLocked := s.readLocked }
  | .panic => .panic
  | .deadlock => .deadlock

/-- The filter of the spec: the watcher has no record or the record of the event, and it
has no event types or the type of the event among them. -/
def passesFilter (w : EventWatcher) (event : EmEvent) : Bool :=
  (w.evse.isNone || w.evse == some event.Evse) &&
    (w.eventTypes.isEmpty || w.eventTypes.contains event.Type_)

/-- The events sent on a channel so far (`none` for a nil channel). -/
def receivedOn (s : Fanout) (channel : Nat) : Option (List EmEvent) :=
  (mapGet s.channels channel).map (fun ch => ch.received)

/-! ## Logging in and the response waiters (`internal/evse.go`) -/

/-- Source `CmdLogin`. -/
def CmdLogin : Nat := 0x0001

/-- Source `CmdLoginResponse`. -/
def CmdLoginResponse : Nat := 0x0002

/-- Source `CmdPasswordErrorResponse`. -/
def CmdPasswordErrorResponse : Nat := 0x0155

/-- Source `CmdHeading`. -/
def CmdHeading : Nat := 0x0003

/-- Source `CmdHeadingResponse`. -/
def CmdHeadingResponse : Nat := 0x8003

/-- Source `CmdSingleACStatus`. -/
def CmdSingleACStatus : Nat := 0x0004

/-- Source `CmdSingleACStatusAck`. -/
def CmdSingleACStatusAck : Nat := 0x8004

/-- Source `CmdSingleACChargingPublicAuto`. -/
def CmdSingleACChargingPublicAuto : Nat := 0x0005

/-- Source `CmdSingleACChargingAck`. -/
def CmdSingleACChargingAck : Nat := 0x8005

/-- Source `CmdSingleACChargingStatusResponse`. -/
def CmdSingleACChargingStatusResponse : Nat := 0x0006

/-- Source `CmdGetVersionResponse`. -/
def CmdGetVersionResponse : Nat := 0x0106

/-- Source `CmdSetAndGetLanguageResponse`. -/
def CmdSetAndGetLanguageResponse : Nat := 0x010F

/-- Source `CmdSetAndGetNameResponse`. -/
def CmdSetAndGetNameResponse : Nat := 0x0108

/-- Source `CmdSetAndGetOfflineChargeResponse`. -/
def CmdSetAndGetOfflineChargeResponse : Nat := 0x010D

/-- Source `CmdSetAndGetMaxCurrentResponse`. -/
def CmdSetAndGetMaxCurrentResponse : Nat := 0x0107

/-- Source `CmdSetAndGetTemperatureUnitResponse`. -/
def CmdSetAndGetTemperatureUnitResponse : Nat := 0x0112

/-- Source `CmdChargeStopResponse`. -/
def CmdChargeStopResponse : Nat := 0x0008

/-- Source `(*Evse).Login`: the communicator and the record after the call and the error
(`none` is `nil`); the outer `none` is a runtime panic.  `env` is what the call reads until
its wait ends and `env2` what it reads after the wait, so the two sends have a result of
their own.  The call returns before the three goroutines it starts (the fetches of info,
charge and config) have run. -/
def Login (c : Communicator) (evse : Evse) (password : List Nat) (env env2 : CallEnv) :
    Option (Communicator × Evse × Option EvseError) :=
  let password := if password = [] then evse.password else password
  if password = [] then some (c, evse, some (.EvseNoPasswordError evse.serial))
  else
    let requestLoginDatagram : Datagram :=
      { Key := 0, Serial := [], Password := password, Command := CmdRequestLogin
        Payload := [0] }
    match SendDatagram c evse requestLoginDatagram env with
    | (c, some err) => some (c, evse, some err)
    | (c, none) =>
      match WaitForDatagram evse env.ch [CmdLoginResponse, CmdPasswordErrorResponse]
          env.wait with
      | (evse, _, some err) => some (c, evse, some err)
      | (_, none, none) => none
      | (evse, some response, none) =>
        if response.Command = CmdPasswordErrorResponse then
          some (c, evse, some (.EvseInvalidPasswordError evse.serial))
        else
          let evse := { evse with password := password }
          let loginConfirmDatagram : Datagram :=
            { Key := 0, Serial := [], Password := [], Command := CmdLoginConfirm
              Payload := [0] }
          match SendDatagram c evse loginConfirmDatagram env2 with
          | (c, some err) => some (c, evse, some err)
          | (c, none) =>
            let wasLoggedIn := IsLoggedIn evse env2.now
            let evse := { evse with LastActiveLogin := some env2.now }
            let c :=
              if !wasLoggedIn then QueueEvent c (some evse) .EvseLoggedIn env2.now else c
            some (c, evse, none)

/-- Source `(*Evse).UsePassword`. -/
def UsePassword (c : Communicator) (evse : Evse) (password : List Nat) (env env2 : CallEnv) :
    Option (Communicator × Evse × Option EvseError) :=
  if !IsOnline evse env.now then some (c, { evse with password := password }, none)
  else Login c evse password env env2

/-- The last block of `(*Evse).DatagramReceived`: every channel waiting for the command of
the datagram is sent the datagram unless its one-place buffer is full
(`select { case ch <- datagram: default: }`), and the entry of that command leaves the
table.  -/
def unblockWaiters (evse : Evse) (datagram : Datagram) : Evse :=
  let chs := (mapGet evse.waiters datagram.Command).getD []
  let evse := chs.foldl (fun (e : Evse) ch =>
    if (mapGet e.inbox ch).isNone then { e with inbox := mapSet e.inbox ch datagram }
    else e) evse
  if chs.length > 0 then { evse with waiters := mapDelete evse.waiters datagram.Command }
  else evse

/-- The channels that occur in the waiter table, under any command. -/
def waitingChannels (evse : Evse) : List Nat :=
  evse.waiters.flatMap (fun e => e.2)

/-! ## The handlers of inbound datagrams (`internal/handlers`, `internal/util.go`) -/

/-- Value read by `binary.BigEndian.Uint32(b)`; `none` is the bounds-check panic on a
slice shorter than four bytes. -/
def Uint32 (b : List Nat) : Option Nat :=
  match b with
  | b0 :: b1 :: b2 :: b3 :: _ => some (b0 * 16777216 + b1 * 65536 + b2 * 256 + b3)
  | _ => none

/-- The expression `binary.BigEndian.Uint16(data[offset : offset+2])`. -/
def uint16At (data : List Nat) (offset : Nat) : Option Nat :=
  (slice data offset (offset + 2)).bind Uint16

/-- The expression `binary.BigEndian.Uint32(data[offset : offset+4])`. -/
def uint32At (data : List Nat) (offset : Nat) : Option Nat :=
  (slice data offset (offset + 4)).bind Uint32

/-- Source `CompareAndSet` on a comparable value: the value stored after the call and the
result. -/
def CompareAndSet {α : Type} [DecidableEq α] (old new : α) : α × Bool :=
  if old ≠ new then (new, true) else (old, false)

/-- Source `CompareAndSet` on a pointer: `*old != new` compares the two addresses, and
`new` is either nil or the address of a variable the call has just made, which no stored
pointer holds. -/
def CompareAndSetPtr {α : Type} (old new : Option α) : Option α × Bool :=
  if old.isNone && new.isNone then (old, false) else (new, true)

/-- The count of an element in the map `count` of `SliceEqual`. -/
def sliceCount (count : List (Nat × Nat)) (x : Nat) : Nat := (mapGet count x).getD 0

/-- The second loop of `SliceEqual`. -/
def sliceEqualLoop : List Nat → List (Nat × Nat) → Bool
  | [], _ => true
  | x :: b, count =>
    if sliceCount count x = 0 then false
    else sliceEqualLoop b (mapSet count x (sliceCount count x - 1))

/-- Source `SliceEqual`. -/
def SliceEqual (a b : List Nat) : Bool :=
  if a.length ≠ b.length then false
  else
    sliceEqualLoop b (a.foldl (fun count x => mapSet count x (sliceCount count x + 1)) [])

/-- Source `ParseErrors` on a `uint32`. -/
def ParseErrors (data : Nat) : List Nat :=
  (List.range 32).foldl
    (fun errors i => if Nat.land data (1 <<< i) ≠ 0 then errors ++ [i] else errors) []

/-- Source `ReadTemperature`; `temp-20000` is a `uint16` subtraction. -/
def ReadTemperature (fl : FloatOps) (data : List Nat) (offset : Nat) : Option ℚ :=
  (uint16At data offset).map fun temp =>
    if temp = 0xFFFF then -1 else fl.hundredth32 ((temp + 65536 - 20000) % 65536)

/-- Source `ReadDurationMinutes`; the inner `none` is the nil pointer. -/
def ReadDurationMinutes (data : List Nat) (offset : Nat) : Option (Option Int) :=
  (uint16At data offset).map fun value =>
    if value = 0xFFFF then none else some ((value : Int) * Minute)

/-- Source `ReadDurationSeconds`. -/
def ReadDurationSeconds (data : List Nat) (offset : Nat) : Option Int :=
  (uint32At data offset).map fun value => (value : Int) * Second

/-- Source `ReadEnergy32`; the inner `none` is the nil pointer. -/
def ReadEnergy32 (fl : FloatOps) (data : List Nat) (offset : Nat) : Option (Option ℚ) :=
  (uint32At data offset).map fun value =>
    if value = 0xFFFFFFFF then none else some (fl.hundredth64 value)

/-- Source `ReadEnergy16`; the inner `none` is the nil pointer. -/
def ReadEnergy16 (fl : FloatOps) (data : List Nat) (offset : Nat) : Option (Option ℚ) :=
  (uint16At data offset).map fun value =>
    if value = 0xFFFF then none else some (fl.hundredth64 value)

/-- Source `EmTimestampToTime`; `none` is the nil pointer. -/
def EmTimestampToTime (z : Zones) (timestamp : Nat) : Option Int :=
  if timestamp = 0 ∨ timestamp = 0xFFFFFFFF then none
  else
    let shanghaiTime : Int := (timestamp : Int) * Second
    let offset := getOffsetBetweenLocalAndShanghai z shanghaiTime
    let adjusted := shanghaiTime / 1000000 + offset * 1000
    some (adjusted * 1000000)

/-- Source `ReadTimestamp`. -/
def ReadTimestamp (z : Zones) (data : List Nat) (offset : Nat) : Option (Option Int) :=
  (uint32At data offset).map (EmTimestampToTime z)

/-- The datagram a handler answers with: the given command and a one-byte payload. -/
def ackDatagram (command b : Nat) : Datagram :=
  { Key := 0, Serial := [], Password := [], Command := command, Payload := [b] }

/-- The rest of a function runs on the value read; a panic (`none`) ends it. -/
@[noinline]
def orPanic {α β : Type} (x : Option α) (k : α → Option β) : Option β :=
  match x with
  | none => none
  | some a => k a

/-- The flag `changed` of a handler: some `CompareAndSet` returned true. -/
def anyChanged (results : List Bool) : Bool := results.any id

/-- The statements of `SingleAcStatusHandler.Handle` that read the payload and update the
state: the state after them and the flag `changed`; `none` is a runtime panic. -/
def statusParse (fl : FloatOps) (state : EvseState) (p : List Nat) :
    Option (EvseState × Bool) :=
  orPanic (p[0]?) fun lineId =>
  orPanic (uint16At p 1) fun l1Voltage =>
  orPanic (uint16At p 3) fun l1Current =>
  orPanic (if p.length ≥ 33 then
      orPanic (uint16At p 25) fun l2v =>
      orPanic (uint16At p 27) fun l2c =>
      orPanic (uint16At p 29) fun l3v =>
      orPanic (uint16At p 31) fun l3c =>
      some (fl.tenth32 l2v, fl.hundredth32 l2c, fl.tenth32 l3v, fl.hundredth32 l3c)
    else some ((0 : ℚ), (0 : ℚ), (0 : ℚ), (0 : ℚ))) fun l23 =>
  orPanic (uint32At p 5) fun power =>
  orPanic (uint32At p 9) fun energy =>
  orPanic (ReadTemperature fl p 13) fun innerTemp =>
  orPanic (ReadTemperature fl p 15) fun outerTemp =>
  orPanic (p[17]?) fun emergencyBtn =>
  orPanic (p[18]?) fun gun =>
  orPanic (p[19]?) fun output =>
  let newProtocol := decide (p.length > 33)
  orPanic (p[20]?) fun byte20 =>
  orPanic (if newProtocol then
      orPanic (p[34]?) fun byte34 =>
      some (if byte34 = 18 ∨ byte34 = 19 then byte34 else byte20)
    else some byte20) fun currentState =>
  orPanic (uint32At p 21) fun errorBits =>
  let errors := ParseErrors errorBits
  let sameErrors := SliceEqual state.Errors_ errors
  let newState : EvseState :=
    { LineId_ := lineId
      L1Voltage_ := fl.tenth32 l1Voltage
      L1Current_ := fl.hundredth32 l1Current
      L2Voltage_ := l23.1
      L2Current_ := l23.2.1
      L3Voltage_ := l23.2.2.1
      L3Current_ := l23.2.2.2
      CurrentPower_ := fl.maxPower power (fl.hundredth32 l1Current) (fl.tenth32 l1Voltage)
        l23.2.1 l23.1 l23.2.2.2 l23.2.2.1
      EnergyCounter_ := fl.hundredth64 energy
      InnerTemp_ := innerTemp
      OuterTemp_ := outerTemp
      EmergencyBtnState_ := emergencyBtn
      GunState_ := gun
      OutputState_ := output
      NewProtocol_ := newProtocol
      CurrentState_ := currentState
      Errors_ := if sameErrors then state.Errors_ else errors }
  some (newState, anyChanged
    [(CompareAndSet state.LineId_ newState.LineId_).2,
     (CompareAndSet state.L1Voltage_ newState.L1Voltage_).2,
     (CompareAndSet state.L1Current_ newState.L1Current_).2,
     (CompareAndSet state.L2Voltage_ newState.L2Voltage_).2,
     (CompareAndSet state.L2Current_ newState.L2Current_).2,
     (CompareAndSet state.L3Voltage_ newState.L3Voltage_).2,
     (CompareAndSet state.L3Current_ newState.L3Current_).2,
     (CompareAndSet state.CurrentPower_ newState.CurrentPower_).2,
     (CompareAndSet state.EnergyCounter_ newState.EnergyCounter_).2,
     (CompareAndSet state.InnerTemp_ newState.InnerTemp_).2,
     (CompareAndSet state.OuterTemp_ newState.OuterTemp_).2,
     (CompareAndSet state.EmergencyBtnState_ newState.EmergencyBtnState_).2,
     (CompareAndSet state.GunState_ newState.GunState_).2,
     (CompareAndSet state.OutputState_ newState.OutputState_).2,
     (CompareAndSet state.NewProtocol_ newState.NewProtocol_).2,
     (CompareAndSet state.CurrentState_ newState.CurrentState_).2,
     !sameErrors])

/-- Source `SingleAcStatusHandler.Handle`: the communicator and the record after the
call, `none` a runtime panic.  The goroutine that sends the ack runs where it is started. -/
def SingleAcStatusHandler.Handle (c : Communicator) (evse : Evse) (datagram : Datagram)
    (env : CallEnv) : Option (Communicator × Evse) :=
  if CheckPayloadLength datagram 25 then some (c, evse)
  else
    let oldMetaState := MetaState evse env.now
    match statusParse env.fl evse.state datagram.Payload with
    | none => none
    | some (state, changed) =>
      let evse := { evse with state := state }
      let c := (SendDatagram c evse (ackDatagram CmdSingleACStatusAck 1) env).1
      let c := if changed then QueueEvent c (some evse) .EvseStateUpdated env.now else c
      let newMetaState := MetaState evse env.now
      let c :=
        if oldMetaState ≠ .MetaStateCharging ∧ newMetaState = .MetaStateCharging then
          QueueEvent c (some evse) .EvseChargeStarted env.now
        else if oldMetaState = .MetaStateCharging ∧ newMetaState ≠ .MetaStateCharging then
          QueueEvent c (some evse) .EvseChargeStopped env.now
        else c
      some (c, evse)

/-- The statements of `SingleAcChargingHandler.Handle` that read the payload and update
the charge section: the section after them and the flag `changed`; `none` is a runtime
panic (an index out of range, or `*impl.ReadEnergy32(...)` on a nil pointer). -/
def chargingParse (fl : FloatOps) (z : Zones) (charge : EvseCharge) (p : List Nat) :
    Option (EvseCharge × Bool) :=
  orPanic (p[0]?) fun port =>
  orPanic (if p.length ≤ 74 then p[1]?
    else
      orPanic (p[74]?) fun byte74 =>
      if !(byte74 = 18 ∨ byte74 = 19) then p[1]? else some byte74) fun chargeState =>
  orPanic (slice p 2 18) fun chargeIdBytes =>
  orPanic (p[18]?) fun startType =>
  orPanic (p[19]?) fun chargeType =>
  orPanic (ReadDurationMinutes p 20) fun maxDuration =>
  orPanic (ReadEnergy16 fl p 22) fun maxEnergy =>
  orPanic (ReadTimestamp z p 26) fun reservationTime =>
  orPanic (slice p 30 46) fun userIdBytes =>
  orPanic (p[46]?) fun (maxCurrent : Nat) =>
  orPanic (ReadTimestamp z p 47) fun startTime =>
  orPanic (ReadDurationSeconds p 51) fun duration =>
  orPanic ((ReadEnergy32 fl p 55).bind id) fun startEnergyCounter =>
  orPanic ((ReadEnergy32 fl p 59).bind id) fun currentEnergyCounter =>
  orPanic ((ReadEnergy32 fl p 63).bind id) fun chargedEnergy =>
  orPanic (uint32At p 67) fun chargePrice =>
  orPanic (p[71]?) fun feeType =>
  orPanic (uint16At p 72) fun chargeFee =>
  let newCharge : EvseCharge :=
    { LastFetched := charge.LastFetched
      Port_ := port
      ChargeState_ := chargeState
      ChargeId_ := ReadString chargeIdBytes
      StartType_ := startType
      ChargeType_ := chargeType
      MaxDuration_ := (CompareAndSetPtr charge.MaxDuration_ maxDuration).1
      MaxEnergy_ := (CompareAndSetPtr charge.MaxEnergy_ maxEnergy).1
      ReservationTime_ := (CompareAndSetPtr charge.ReservationTime_ reservationTime).1
      UserId_ := ReadString userIdBytes
      MaxCurrent_ := (maxCurrent : ℚ)
      StartTime_ := (CompareAndSetPtr charge.StartTime_ startTime).1
      Duration_ := duration
      StartEnergyCounter_ := startEnergyCounter
      CurrentEnergyCounter_ := currentEnergyCounter
      ChargedEnergy_ := chargedEnergy
      ChargePrice_ := fl.hundredth32 chargePrice
      FeeType_ := feeType
      ChargeFee_ := fl.hundredth32 chargeFee }
  some (newCharge, anyChanged
    [(CompareAndSet charge.Port_ newCharge.Port_).2,
     (CompareAndSet charge.ChargeState_ newCharge.ChargeState_).2,
     (CompareAndSet charge.ChargeId_ newCharge.ChargeId_).2,
     (CompareAndSet charge.StartType_ newCharge.StartType_).2,
     (CompareAndSet charge.ChargeType_ newCharge.ChargeType_).2,
     (CompareAndSetPtr charge.MaxDuration_ maxDuration).2,
     (CompareAndSetPtr charge.MaxEnergy_ maxEnergy).2,
     (CompareAndSetPtr charge.ReservationTime_ reservationTime).2,
     (CompareAndSet charge.UserId_ newCharge.UserId_).2,
     (CompareAndSet charge.MaxCurrent_ newCharge.MaxCurrent_).2,
     (CompareAndSetPtr charge.StartTime_ startTime).2,
     (CompareAndSet charge.Duration_ newCharge.Duration_).2,
     (CompareAndSet charge.StartEnergyCounter_ newCharge.StartEnergyCounter_).2,
     (CompareAndSet charge.CurrentEnergyCounter_ newCharge.CurrentEnergyCounter_).2,
     (CompareAndSet charge.ChargedEnergy_ newCharge.ChargedEnergy_).2,
     (CompareAndSet charge.ChargePrice_ newCharge.ChargePrice_).2,
     (CompareAndSet charge.FeeType_ newCharge.FeeType_).2,
     (CompareAndSet charge.ChargeFee_ newCharge.ChargeFee_).2])

/-- Source `SingleAcChargingHandler.Handle`. -/
def SingleAcChargingHandler.Handle (c : Communicator) (evse : Evse) (datagram : Datagram)
    (env : CallEnv) : Option (Communicator × Evse) :=
  if CheckPayloadLength datagram 74 then some (c, evse)
  else
    match chargingParse env.fl env.zones evse.charge datagram.Payload with
    | none => none
    | some (charge, changed) =>
      let evse := { evse with charge := { charge with LastFetched := some env.now } }
      let c := (SendDatagram c evse (ackDatagram CmdSingleACChargingAck 0) env).1
      let c := if changed then QueueEvent c (some evse) .EvseChargeUpdated env.now else c
      some (c, evse)

/-- The types of EVSE the login handler takes as three-phase. -/
def threePhaseTypes : List Nat := [10, 11, 12, 13, 14, 15, 22, 23, 24, 25]

/-- The statements of `LoginInfoHandler.Handle` that read the payload and update the info
section. -/
def loginInfoParse (info : EvseInfo) (p : List Nat) : Option (EvseInfo × Bool) :=
  orPanic (p[0]?) fun evseType =>
  orPanic (slice p 1 17) fun brandBytes =>
  orPanic (slice p 17 33) fun modelBytes =>
  orPanic (if p.length ≥ 151 then
      orPanic (slice p 119 135) fun brand2 =>
      orPanic (slice p 135 151) fun model2 =>
      some (ReadString brandBytes ++ ReadString brand2, ReadString modelBytes ++ ReadString model2)
    else some (ReadString brandBytes, ReadString modelBytes)) fun names =>
  orPanic (slice p 33 49) fun hardwareBytes =>
  orPanic (uint32At p 49) fun maxPower =>
  orPanic (p[53]?) fun (maxCurrent : Nat) =>
  let phases : Int := if threePhaseTypes.contains evseType then 3 else 1
  orPanic (if p.length ≥ 119 ∧ threePhaseTypes.contains evseType then p[70]?
    else some 0) fun byte70 =>
  let newInfo : EvseInfo :=
    { info with
      EvseType_ := evseType
      Brand_ := names.1
      Model_ := names.2
      HardwareVersion_ := ReadString hardwareBytes
      MaxPower_ := maxPower
      MaxCurrent_ := (maxCurrent : ℚ)
      Phases_ := phases
      Byte70_ := byte70 }
  some (newInfo, anyChanged
    [(CompareAndSet info.EvseType_ newInfo.EvseType_).2,
     (CompareAndSet info.Brand_ newInfo.Brand_).2,
     (CompareAndSet info.Model_ newInfo.Model_).2,
     (CompareAndSet info.HardwareVersion_ newInfo.HardwareVersion_).2,
     (CompareAndSet info.MaxPower_ newInfo.MaxPower_).2,
     (CompareAndSet info.MaxCurrent_ newInfo.MaxCurrent_).2,
     (CompareAndSet info.Phases_ newInfo.Phases_).2,
     (CompareAndSet info.Byte70_ newInfo.Byte70_).2])

/-- Source `LoginInfoHandler.Handle`. -/
def LoginInfoHandler.Handle (c : Communicator) (evse : Evse) (datagram : Datagram)
    (env : CallEnv) : Option (Communicator × Evse) :=
  if CheckPayloadLength datagram 54 then some (c, evse)
  else
    match loginInfoParse evse.info datagram.Payload with
    | none => none
    | some (info, changed) =>
      let evse := { evse with info := info }
      let c := if changed then QueueEvent c (some evse) .EvseInfoUpdated env.now else c
      some (c, evse)

/-- The statements of `VersionHandler.Handle` that read the payload and update the info
section. -/
def versionParse (info : EvseInfo) (p : List Nat) : Option (EvseInfo × Bool) :=
  orPanic (slice p 0 16) fun hardwareBytes =>
  orPanic (slice p 16 32) fun softwareBytes =>
  orPanic (uint32At p 32) fun feature =>
  orPanic (if p.length ≥ 37 then p[36]? else some info.SupportNew_) fun supportNew =>
  let newInfo : EvseInfo :=
    { info with
      HardwareVersion_ := ReadString hardwareBytes
      SoftwareVersion_ := ReadString softwareBytes
      Feature_ := feature
      SupportNew_ := supportNew }
  some (newInfo, anyChanged
    [(CompareAndSet info.HardwareVersion_ newInfo.HardwareVersion_).2,
     (CompareAndSet info.SoftwareVersion_ newInfo.SoftwareVersion_).2,
     (CompareAndSet info.Feature_ newInfo.Feature_).2,
     (CompareAndSet info.SupportNew_ newInfo.SupportNew_).2])

/-- Source `VersionHandler.Handle`. -/
def VersionHandler.Handle (c : Communicator) (evse : Evse) (datagram : Datagram)
    (env : CallEnv) : Option (Communicator × Evse) :=
  if CheckPayloadLength datagram 35 then some (c, evse)
  else
    match versionParse evse.info datagram.Payload with
    | none => none
    | some (info, changed) =>
      let evse := { evse with info := { info with LastFetched := some env.now } }
      let c := if changed then QueueEvent c (some evse) .EvseInfoUpdated env.now else c
      some (c, evse)

/-- The bytes of `"ACP#"`. -/
def acpPrefix : List Nat := [65, 67, 80, 35]

/-- The `switch` of `ConfigHandler.Handle`: the config section after it and the flag
`changed`. -/
def configParse (config : EvseConfig) (command : Nat) (p : List Nat) :
    Option (EvseConfig × Bool) :=
  if command = CmdSetAndGetLanguageResponse then
    orPanic (p[1]?) fun (b : Nat) =>
    some ({ config with Language_ := (CompareAndSet config.Language_ (b : Int)).1 },
      (CompareAndSet config.Language_ (b : Int)).2)
  else if command = CmdSetAndGetNameResponse then
    orPanic (slice p 1 p.length) fun nameBytes =>
    let name := ReadString nameBytes
    let name := if acpPrefix.isPrefixOf name then name.drop acpPrefix.length else name
    some ({ config with Name_ := (CompareAndSet config.Name_ name).1 },
      (CompareAndSet config.Name_ name).2)
  else if command = CmdSetAndGetTemperatureUnitResponse then
    orPanic (p[1]?) fun (b : Nat) =>
    some ({ config with TemperatureUnit_ := (CompareAndSet config.TemperatureUnit_ b).1 },
      (CompareAndSet config.TemperatureUnit_ b).2)
  else if command = CmdSetAndGetOfflineChargeResponse then
    orPanic (p[1]?) fun (b : Nat) =>
    some ({ config with
            OfflineCharge_ := (CompareAndSet config.OfflineCharge_ (decide (b = 0))).1 },
      (CompareAndSet config.OfflineCharge_ (decide (b = 0))).2)
  else if command = CmdSetAndGetMaxCurrentResponse then
    orPanic (p[1]?) fun (b : Nat) =>
    some ({ config with MaxCurrent_ := (CompareAndSet config.MaxCurrent_ (b : ℚ)).1 },
      (CompareAndSet config.MaxCurrent_ (b : ℚ)).2)
  else some (config, false)

/-- Source `ConfigHandler.Handle`. -/
def ConfigHandler.Handle (c : Communicator) (evse : Evse) (datagram : Datagram)
    (env : CallEnv) : Option (Communicator × Evse) :=
  if CheckPayloadLength datagram 2 then some (c, evse)
  else
    match configParse evse.config datagram.Command datagram.Payload with
    | none => none
    | some (config, changed) =>
      let evse := { evse with config := config }
      let c := if changed then QueueEvent c (some evse) .EvseConfigUpdated env.now else c
      some (c, evse)

/-- Source `HeadingHandler.Handle`; the goroutine that answers runs where it is started. -/
def HeadingHandler.Handle (c : Communicator) (evse : Evse) (_datagram : Datagram)
    (env : CallEnv) : Option (Communicator × Evse) :=
  match SendDatagram c evse (ackDatagram CmdHeadingResponse 0) env with
  | (c, none) => some (c, { evse with LastActiveLogin := some env.now })
  | (c, some _) => some (c, evse)

/-- Source `ChargeStartStopHandler.Handle`, which does nothing. -/
def ChargeStartStopHandler.Handle (c : Communicator) (evse : Evse) (_datagram : Datagram)
    (_env : CallEnv) : Option (Communicator × Evse) :=
  some (c, evse)

/-- Source `Handler`: the commands a handler takes and what it does with a datagram. -/
structure Handler where
  Handles : List Nat
  Handle : Communicator → Evse → Datagram → CallEnv → Option (Communicator × Evse)

/-- The handlers the `init` functions of the package `handlers` register. -/
def registeredHandlers : List Handler :=
  [{ Handles := [CmdChargeStartResponse, CmdChargeStopResponse]
     Handle := ChargeStartStopHandler.Handle },
   { Handles := [CmdSetAndGetLanguageResponse, CmdSetAndGetNameResponse,
       CmdSetAndGetTemperatureUnitResponse, CmdSetAndGetOfflineChargeResponse,
       CmdSetAndGetMaxCurrentResponse]
     Handle := ConfigHandler.Handle },
   { Handles := [CmdHeading], Handle := HeadingHandler.Handle },
   { Handles := [CmdLogin, CmdLoginResponse], Handle := LoginInfoHandler.Handle },
   { Handles := [CmdSingleACChargingPublicAuto, CmdSingleACChargingStatusResponse]
     Handle := SingleAcChargingHandler.Handle },
   { Handles := [CmdSingleACStatus], Handle := SingleAcStatusHandler.Handle },
   { Handles := [CmdGetVersionResponse], Handle := VersionHandler.Handle }]

/-- Source `handlerDelegator.Handle`: every handler that lists the command of the datagram
is run once; the result holds the number of handlers run. -/
def HandlerDelegator.Handle : List Handler → Communicator → Evse → Datagram → CallEnv →
    Option (Communicator × Evse × Nat)
  | [], c, evse, _, _ => some (c, evse, 0)
  | handler :: handlers, c, evse, datagram, env =>
    if handler.Handles.contains datagram.Command then
      match handler.Handle c evse datagram env with
      | none => none
      | some (c, evse) =>
        match HandlerDelegator.Handle handlers c evse datagram env with
        | none => none
        | some (c, evse, n) => some (c, evse, n + 1)
    else HandlerDelegator.Handle handlers c evse datagram env

/-- The address a datagram came from: whether it is a `*net.UDPAddr`, and its fields. -/
structure NetAddr where
  udp : Bool := true
  IP : List Nat := []
  Port : Int := 0
deriving DecidableEq, Repr

/-- The prefix `v4InV6Prefix` of an IPv4 address in 16-byte form. -/
def v4InV6Prefix : List Nat := [0, 0, 0, 0, 0, 0, 0, 0, 0, 0, 0xff, 0xff]

/-- Library `net.IP.Equal`. -/
def IPEqual (ip x : List Nat) : Bool :=
  if ip.length = x.length then decide (ip = x)
  else if ip.length = 4 ∧ x.length = 16 then
    decide (x.take 12 = v4InV6Prefix) && decide (ip = x.drop 12)
  else if ip.length = 16 ∧ x.length = 4 then
    decide (ip.take 12 = v4InV6Prefix) && decide (ip.drop 12 = x)
  else false

/-- Source `(*Evse).DatagramReceived`: the communicator and the record after the call,
`none` a runtime panic.  The goroutine `AutoLogin` it may start runs after the call. -/
def DatagramReceived (c : Communicator) (evse : Evse) (datagram : Datagram) (addr : NetAddr)
    (env : CallEnv) : Option (Communicator × Evse) :=
  if datagram.Serial ≠ evse.serial then some (c, evse)
  else
    let wasOnline := IsOnline evse env.now
    let evse := { evse with LastSeen := some env.now }
    let c := if !wasOnline then QueueEvent c (some evse) .EvseOnline env.now else c
    let ipChanged := addr.udp && !IPEqual evse.ip addr.IP
    let evse := if ipChanged then { evse with ip := addr.IP } else evse
    let portChanged := addr.udp && decide (evse.port ≠ addr.Port)
    let evse := if portChanged then { evse with port := addr.Port } else evse
    let c :=
      if ipChanged || portChanged then QueueEvent c (some evse) .EvseInfoUpdated env.now
      else c
    match HandlerDelegator.Handle registeredHandlers c evse datagram env with
    | none => none
    | some (c, evse, _) => some (c, unblockWaiters evse datagram)

/-! ## The ticker and the receive path (`internal/evse.go`, `communicator.go`) -/

/-- Source `(*Evse).Tick`: the communicator and the record after the call.  The goroutines
it starts for a record that is logged in (the fetches of charge, info and config) run
after the call. -/
def Tick (c : Communicator) (evse : Evse) (now : Int) : Communicator × Evse :=
  let r : Communicator × Evse :=
    if !IsLoggedIn evse now ∧ evse.LastActiveLogin.isSome then
      (QueueEvent c (some { evse with LastActiveLogin := none }) .EvseLoggedOut now,
        { evse with LastActiveLogin := none })
    else (c, evse)
  if !IsOnline r.2 now ∧ r.2.LastSeen.isSome then
    (QueueEvent r.1 (some { r.2 with LastSeen := none }) .EvseOffline now,
      { r.2 with LastSeen := none })
  else r

/-- Source `(*Communicator).packetReceived`; `none` is a runtime panic.  The registry
holds pointers, so the record `DatagramReceived` worked on is the one stored under its
serial after the call. -/
def packetReceived (c : Communicator) (data : List Nat) (addr : NetAddr) (env : CallEnv) :
    Option Communicator :=
  match Decode data with
  | none => none
  | some .ignored => some c
  | some (.invalidDatagram _ _) => some c
  | some (.parsed datagram) =>
    match defineEvseImpl c datagram.Serial env.now with
    | (c, evse) =>
      match DatagramReceived c evse datagram addr env with
      | none => none
      | some (c, evse) => some { c with evses := mapSet c.evses evse.serial evse }

/-- The number of bits set among the lowest `n` bits of `x`. -/
def popcount : Nat → Nat → Nat
  | 0, _ => 0
  | n + 1, x => x % 2 + popcount n (x / 2)

/-- The value got by OR-ing `1 << i` over the codes of a list. -/
def orBits (codes : List Nat) : Nat :=
  codes.foldl (fun acc i => acc ||| (1 <<< i)) 0

/-- A pair of zones in which the local offset changes: one hour east of UTC before the
instant 1000000 s, two hours from then on, with Asia/Shanghai eight hours east. -/
def changingZones : Zones :=
  { localOffset := fun t => if t < 1000000 * Second then 3600 else 7200
    shanghaiOffset := fun _ => 28800 }

/-- Source `(*Communicator).DefineEvse`. -/
def DefineEvse (c : Communicator) (serial : List Nat) (now : Int) : Communicator × Evse :=
  defineEvseImpl c serial now

/-- A communicator on which `DefineEvse(serial)` was called and the password pre-seated
with `UsePassword` on the record returned; the registry holds a pointer to the record, so
the password is in the entry of the registry. `none` is a runtime panic. -/
def definedWithPassword (serial password : List Nat) (env : CallEnv) : Option Communicator :=
  match DefineEvse { udpConn := true } serial env.now with
  | (c, evse) =>
    match UsePassword c evse password env env with
    | none => none
    | some (c, evse, _) => some { c with evses := mapSet c.evses evse.serial evse }

/-! ## Lemmas on the Go primitives -/

theorem hexDigitVal_lt (c : Nat) (h : isHexDigit c = true) : hexDigitVal c < 16 := by
  simp only [isHexDigit, Bool.or_eq_true, Bool.and_eq_true, decide_eq_true_eq] at h
  unfold hexDigitVal
  split_ifs <;> omega

theorem skipSpace_hex (a : Nat) (rest : List Nat) (h : isHexDigit a = true) :
    skipSpace (a :: rest) = some (a :: rest) := by
  simp only [isHexDigit, Bool.or_eq_true, Bool.and_eq_true, decide_eq_true_eq] at h
  have h13 : a ≠ 13 := by omega
  have h10 : a ≠ 10 := by omega
  have hsp : isScanSpace a = false := by
    simp only [isScanSpace, Bool.or_eq_false_iff, decide_eq_false_iff_not]
    omega
  simp [skipSpace, h13, h10, hsp]

theorem Sscanf_two_hex (a b : Nat) (ha : isHexDigit a = true) (hb : isHexDigit b = true) :
    SscanfHexByte [a, b] = some (hexDigitVal a * 16 + hexDigitVal b) := by
  have h1 := hexDigitVal_lt a ha
  have h2 := hexDigitVal_lt b hb
  simp [SscanfHexByte, skipSpace_hex a [b] ha, List.takeWhile, ha, hb]
  omega

theorem length_eq_sixteen (s : List Nat) (h : s.length = 16) :
    ∃ a0 a1 a2 a3 a4 a5 a6 a7 a8 a9 a10 a11 a12 a13 a14 a15,
      s = [a0, a1, a2, a3, a4, a5, a6, a7, a8, a9, a10, a11, a12, a13, a14, a15] := by
  rcases s with _ | ⟨a0, _ | ⟨a1, _ | ⟨a2, _ | ⟨a3, _ | ⟨a4, _ | ⟨a5, _ | ⟨a6, _ | ⟨a7,
    _ | ⟨a8, _ | ⟨a9, _ | ⟨a10, _ | ⟨a11, _ | ⟨a12, _ | ⟨a13, _ | ⟨a14, _ | ⟨a15,
    _ | ⟨a16, s⟩⟩⟩⟩⟩⟩⟩⟩⟩⟩⟩⟩⟩⟩⟩⟩⟩ <;> simp at h
  exact ⟨_, _, _, _, _, _, _, _, _, _, _, _, _, _, _, _, rfl⟩

theorem length_eq_six (s : List Nat) (h : s.length = 6) :
    ∃ a0 a1 a2 a3 a4 a5, s = [a0, a1, a2, a3, a4, a5] := by
  rcases s with _ | ⟨a0, _ | ⟨a1, _ | ⟨a2, _ | ⟨a3, _ | ⟨a4, _ | ⟨a5, _ | ⟨a6, s⟩⟩⟩⟩⟩⟩⟩ <;>
    simp at h
  exact ⟨_, _, _, _, _, _, rfl⟩

theorem isLowerHex_iff (c : Nat) :
    isLowerHex c = true ↔ (48 ≤ c ∧ c ≤ 57) ∨ (97 ≤ c ∧ c ≤ 102) := by
  simp [isLowerHex]

theorem isAsciiDigit_iff (c : Nat) : isAsciiDigit c = true ↔ 48 ≤ c ∧ c ≤ 57 := by
  simp [isAsciiDigit]

theorem isHexDigit_of_lower (c : Nat) (h : isLowerHex c = true) : isHexDigit c = true := by
  rw [isLowerHex_iff] at h
  simp only [isHexDigit, Bool.or_eq_true, Bool.and_eq_true, decide_eq_true_eq]
  omega

theorem lowerHex_roundtrip (a b : Nat) (ha : isLowerHex a = true) (hb : isLowerHex b = true) :
    lowerHexDigit ((hexDigitVal a * 16 + hexDigitVal b) / 16 % 16) = a ∧
    lowerHexDigit ((hexDigitVal a * 16 + hexDigitVal b) % 16) = b := by
  rw [isLowerHex_iff] at ha hb
  unfold lowerHexDigit hexDigitVal
  constructor <;> split_ifs <;> omega

theorem checksum_lt (bytes : List Nat) : checksum bytes < 65535 := by
  unfold checksum
  induction bytes using List.reverseRecOn with
  | nil => simp
  | append_singleton l a _ =>
    rw [List.foldl_append]
    simp only [List.foldl_cons, List.foldl_nil]
    exact Nat.mod_lt _ (by norm_num)

theorem ReadString_zero : ReadString (List.replicate 6 0) = [] := by decide

theorem ReadString_digits (p : List Nat) (hlen : p.length = 6) (hd : ∀ c ∈ p, isAsciiDigit c = true) :
    ReadString p = p := by
  obtain ⟨a0, a1, a2, a3, a4, a5, rfl⟩ := length_eq_six p hlen
  have h0 := hd a0 (by simp)
  have h5 := hd a5 (by simp)
  rw [isAsciiDigit_iff] at h0 h5
  have c0 : inCutset a0 = false := by
    simp only [inCutset, RuneError, Bool.or_eq_false_iff, decide_eq_false_iff_not]; omega
  have c5 : inCutset a5 = false := by
    simp only [inCutset, RuneError, Bool.or_eq_false_iff, decide_eq_false_iff_not]; omega
  have g0 : ¬ a0 ≥ 128 := by omega
  have g5 : ¬ a5 ≥ 128 := by omega
  simp [ReadString, trimRightUnicode, trimLeftUnicode, c0, c5, g0, g5]

/-! ## The buffer `Encode` builds -/

theorem copyInto_at (A B C src : List Nat) (lo hi : Nat) (hlo : A.length = lo)
    (hhi : lo + B.length = hi) (hsrc : src.length = B.length) :
    copyInto (A ++ B ++ C) lo hi src = A ++ src ++ C := by
  subst hlo hhi
  unfold copyInto
  have h1 : A.length + B.length - A.length = src.length := by omega
  rw [h1, List.take_length, Nat.min_self, List.append_assoc A B C, List.take_left,
    ← List.append_assoc, hsrc, ← List.length_append, List.drop_left]

theorem copyInto_eq (l A B C src : List Nat) (lo hi : Nat) (hl : l = A ++ B ++ C)
    (hlo : A.length = lo) (hhi : lo + B.length = hi) (hsrc : src.length = B.length) :
    copyInto l lo hi src = A ++ src ++ C := by
  subst hl
  exact copyInto_at A B C src lo hi hlo hhi hsrc

theorem putUint16_length (v : Nat) : (putUint16 v).length = 2 := rfl

theorem copyInto_tail (F : List Nat) :
    copyInto
      (copyInto (F ++ [0, 0, 0, 0]) ((F ++ [0, 0, 0, 0]).length - 4)
        ((F ++ [0, 0, 0, 0]).length - 2)
        (putUint16 (checksum ((F ++ [0, 0, 0, 0]).take ((F ++ [0, 0, 0, 0]).length - 4)))))
      ((copyInto (F ++ [0, 0, 0, 0]) ((F ++ [0, 0, 0, 0]).length - 4)
        ((F ++ [0, 0, 0, 0]).length - 2)
        (putUint16 (checksum ((F ++ [0, 0, 0, 0]).take
          ((F ++ [0, 0, 0, 0]).length - 4))))).length - 2)
      (copyInto (F ++ [0, 0, 0, 0]) ((F ++ [0, 0, 0, 0]).length - 4)
        ((F ++ [0, 0, 0, 0]).length - 2)
        (putUint16 (checksum ((F ++ [0, 0, 0, 0]).take
          ((F ++ [0, 0, 0, 0]).length - 4))))).length
      (putUint16 0x0F02) = F ++ putUint16 (checksum F) ++ [0x0F, 0x02] := by
  have hlen : (F ++ [0, 0, 0, 0]).length - 4 = F.length := by simp
  have hlen2 : (F ++ [0, 0, 0, 0]).length - 2 = F.length + 2 := by simp
  rw [hlen, hlen2, List.take_left]
  rw [copyInto_eq (F ++ [0, 0, 0, 0]) F [0, 0] [0, 0] (putUint16 (checksum F)) F.length
    (F.length + 2) (by simp) rfl rfl rfl]
  have hlen3 : (F ++ putUint16 (checksum F) ++ [0, 0]).length = F.length + 4 := by
    simp [putUint16_length]
  rw [hlen3]
  rw [copyInto_eq (F ++ putUint16 (checksum F) ++ [0, 0]) (F ++ putUint16 (checksum F)) [0, 0] []
    (putUint16 0x0F02) (F.length + 4 - 2) (F.length + 4) (by simp)
    (by simp [putUint16_length]) (by simp) rfl]
  simp [putUint16]

theorem passwordField_length (pw : List Nat) : (passwordField pw).length = 6 := by
  unfold passwordField
  split_ifs with h
  · simp
  · omega

theorem Encode_eq_frame (d : Datagram)
    (a0 a1 a2 a3 a4 a5 a6 a7 a8 a9 a10 a11 a12 a13 a14 a15 b0 b1 b2 b3 b4 b5 b6 b7 : Nat)
    (hs : d.Serial = [a0, a1, a2, a3, a4, a5, a6, a7, a8, a9, a10, a11, a12, a13, a14, a15])
    (h0 : SscanfHexByte [a0, a1] = some b0) (h1 : SscanfHexByte [a2, a3] = some b1)
    (h2 : SscanfHexByte [a4, a5] = some b2) (h3 : SscanfHexByte [a6, a7] = some b3)
    (h4 : SscanfHexByte [a8, a9] = some b4) (h5 : SscanfHexByte [a10, a11] = some b5)
    (h6 : SscanfHexByte [a12, a13] = some b6) (h7 : SscanfHexByte [a14, a15] = some b7) :
    Encode (some d) = .ok (frameOf d [b0, b1, b2, b3, b4, b5, b6, b7]) := by
  obtain ⟨key, serial, pw, cmd, payload⟩ := d
  simp only at hs
  subst hs
  have hrep : List.replicate (25 + payload.length) 0 =
      0 :: 0 :: 0 :: 0 :: 0 :: 0 :: 0 :: 0 :: 0 :: 0 :: 0 :: 0 :: 0 :: 0 :: 0 :: 0 :: 0 :: 0 ::
        0 :: 0 :: 0 :: (List.replicate payload.length 0 ++ [0, 0, 0, 0]) := by
    rw [show 25 + payload.length = 21 + (payload.length + 4) by omega, List.replicate_add,
      List.replicate_add]
    rfl
  have hA : encodeSerial [a0, a1, a2, a3, a4, a5, a6, a7, a8, a9, a10, a11, a12, a13, a14, a15]
      8 0 ((copyInto (copyInto (List.replicate (25 + payload.length) 0) 0 2 (putUint16 0x0601))
        2 4 (putUint16 ((25 + payload.length) % 65536))).set 4 key) =
      .ok (([6, 1] ++ putUint16 ((25 + payload.length) % 65536) ++ [key] ++
        [b0, b1, b2, b3, b4, b5, b6, b7]) ++ List.replicate 6 0 ++
        ([0, 0] ++ List.replicate payload.length 0 ++ [0, 0, 0, 0])) := by
    rw [hrep]
    simp [copyInto, putUint16, encodeSerial, h0, h1, h2, h3, h4, h5, h6, h7]
  have hB : ∀ A C : List Nat, A.length = 13 →
      (if pw.length ≠ 6 then zeroPassword (A ++ List.replicate 6 0 ++ C)
        else copyInto (A ++ List.replicate 6 0 ++ C) 13 19 pw) = A ++ passwordField pw ++ C := by
    intro A C hA
    unfold passwordField
    split_ifs with h
    · obtain ⟨x0, x1, x2, x3, x4, x5, x6, x7, x8, x9, x10, x11, x12, hx⟩ :
          ∃ x0 x1 x2 x3 x4 x5 x6 x7 x8 x9 x10 x11 x12,
            A = [x0, x1, x2, x3, x4, x5, x6, x7, x8, x9, x10, x11, x12] := by
        rcases A with _ | ⟨x0, _ | ⟨x1, _ | ⟨x2, _ | ⟨x3, _ | ⟨x4, _ | ⟨x5, _ | ⟨x6, _ | ⟨x7,
          _ | ⟨x8, _ | ⟨x9, _ | ⟨x10, _ | ⟨x11, _ | ⟨x12, _ | ⟨x13, A⟩⟩⟩⟩⟩⟩⟩⟩⟩⟩⟩⟩⟩⟩ <;>
          simp at hA
        exact ⟨_, _, _, _, _, _, _, _, _, _, _, _, _, rfl⟩
      subst hx
      simp [zeroPassword, List.replicate]
    · exact copyInto_at A (List.replicate 6 0) C pw 13 19 hA (by simp) (by simp; omega)
  simp only [Encode, List.length_cons, List.length_nil]
  simp only [ne_eq, not_true_eq_false, ↓reduceIte, hA]
  rw [hB _ _ (by simp [putUint16])]
  have hP19 : ([6, 1] ++ putUint16 ((25 + payload.length) % 65536) ++ [key] ++
      [b0, b1, b2, b3, b4, b5, b6, b7] ++ passwordField pw).length = 19 := by
    simp [putUint16_length, passwordField_length]
  rw [copyInto_eq _ ([6, 1] ++ putUint16 ((25 + payload.length) % 65536) ++ [key] ++
      [b0, b1, b2, b3, b4, b5, b6, b7] ++ passwordField pw) [0, 0]
      (List.replicate payload.length 0 ++ [0, 0, 0, 0]) (putUint16 cmd) 19 21
      (by simp only [List.append_assoc]) hP19 rfl rfl]
  rw [copyInto_eq _ ([6, 1] ++ putUint16 ((25 + payload.length) % 65536) ++ [key] ++
      [b0, b1, b2, b3, b4, b5, b6, b7] ++ passwordField pw ++ putUint16 cmd)
      (List.replicate payload.length 0) [0, 0, 0, 0] payload 21 (21 + payload.length)
      (by simp only [List.append_assoc])
      (by rw [List.length_append, hP19, putUint16_length]) (by simp) (by simp)]
  have hbody : [6, 1] ++ putUint16 ((25 + payload.length) % 65536) ++ [key] ++
      [b0, b1, b2, b3, b4, b5, b6, b7] ++ passwordField pw ++ putUint16 cmd ++ payload =
      frameBody ⟨key, [a0, a1, a2, a3, a4, a5, a6, a7, a8, a9, a10, a11, a12, a13, a14, a15],
        pw, cmd, payload⟩ [b0, b1, b2, b3, b4, b5, b6, b7] := rfl
  rw [hbody]
  simp only [frameOf]
  rw [copyInto_tail]

/-! ## `Decode` on a frame given by its parts -/

theorem slice_eq (l A B C : List Nat) (lo hi : Nat) (hl : l = A ++ B ++ C)
    (hlo : A.length = lo) (hhi : lo + B.length = hi) : slice l lo hi = some B := by
  subst hl hlo hhi
  unfold slice
  rw [if_pos (by simp)]
  rw [List.append_assoc, ← List.length_append, ← List.append_assoc, List.take_left,
    List.drop_left]

theorem Decode_parts (data : List Nat) (m0 m1 l0 l1 key c0 c1 k0 k1 t0 t1 : Nat)
    (sb pwf payload : List Nat) (hsb : sb.length = 8) (hpw : pwf.length = 6)
    (hdata : data = [m0, m1, l0, l1, key] ++ sb ++ pwf ++ [c0, c1] ++ payload ++
      [k0, k1, t0, t1]) :
    Decode data =
      if m0 * 256 + m1 ≠ 0x0601 then some .ignored
      else if l0 * 256 + l1 ≠ (25 + payload.length) % 65536 then some .ignored
      else if checksum ([m0, m1, l0, l1, key] ++ sb ++ pwf ++ [c0, c1] ++ payload) ≠
          k0 * 256 + k1 then
        some (.invalidDatagram
          (checksum ([m0, m1, l0, l1, key] ++ sb ++ pwf ++ [c0, c1] ++ payload))
          (k0 * 256 + k1))
      else some (.parsed
        { Key := key, Serial := sprintfHex sb, Password := ReadString pwf,
          Command := c0 * 256 + c1, Payload := payload }) := by
  have hlen : data.length = 25 + payload.length := by
    subst hdata
    simp [hsb, hpw]
    omega
  have h01 : slice data 0 2 = some [m0, m1] :=
    slice_eq data [] [m0, m1] ([l0, l1, key] ++ sb ++ pwf ++ [c0, c1] ++ payload ++
      [k0, k1, t0, t1]) 0 2 (by subst hdata; simp) rfl rfl
  have h23 : slice data 2 4 = some [l0, l1] :=
    slice_eq data [m0, m1] [l0, l1] ([key] ++ sb ++ pwf ++ [c0, c1] ++ payload ++
      [k0, k1, t0, t1]) 2 4 (by subst hdata; simp) rfl rfl
  have hck : slice data (25 + payload.length - 4) (25 + payload.length - 2) = some [k0, k1] :=
    slice_eq data ([m0, m1, l0, l1, key] ++ sb ++ pwf ++ [c0, c1] ++ payload) [k0, k1] [t0, t1]
      _ _ (by subst hdata; simp) (by simp [hsb, hpw]; omega) (by simp; omega)
  have hbody : slice data 0 (25 + payload.length - 4) =
      some ([m0, m1, l0, l1, key] ++ sb ++ pwf ++ [c0, c1] ++ payload) :=
    slice_eq data [] ([m0, m1, l0, l1, key] ++ sb ++ pwf ++ [c0, c1] ++ payload)
      [k0, k1, t0, t1] _ _ (by subst hdata; simp) rfl (by simp [hsb, hpw]; omega)
  have hkey : data[4]? = some key := by subst hdata; simp
  have hser : slice data 5 13 = some sb :=
    slice_eq data [m0, m1, l0, l1, key] sb (pwf ++ [c0, c1] ++ payload ++ [k0, k1, t0, t1])
      5 13 (by subst hdata; simp) rfl (by omega)
  have hpass : slice data 13 19 = some pwf :=
    slice_eq data ([m0, m1, l0, l1, key] ++ sb) pwf ([c0, c1] ++ payload ++ [k0, k1, t0, t1])
      13 19 (by subst hdata; simp) (by simp [hsb]) (by omega)
  have hcmd : slice data 19 21 = some [c0, c1] :=
    slice_eq data ([m0, m1, l0, l1, key] ++ sb ++ pwf) [c0, c1] (payload ++ [k0, k1, t0, t1])
      19 21 (by subst hdata; simp) (by simp [hsb, hpw]) rfl
  have hpay : slice data 21 (25 + payload.length - 4) = some payload :=
    slice_eq data ([m0, m1, l0, l1, key] ++ sb ++ pwf ++ [c0, c1]) payload [k0, k1, t0, t1]
      21 _ (by subst hdata; simp) (by simp [hsb, hpw]) (by omega)
  unfold Decode
  rw [hlen, if_neg (by omega), h01, h23, hck, hbody, hkey, hser, hpass, hcmd, hpay]
  simp only [Option.bind, Uint16, Option.some_bind]

theorem putUint16_value (v : Nat) (h : v < 65536) : v / 256 % 256 * 256 + v % 256 = v := by
  omega

theorem Decode_frameOf (d : Datagram) (sb : List Nat) (hsb : sb.length = 8) :
    Decode (frameOf d sb) = some (.parsed
      { Key := d.Key, Serial := sprintfHex sb, Password := ReadString (passwordField d.Password),
        Command := d.Command / 256 % 256 * 256 + d.Command % 256, Payload := d.Payload }) := by
  have hck := checksum_lt (frameBody d sb)
  rw [Decode_parts (frameOf d sb) 6 1 ((25 + d.Payload.length) % 65536 / 256 % 256)
    ((25 + d.Payload.length) % 65536 % 256) d.Key (d.Command / 256 % 256) (d.Command % 256)
    (checksum (frameBody d sb) / 256 % 256) (checksum (frameBody d sb) % 256) 0x0F 0x02
    sb (passwordField d.Password) d.Payload hsb (passwordField_length _)
    (by simp [frameOf, frameBody, putUint16])]
  have hbody : [6, 1, (25 + d.Payload.length) % 65536 / 256 % 256,
      (25 + d.Payload.length) % 65536 % 256, d.Key] ++ sb ++ passwordField d.Password ++
      [d.Command / 256 % 256, d.Command % 256] ++ d.Payload = frameBody d sb := by
    simp [frameBody, putUint16]
  rw [hbody, if_neg (by norm_num), if_neg (by omega), if_neg (by omega)]

/-- C1. Codec round trip: for every datagram whose serial is 16 lowercase hexadecimal
characters and whose password is empty or exactly 6 ASCII digits (the command being a
16-bit value), `Encode` succeeds and `Decode` of the frame returns a parsed datagram with
the same key, serial, password, command and payload.  It holds for every payload length,
so for the payloads of at most 65510 bytes in particular. -/
theorem codec_round_trip (d : Datagram)
    (hserial : d.Serial.length = 16 ∧ ∀ c ∈ d.Serial, isLowerHex c = true)
    (hpw : d.Password = [] ∨ (d.Password.length = 6 ∧ ∀ c ∈ d.Password, isAsciiDigit c = true))
    (hcmd : d.Command < 65536) :
    ∃ f, Encode (some d) = .ok f ∧ Decode f = some (.parsed d) := by
  obtain ⟨hlen, hhex⟩ := hserial
  obtain ⟨a0, a1, a2, a3, a4, a5, a6, a7, a8, a9, a10, a11, a12, a13, a14, a15, hs⟩ :=
    length_eq_sixteen d.Serial hlen
  rw [hs] at hhex
  have x0 := hhex a0 (by simp)
  have x1 := hhex a1 (by simp)
  have x2 := hhex a2 (by simp)
  have x3 := hhex a3 (by simp)
  have x4 := hhex a4 (by simp)
  have x5 := hhex a5 (by simp)
  have x6 := hhex a6 (by simp)
  have x7 := hhex a7 (by simp)
  have x8 := hhex a8 (by simp)
  have x9 := hhex a9 (by simp)
  have x10 := hhex a10 (by simp)
  have x11 := hhex a11 (by simp)
  have x12 := hhex a12 (by simp)
  have x13 := hhex a13 (by simp)
  have x14 := hhex a14 (by simp)
  have x15 := hhex a15 (by simp)
  refine ⟨_, Encode_eq_frame d a0 a1 a2 a3 a4 a5 a6 a7 a8 a9 a10 a11 a12 a13 a14 a15
    _ _ _ _ _ _ _ _ hs
    (Sscanf_two_hex a0 a1 (isHexDigit_of_lower _ x0) (isHexDigit_of_lower _ x1))
    (Sscanf_two_hex a2 a3 (isHexDigit_of_lower _ x2) (isHexDigit_of_lower _ x3))
    (Sscanf_two_hex a4 a5 (isHexDigit_of_lower _ x4) (isHexDigit_of_lower _ x5))
    (Sscanf_two_hex a6 a7 (isHexDigit_of_lower _ x6) (isHexDigit_of_lower _ x7))
    (Sscanf_two_hex a8 a9 (isHexDigit_of_lower _ x8) (isHexDigit_of_lower _ x9))
    (Sscanf_two_hex a10 a11 (isHexDigit_of_lower _ x10) (isHexDigit_of_lower _ x11))
    (Sscanf_two_hex a12 a13 (isHexDigit_of_lower _ x12) (isHexDigit_of_lower _ x13))
    (Sscanf_two_hex a14 a15 (isHexDigit_of_lower _ x14) (isHexDigit_of_lower _ x15)), ?_⟩
  rw [Decode_frameOf d _ (by rfl), putUint16_value _ hcmd]
  have hser : sprintfHex [hexDigitVal a0 * 16 + hexDigitVal a1,
      hexDigitVal a2 * 16 + hexDigitVal a3, hexDigitVal a4 * 16 + hexDigitVal a5,
      hexDigitVal a6 * 16 + hexDigitVal a7, hexDigitVal a8 * 16 + hexDigitVal a9,
      hexDigitVal a10 * 16 + hexDigitVal a11, hexDigitVal a12 * 16 + hexDigitVal a13,
      hexDigitVal a14 * 16 + hexDigitVal a15] = d.Serial := by
    rw [hs]
    simp only [sprintfHex, List.flatMap_cons, List.flatMap_nil, List.cons_append,
      List.nil_append, List.append_nil,
      (lowerHex_roundtrip a0 a1 x0 x1).1, (lowerHex_roundtrip a0 a1 x0 x1).2,
      (lowerHex_roundtrip a2 a3 x2 x3).1, (lowerHex_roundtrip a2 a3 x2 x3).2,
      (lowerHex_roundtrip a4 a5 x4 x5).1, (lowerHex_roundtrip a4 a5 x4 x5).2,
      (lowerHex_roundtrip a6 a7 x6 x7).1, (lowerHex_roundtrip a6 a7 x6 x7).2,
      (lowerHex_roundtrip a8 a9 x8 x9).1, (lowerHex_roundtrip a8 a9 x8 x9).2,
      (lowerHex_roundtrip a10 a11 x10 x11).1, (lowerHex_roundtrip a10 a11 x10 x11).2,
      (lowerHex_roundtrip a12 a13 x12 x13).1, (lowerHex_roundtrip a12 a13 x12 x13).2,
      (lowerHex_roundtrip a14 a15 x14 x15).1, (lowerHex_roundtrip a14 a15 x14 x15).2]
  have hpass : ReadString (passwordField d.Password) = d.Password := by
    rcases hpw with h | ⟨h6, hd⟩
    · rw [h]
      decide
    · rw [passwordField, if_neg (by simpa using h6)]
      exact ReadString_digits _ h6 hd
  rw [hser, hpass]

theorem codec_round_trip_witness :
    ∃ f, Encode (some ⟨7, [97, 97, 98, 98, 99, 99, 100, 100, 101, 101, 102, 102, 48, 48, 49, 49],
        [49, 50, 51, 52, 53, 54], 0x8002, [0]⟩) = .ok f ∧
      Decode f = some (.parsed ⟨7,
        [97, 97, 98, 98, 99, 99, 100, 100, 101, 101, 102, 102, 48, 48, 49, 49],
        [49, 50, 51, 52, 53, 54], 0x8002, [0]⟩) :=
  codec_round_trip ⟨7, [97, 97, 98, 98, 99, 99, 100, 100, 101, 101, 102, 102, 48, 48, 49, 49],
    [49, 50, 51, 52, 53, 54], 0x8002, [0]⟩ ⟨by decide, by decide⟩
    (Or.inr ⟨by decide, by decide⟩) (by decide)

theorem frame_parts (b : List Nat) (h : 25 ≤ b.length) :
    ∃ m0 m1 l0 l1 key c0 c1 k0 k1 t0 t1 sb pwf payload, sb.length = 8 ∧ pwf.length = 6 ∧
      b = [m0, m1, l0, l1, key] ++ sb ++ pwf ++ [c0, c1] ++ payload ++ [k0, k1, t0, t1] := by
  obtain ⟨hd, rest, hhd, rfl⟩ : ∃ hd rest, hd.length = 21 ∧ b = hd ++ rest :=
    ⟨b.take 21, b.drop 21, by simp; omega, (List.take_append_drop 21 b).symm⟩
  have hrest : 4 ≤ rest.length := by simp at h; omega
  obtain ⟨payload, tl, htl, rfl⟩ : ∃ payload tl, tl.length = 4 ∧ rest = payload ++ tl :=
    ⟨rest.take (rest.length - 4), rest.drop (rest.length - 4), by simp; omega,
      (List.take_append_drop _ rest).symm⟩
  rcases tl with _ | ⟨k0, _ | ⟨k1, _ | ⟨t0, _ | ⟨t1, _ | ⟨t2, tl⟩⟩⟩⟩⟩ <;> simp at htl
  rcases hd with _ | ⟨x0, _ | ⟨x1, _ | ⟨x2, _ | ⟨x3, _ | ⟨x4, _ | ⟨x5, _ | ⟨x6, _ | ⟨x7,
    _ | ⟨x8, _ | ⟨x9, _ | ⟨x10, _ | ⟨x11, _ | ⟨x12, _ | ⟨x13, _ | ⟨x14, _ | ⟨x15,
    _ | ⟨x16, _ | ⟨x17, _ | ⟨x18, _ | ⟨x19, _ | ⟨x20, _ | ⟨x21, hd⟩⟩⟩⟩⟩⟩⟩⟩⟩⟩⟩⟩⟩⟩⟩⟩⟩⟩⟩⟩⟩⟩ <;>
    simp at hhd
  exact ⟨x0, x1, x2, x3, x4, x19, x20, k0, k1, t0, t1, [x5, x6, x7, x8, x9, x10, x11, x12],
    [x13, x14, x15, x16, x17, x18], payload, rfl, rfl, by simp⟩

theorem getD_append_at (A B : List Nat) (i j : Nat) (h : i = A.length + j) :
    (A ++ B).getD i 0 = B.getD j 0 := by
  subst h
  rw [List.getD_append_right _ _ _ _ (by omega)]
  simp

/-- C2. `Decode` classifies every sequence `b` of at most 65535 bytes into exactly one of
three outcomes and never indexes out of range (the result is never the panic `none`): it
returns the ignore result iff `len b < 25`, or bytes 0..1 are not `06 01`, or the 16-bit
value in bytes 2..3 differs from `len b`; it returns the error iff none of those hold and
the 16-bit value at `b[len-4..len-2]` differs from the checksum of `b[0..len-4)`; otherwise
it returns a parsed datagram. -/
theorem Decode_classification (b : List Nat) (hbytes : ∀ x ∈ b, x < 256)
    (hlen : b.length ≤ 65535) :
    ∃ r, Decode b = some r ∧
      (r = .ignored ↔ notOurProtocol b = true) ∧
      ((∃ c p, r = .invalidDatagram c p) ↔
        (notOurProtocol b = false ∧ checksumMismatch b = true)) ∧
      ((∃ d, r = .parsed d) ↔ (notOurProtocol b = false ∧ checksumMismatch b = false)) := by
  by_cases hshort : b.length < 25
  · refine ⟨.ignored, by simp [Decode, hshort], ?_, ?_, ?_⟩ <;> simp [notOurProtocol, hshort]
  · obtain ⟨m0, m1, l0, l1, key, c0, c1, k0, k1, t0, t1, sb, pwf, payload, hsb, hpw, hb⟩ :=
      frame_parts b (by omega)
    have hdec := Decode_parts b m0 m1 l0 l1 key c0 c1 k0 k1 t0 t1 sb pwf payload hsb hpw hb
    have hlenb : b.length = 25 + payload.length := by subst hb; simp [hsb, hpw]; omega
    have hm0 : m0 < 256 := hbytes m0 (by subst hb; simp)
    have hm1 : m1 < 256 := hbytes m1 (by subst hb; simp)
    have g0 : b.getD 0 0 = m0 := by subst hb; simp
    have g1 : b.getD 1 0 = m1 := by subst hb; simp
    have g2 : b.getD 2 0 = l0 := by subst hb; simp
    have g3 : b.getD 3 0 = l1 := by subst hb; simp
    have hbody : b.take (b.length - 4) =
        [m0, m1, l0, l1, key] ++ sb ++ pwf ++ [c0, c1] ++ payload := by
      rw [hb]
      apply List.take_left'
      simp [hsb, hpw]; omega
    have gk0 : b.getD (b.length - 4) 0 = k0 := by
      rw [hlenb, hb]
      exact getD_append_at _ [k0, k1, t0, t1] _ 0 (by simp [hsb, hpw]; omega)
    have gk1 : b.getD (b.length - 4 + 1) 0 = k1 := by
      rw [hlenb, hb]
      exact getD_append_at _ [k0, k1, t0, t1] _ 1 (by simp [hsb, hpw]; omega)
    have hmagic : m0 * 256 + m1 = 1537 ↔ (m0 = 6 ∧ m1 = 1) := by omega
    have hmod : (25 + payload.length) % 65536 = 25 + payload.length := by omega
    rw [hmod] at hdec
    have hnot : notOurProtocol b = true ↔
        (m0 * 256 + m1 ≠ 1537 ∨ l0 * 256 + l1 ≠ 25 + payload.length) := by
      simp only [notOurProtocol, be16At, g0, g1, g2, g3, hlenb, Bool.or_eq_true,
        decide_eq_true_eq, Bool.not_eq_true', Bool.and_eq_false_iff, beq_eq_false_iff_ne]
      omega
    have hmis : checksumMismatch b = true ↔
        checksum ([m0, m1, l0, l1, key] ++ sb ++ pwf ++ [c0, c1] ++ payload) ≠
          k0 * 256 + k1 := by
      simp only [checksumMismatch, be16At, gk0, gk1, hbody, decide_eq_true_eq]
      exact ne_comm
    by_cases h1 : m0 * 256 + m1 ≠ 1537
    · rw [if_pos h1] at hdec
      have hn : notOurProtocol b = true := hnot.2 (Or.inl h1)
      exact ⟨_, hdec, by simp [hn], by simp [hn], by simp [hn]⟩
    · rw [if_neg h1] at hdec
      by_cases h2 : l0 * 256 + l1 ≠ 25 + payload.length
      · rw [if_pos h2] at hdec
        have hn : notOurProtocol b = true := hnot.2 (Or.inr h2)
        exact ⟨_, hdec, by simp [hn], by simp [hn], by simp [hn]⟩
      · rw [if_neg h2] at hdec
        have hn : notOurProtocol b = false := by
          rw [← Bool.not_eq_true, hnot]
          exact fun h => h.elim h1 h2
        by_cases h3 : checksum ([m0, m1, l0, l1, key] ++ sb ++ pwf ++ [c0, c1] ++ payload) ≠
            k0 * 256 + k1
        · rw [if_pos h3] at hdec
          have hm : checksumMismatch b = true := hmis.2 h3
          exact ⟨_, hdec, by simp [hn], by simp [hn, hm], by simp [hn, hm]⟩
        · rw [if_neg h3] at hdec
          have hm : checksumMismatch b = false := by
            rw [← Bool.not_eq_true, hmis]
            exact h3
          exact ⟨_, hdec, by simp [hn], by simp [hn, hm], by simp [hn, hm]⟩

theorem Decode_classification_witness :
    ∃ r, Decode [6, 1, 0, 26, 7, 170, 187, 204, 221, 238, 255, 0, 17, 49, 50, 51, 52, 53, 54,
        128, 2, 0, 6, 235, 15, 2] = some r ∧
      (r = .ignored ↔ notOurProtocol [6, 1, 0, 26, 7, 170, 187, 204, 221, 238, 255, 0, 17, 49,
        50, 51, 52, 53, 54, 128, 2, 0, 6, 235, 15, 2] = true) ∧
      ((∃ c p, r = .invalidDatagram c p) ↔
        (notOurProtocol [6, 1, 0, 26, 7, 170, 187, 204, 221, 238, 255, 0, 17, 49, 50, 51, 52,
          53, 54, 128, 2, 0, 6, 235, 15, 2] = false ∧
        checksumMismatch [6, 1, 0, 26, 7, 170, 187, 204, 221, 238, 255, 0, 17, 49, 50, 51, 52,
          53, 54, 128, 2, 0, 6, 235, 15, 2] = true)) ∧
      ((∃ d, r = .parsed d) ↔
        (notOurProtocol [6, 1, 0, 26, 7, 170, 187, 204, 221, 238, 255, 0, 17, 49, 50, 51, 52,
          53, 54, 128, 2, 0, 6, 235, 15, 2] = false ∧
        checksumMismatch [6, 1, 0, 26, 7, 170, 187, 204, 221, 238, 255, 0, 17, 49, 50, 51, 52,
          53, 54, 128, 2, 0, 6, 235, 15, 2] = false)) :=
  Decode_classification _ (by decide) (by decide)

theorem Encode_serial_length (d : Datagram) (h : d.Serial.length ≠ 16) :
    Encode (some d) = .error (.serialLength d.Serial.length) := by
  simp [Encode, h]

theorem Encode_scan_cases (d : Datagram)
    (a0 a1 a2 a3 a4 a5 a6 a7 a8 a9 a10 a11 a12 a13 a14 a15 : Nat)
    (hs : d.Serial = [a0, a1, a2, a3, a4, a5, a6, a7, a8, a9, a10, a11, a12, a13, a14, a15]) :
    (∃ sb, sb.length = 8 ∧ Encode (some d) = .ok (frameOf d sb)) ∨
      ∃ i, Encode (some d) = .error (.invalidSerialHex i) := by
  cases h0 : SscanfHexByte [a0, a1] with
  | none => exact Or.inr ⟨0, by simp [Encode, hs, encodeSerial, h0]⟩
  | some b0 =>
  cases h1 : SscanfHexByte [a2, a3] with
  | none => exact Or.inr ⟨1, by simp [Encode, hs, encodeSerial, h0, h1]⟩
  | some b1 =>
  cases h2 : SscanfHexByte [a4, a5] with
  | none => exact Or.inr ⟨2, by simp [Encode, hs, encodeSerial, h0, h1, h2]⟩
  | some b2 =>
  cases h3 : SscanfHexByte [a6, a7] with
  | none => exact Or.inr ⟨3, by simp [Encode, hs, encodeSerial, h0, h1, h2, h3]⟩
  | some b3 =>
  cases h4 : SscanfHexByte [a8, a9] with
  | none => exact Or.inr ⟨4, by simp [Encode, hs, encodeSerial, h0, h1, h2, h3, h4]⟩
  | some b4 =>
  cases h5 : SscanfHexByte [a10, a11] with
  | none => exact Or.inr ⟨5, by simp [Encode, hs, encodeSerial, h0, h1, h2, h3, h4, h5]⟩
  | some b5 =>
  cases h6 : SscanfHexByte [a12, a13] with
  | none => exact Or.inr ⟨6, by simp [Encode, hs, encodeSerial, h0, h1, h2, h3, h4, h5, h6]⟩
  | some b6 =>
  cases h7 : SscanfHexByte [a14, a15] with
  | none =>
    exact Or.inr ⟨7, by simp [Encode, hs, encodeSerial, h0, h1, h2, h3, h4, h5, h6, h7]⟩
  | some b7 =>
    exact Or.inl ⟨[b0, b1, b2, b3, b4, b5, b6, b7], rfl,
      Encode_eq_frame d a0 a1 a2 a3 a4 a5 a6 a7 a8 a9 a10 a11 a12 a13 a14 a15 b0 b1 b2 b3 b4 b5
        b6 b7 hs h0 h1 h2 h3 h4 h5 h6 h7⟩

theorem Encode_ok_inv (d : Datagram) (f : List Nat) (h : Encode (some d) = .ok f) :
    ∃ sb, sb.length = 8 ∧ f = frameOf d sb := by
  by_cases hlen : d.Serial.length = 16
  · obtain ⟨a0, a1, a2, a3, a4, a5, a6, a7, a8, a9, a10, a11, a12, a13, a14, a15, hs⟩ :=
      length_eq_sixteen d.Serial hlen
    rcases Encode_scan_cases d a0 a1 a2 a3 a4 a5 a6 a7 a8 a9 a10 a11 a12 a13 a14 a15 hs with
      ⟨sb, hsb, he⟩ | ⟨i, he⟩
    · rw [he] at h
      exact ⟨sb, hsb, (EncodeResult.ok.inj h).symm⟩
    · rw [he] at h
      exact absurd h (by simp)
  · rw [Encode_serial_length d hlen] at h
    exact absurd h (by simp)

theorem frameOf_length (d : Datagram) (sb : List Nat) (hsb : sb.length = 8) :
    (frameOf d sb).length = 25 + d.Payload.length := by
  simp [frameOf, frameBody, putUint16, hsb, passwordField_length]
  omega

theorem Decode_set_trailer (d : Datagram) (sb : List Nat) (hsb : sb.length = 8) (i v : Nat)
    (hi : i = (frameOf d sb).length - 2 ∨ i = (frameOf d sb).length - 1) :
    Decode ((frameOf d sb).set i v) = Decode (frameOf d sb) := by
  have hlen := frameOf_length d sb hsb
  have hbl : (frameBody d sb ++ putUint16 (checksum (frameBody d sb))).length =
      23 + d.Payload.length := by
    simp [frameBody, putUint16, hsb, passwordField_length]
    omega
  have hbody : [6, 1, (25 + d.Payload.length) % 65536 / 256 % 256,
      (25 + d.Payload.length) % 65536 % 256, d.Key] ++ sb ++ passwordField d.Password ++
      [d.Command / 256 % 256, d.Command % 256] ++ d.Payload = frameBody d sb := by
    simp [frameBody, putUint16]
  have key : ∀ t0 t1 : Nat, Decode (frameBody d sb ++ putUint16 (checksum (frameBody d sb)) ++
      [t0, t1]) = Decode (frameOf d sb) := by
    intro t0 t1
    rw [Decode_parts (frameOf d sb) 6 1 ((25 + d.Payload.length) % 65536 / 256 % 256)
      ((25 + d.Payload.length) % 65536 % 256) d.Key (d.Command / 256 % 256) (d.Command % 256)
      (checksum (frameBody d sb) / 256 % 256) (checksum (frameBody d sb) % 256) 0x0F 0x02
      sb (passwordField d.Password) d.Payload hsb (passwordField_length _)
      (by simp [frameOf, frameBody, putUint16])]
    rw [Decode_parts _ 6 1 ((25 + d.Payload.length) % 65536 / 256 % 256)
      ((25 + d.Payload.length) % 65536 % 256) d.Key (d.Command / 256 % 256) (d.Command % 256)
      (checksum (frameBody d sb) / 256 % 256) (checksum (frameBody d sb) % 256) t0 t1
      sb (passwordField d.Password) d.Payload hsb (passwordField_length _)
      (by simp [frameBody, putUint16])]
  rcases hi with hi | hi
  · have : (frameOf d sb).set i v =
        frameBody d sb ++ putUint16 (checksum (frameBody d sb)) ++ [v, 0x02] := by
      rw [hi, hlen, frameOf, List.set_append_right _ _ (by rw [hbl]; omega), hbl]
      rw [show 25 + d.Payload.length - 2 - (23 + d.Payload.length) = 0 by omega]
      rfl
    rw [this, key]
  · have : (frameOf d sb).set i v =
        frameBody d sb ++ putUint16 (checksum (frameBody d sb)) ++ [0x0F, v] := by
      rw [hi, hlen, frameOf, List.set_append_right _ _ (by rw [hbl]; omega), hbl]
      rw [show 25 + d.Payload.length - 1 - (23 + d.Payload.length) = 1 by omega]
      rfl
    rw [this, key]

theorem hexPairs_sixteen (a0 a1 a2 a3 a4 a5 a6 a7 a8 a9 a10 a11 a12 a13 a14 a15 : Nat) :
    hexPairs [a0, a1, a2, a3, a4, a5, a6, a7, a8, a9, a10, a11, a12, a13, a14, a15] =
      [hexDigitVal a0 * 16 + hexDigitVal a1, hexDigitVal a2 * 16 + hexDigitVal a3,
        hexDigitVal a4 * 16 + hexDigitVal a5, hexDigitVal a6 * 16 + hexDigitVal a7,
        hexDigitVal a8 * 16 + hexDigitVal a9, hexDigitVal a10 * 16 + hexDigitVal a11,
        hexDigitVal a12 * 16 + hexDigitVal a13, hexDigitVal a14 * 16 + hexDigitVal a15] := rfl

theorem Encode_hex_serial (d : Datagram) (hlen : d.Serial.length = 16)
    (hhex : ∀ c ∈ d.Serial, isHexDigit c = true) :
    Encode (some d) = .ok (frameOf d (hexPairs d.Serial)) := by
  obtain ⟨a0, a1, a2, a3, a4, a5, a6, a7, a8, a9, a10, a11, a12, a13, a14, a15, hs⟩ :=
    length_eq_sixteen d.Serial hlen
  rw [hs] at hhex
  rw [hs, hexPairs_sixteen]
  exact Encode_eq_frame d a0 a1 a2 a3 a4 a5 a6 a7 a8 a9 a10 a11 a12 a13 a14 a15
    _ _ _ _ _ _ _ _ hs
    (Sscanf_two_hex a0 a1 (hhex a0 (by simp)) (hhex a1 (by simp)))
    (Sscanf_two_hex a2 a3 (hhex a2 (by simp)) (hhex a3 (by simp)))
    (Sscanf_two_hex a4 a5 (hhex a4 (by simp)) (hhex a5 (by simp)))
    (Sscanf_two_hex a6 a7 (hhex a6 (by simp)) (hhex a7 (by simp)))
    (Sscanf_two_hex a8 a9 (hhex a8 (by simp)) (hhex a9 (by simp)))
    (Sscanf_two_hex a10 a11 (hhex a10 (by simp)) (hhex a11 (by simp)))
    (Sscanf_two_hex a12 a13 (hhex a12 (by simp)) (hhex a13 (by simp)))
    (Sscanf_two_hex a14 a15 (hhex a14 (by simp)) (hhex a15 (by simp)))

theorem hexPairs_length (s : List Nat) (h : s.length = 16) : (hexPairs s).length = 8 := by
  obtain ⟨a0, a1, a2, a3, a4, a5, a6, a7, a8, a9, a10, a11, a12, a13, a14, a15, rfl⟩ :=
    length_eq_sixteen s h
  rfl

/-- C7. Frame layout: for a datagram with a serial of 16 hexadecimal characters (either
case) and a payload of `n ≤ 65510` bytes, `Encode` returns a frame of exactly `25 + n` bytes
with `06 01` at 0..1, `25 + n` big-endian at 2..3, the key at 4, the bytes of the serial's
hex pairs at 5..12, the password (six zero bytes when its length is not 6) at 13..18, the
command big-endian at 19..20, the payload at 21..20+n and `0F 02` as the last two bytes. -/
theorem Encode_frame_layout (d : Datagram) (hlen : d.Serial.length = 16)
    (hhex : ∀ c ∈ d.Serial, isHexDigit c = true) (hpay : d.Payload.length ≤ 65510) :
    ∃ f, Encode (some d) = .ok f ∧ f.length = 25 + d.Payload.length ∧
      slice f 0 2 = some [0x06, 0x01] ∧
      slice f 2 4 = some (putUint16 (25 + d.Payload.length)) ∧
      f[4]? = some d.Key ∧
      slice f 5 13 = some (hexPairs d.Serial) ∧
      slice f 13 19 =
        some (if d.Password.length = 6 then d.Password else List.replicate 6 0) ∧
      slice f 19 21 = some (putUint16 d.Command) ∧
      slice f 21 (21 + d.Payload.length) = some d.Payload ∧
      slice f (23 + d.Payload.length) (25 + d.Payload.length) = some [0x0F, 0x02] := by
  have hsb := hexPairs_length d.Serial hlen
  have hpf := passwordField_length d.Password
  have hmod : (25 + d.Payload.length) % 65536 = 25 + d.Payload.length := by omega
  have hpw : passwordField d.Password =
      if d.Password.length = 6 then d.Password else List.replicate 6 0 := by
    unfold passwordField
    split_ifs <;> first | rfl | omega
  refine ⟨_, Encode_hex_serial d hlen hhex, frameOf_length d _ hsb, ?_, ?_, ?_, ?_, ?_, ?_,
    ?_, ?_⟩
  · exact slice_eq _ [] [6, 1] (putUint16 ((25 + d.Payload.length) % 65536) ++ [d.Key] ++
      hexPairs d.Serial ++ passwordField d.Password ++ putUint16 d.Command ++ d.Payload ++
      putUint16 (checksum (frameBody d (hexPairs d.Serial))) ++ [0x0F, 0x02]) 0 2
      (by simp [frameOf, frameBody]) rfl rfl
  · rw [← hmod]
    exact slice_eq _ [6, 1] (putUint16 ((25 + d.Payload.length) % 65536)) ([d.Key] ++
      hexPairs d.Serial ++ passwordField d.Password ++ putUint16 d.Command ++ d.Payload ++
      putUint16 (checksum (frameBody d (hexPairs d.Serial))) ++ [0x0F, 0x02]) 2 4
      (by simp [frameOf, frameBody]) rfl rfl
  · simp [frameOf, frameBody, putUint16]
  · exact slice_eq _ ([6, 1] ++ putUint16 ((25 + d.Payload.length) % 65536) ++ [d.Key])
      (hexPairs d.Serial) (passwordField d.Password ++ putUint16 d.Command ++ d.Payload ++
      putUint16 (checksum (frameBody d (hexPairs d.Serial))) ++ [0x0F, 0x02]) 5 13
      (by simp [frameOf, frameBody]) (by simp [putUint16_length]) (by omega)
  · rw [← hpw]
    exact slice_eq _ ([6, 1] ++ putUint16 ((25 + d.Payload.length) % 65536) ++ [d.Key] ++
      hexPairs d.Serial) (passwordField d.Password) (putUint16 d.Command ++ d.Payload ++
      putUint16 (checksum (frameBody d (hexPairs d.Serial))) ++ [0x0F, 0x02]) 13 19
      (by simp [frameOf, frameBody]) (by simp [putUint16_length, hsb]) (by omega)
  · exact slice_eq _ ([6, 1] ++ putUint16 ((25 + d.Payload.length) % 65536) ++ [d.Key] ++
      hexPairs d.Serial ++ passwordField d.Password) (putUint16 d.Command) (d.Payload ++
      putUint16 (checksum (frameBody d (hexPairs d.Serial))) ++ [0x0F, 0x02]) 19 21
      (by simp [frameOf, frameBody]) (by simp [putUint16_length, hsb, hpf]) rfl
  · exact slice_eq _ ([6, 1] ++ putUint16 ((25 + d.Payload.length) % 65536) ++ [d.Key] ++
      hexPairs d.Serial ++ passwordField d.Password ++ putUint16 d.Command) d.Payload
      (putUint16 (checksum (frameBody d (hexPairs d.Serial))) ++ [0x0F, 0x02]) 21 _
      (by simp [frameOf, frameBody]) (by simp [putUint16_length, hsb, hpf]) rfl
  · exact slice_eq _ (frameBody d (hexPairs d.Serial) ++
      putUint16 (checksum (frameBody d (hexPairs d.Serial)))) [0x0F, 0x02] [] _ _
      (by simp [frameOf]) (by simp [frameBody, putUint16_length, hsb, hpf]; omega)
      (by simp; omega)

theorem Encode_frame_layout_witness :
    ∃ f, Encode (some ⟨7, [65, 97, 98, 66, 99, 99, 100, 100, 101, 101, 102, 102, 48, 48, 49, 49],
        [49, 50, 51], 0x8002, [9, 8]⟩) = .ok f ∧ f.length = 25 + 2 ∧
      slice f 0 2 = some [0x06, 0x01] ∧
      slice f 2 4 = some (putUint16 (25 + 2)) ∧
      f[4]? = some 7 ∧
      slice f 5 13 = some (hexPairs
        [65, 97, 98, 66, 99, 99, 100, 100, 101, 101, 102, 102, 48, 48, 49, 49]) ∧
      slice f 13 19 = some (if (3 : Nat) = 6 then [49, 50, 51] else List.replicate 6 0) ∧
      slice f 19 21 = some (putUint16 0x8002) ∧
      slice f 21 (21 + 2) = some [9, 8] ∧
      slice f (23 + 2) (25 + 2) = some [0x0F, 0x02] :=
  Encode_frame_layout ⟨7, [65, 97, 98, 66, 99, 99, 100, 100, 101, 101, 102, 102, 48, 48, 49, 49],
    [49, 50, 51], 0x8002, [9, 8]⟩ (by decide) (by decide) (by decide)

/-- C5, counterexample. The frame `Encode` produces for key 7, serial `aabbccddeeff0011`,
password `123456`, command 0x8002 and payload `00` ends in `0F 02`; with its trailer byte
`0F` replaced by `00`, and likewise with its trailer byte `02` replaced by `FF`, `Decode`
still returns the parsed datagram. -/
theorem Decode_trailer_counterexample :
    Encode (some ⟨7, [97, 97, 98, 98, 99, 99, 100, 100, 101, 101, 102, 102, 48, 48, 49, 49],
        [49, 50, 51, 52, 53, 54], 0x8002, [0]⟩) =
      .ok [6, 1, 0, 26, 7, 170, 187, 204, 221, 238, 255, 0, 17, 49, 50, 51, 52, 53, 54, 128, 2,
        0, 6, 235, 15, 2] ∧
    Decode ([6, 1, 0, 26, 7, 170, 187, 204, 221, 238, 255, 0, 17, 49, 50, 51, 52, 53, 54, 128,
        2, 0, 6, 235, 15, 2].set 24 0) =
      some (.parsed ⟨7, [97, 97, 98, 98, 99, 99, 100, 100, 101, 101, 102, 102, 48, 48, 49, 49],
        [49, 50, 51, 52, 53, 54], 0x8002, [0]⟩) ∧
    Decode ([6, 1, 0, 26, 7, 170, 187, 204, 221, 238, 255, 0, 17, 49, 50, 51, 52, 53, 54, 128,
        2, 0, 6, 235, 15, 2].set 25 255) =
      some (.parsed ⟨7, [97, 97, 98, 98, 99, 99, 100, 100, 101, 101, 102, 102, 48, 48, 49, 49],
        [49, 50, 51, 52, 53, 54], 0x8002, [0]⟩) := by
  decide

/-- C5, amended. `Decode` does not inspect the trailer: for every frame `f` produced by
`Encode`, replacing either of its last two bytes by any value leaves the result of `Decode`
unchanged, and that result is a parsed datagram. -/
theorem Decode_ignores_trailer (d : Datagram) (f : List Nat) (h : Encode (some d) = .ok f)
    (i v : Nat) (hi : i = f.length - 2 ∨ i = f.length - 1) :
    Decode (f.set i v) = Decode f ∧ ∃ p, Decode f = some (.parsed p) := by
  obtain ⟨sb, hsb, rfl⟩ := Encode_ok_inv d f h
  exact ⟨Decode_set_trailer d sb hsb i v hi, _, Decode_frameOf d sb hsb⟩

theorem Decode_ignores_trailer_witness :
    Decode ([6, 1, 0, 26, 7, 170, 187, 204, 221, 238, 255, 0, 17, 49, 50, 51, 52, 53, 54, 128,
        2, 0, 6, 235, 15, 2].set 24 0) =
      Decode [6, 1, 0, 26, 7, 170, 187, 204, 221, 238, 255, 0, 17, 49, 50, 51, 52, 53, 54, 128,
        2, 0, 6, 235, 15, 2] ∧
    ∃ p, Decode [6, 1, 0, 26, 7, 170, 187, 204, 221, 238, 255, 0, 17, 49, 50, 51, 52, 53, 54,
        128, 2, 0, 6, 235, 15, 2] = some (.parsed p) :=
  Decode_ignores_trailer
    ⟨7, [97, 97, 98, 98, 99, 99, 100, 100, 101, 101, 102, 102, 48, 48, 49, 49],
      [49, 50, 51, 52, 53, 54], 0x8002, [0]⟩ _ (by decide) 24 0 (by decide)

/-- C6, counterexample. The serial `0g00000000000000` has 16 characters of which the second
is not a hexadecimal digit, and `Encode` returns a frame for it (serial byte 0 is `00`)
instead of an error: the scan of a pair stops at the first character that is not a digit
and reports no error when one digit was read. -/
theorem Encode_accepts_non_hex_serial :
    Encode (some ⟨7, [48, 103, 48, 48, 48, 48, 48, 48, 48, 48, 48, 48, 48, 48, 48, 48],
      [49, 50, 51, 52, 53, 54], 0x8002, [0]⟩) =
      .ok [6, 1, 0, 26, 7, 0, 0, 0, 0, 0, 0, 0, 0, 49, 50, 51, 52, 53, 54, 128, 2, 0, 1, 223,
        15, 2] := by
  decide

section

set_option maxRecDepth 100000

/-- C3, counterexample. For key 0, serial `0000000000000000`, no password, command 0 and a
payload of 258 bytes `FF`, the checksum `Encode` writes at offset `len-4` is 289, while the
sum of the bytes at offsets `0..len-5` is 290 modulo 0xFFFF: the 16-bit accumulator wraps at
65536 before the remainder is taken. -/
theorem Encode_checksum_overflow :
    ∃ f, Encode (some ⟨0, List.replicate 16 48, [], 0, List.replicate 258 255⟩) = .ok f ∧
      be16At f (f.length - 4) = 289 ∧ (f.take (f.length - 4)).sum % 65535 = 290 :=
  ⟨_, rfl, by decide, by decide⟩

/-- C4, failing input. In the frame `Encode` produces for key 0, serial `0000000000000000`,
no password, command 0 and the payload of 256 bytes `FF` followed by `DD`, byte 277 (the
last payload byte, below `len-4 = 278`) is `DD`; replacing it by `DE` gives a frame that
`Decode` accepts as a parsed datagram: the running sum reaches 65535 with `DD` and 65536
with `DE`, and the 16-bit accumulator maps both to 0. -/
theorem Decode_accepts_corrupted_byte :
    ∃ f, Encode (some ⟨0, List.replicate 16 48, [], 0, List.replicate 256 255 ++ [221]⟩) = .ok f ∧
      277 < f.length - 4 ∧ f.getD 277 0 = 221 ∧
      Decode (f.set 277 222) =
        some (.parsed ⟨0, List.replicate 16 48, [], 0, List.replicate 256 255 ++ [222]⟩) :=
  ⟨_, rfl, by decide, by decide, by decide⟩

end

/-! ## Liveness windows, meta state and the removal guard -/

theorem IsOnline_iff (e : Evse) (now : Int) :
    IsOnline e now = true ↔ ∃ t, e.LastSeen = some t ∧ now - t < 11 * Second := by
  unfold IsOnline Second
  cases h : e.LastSeen with
  | none => simp
  | some t =>
    simp only [decide_eq_true_eq, Option.some.injEq, exists_eq_left']
    omega

theorem IsLoggedIn_iff (e : Evse) (now : Int) :
    IsLoggedIn e now = true ↔
      (IsOnline e now = true ∧ ∃ t, e.LastActiveLogin = some t ∧ now - t < 15 * Second) := by
  unfold IsLoggedIn Second
  cases hon : IsOnline e now <;> cases hl : e.LastActiveLogin <;> simp
  omega

/-- C8. Liveness windows: for every record and every instant `now`, `IsOnline` is true iff
`lastSeen` is set and `now - lastSeen < 11 s`, and `IsLoggedIn` is true iff `IsOnline` is
true and `lastActiveLogin` is set and `now - lastActiveLogin < 15 s`; so `IsOnline` is false
at exactly 11 s after `lastSeen`, and `IsLoggedIn` is false at exactly 15 s after
`lastActiveLogin` and whenever the record is offline. -/
theorem liveness_windows (e : Evse) (now : Int) :
    (IsOnline e now = true ↔ ∃ t, e.LastSeen = some t ∧ now - t < 11 * Second) ∧
    (IsLoggedIn e now = true ↔
      (IsOnline e now = true ∧ ∃ t, e.LastActiveLogin = some t ∧ now - t < 15 * Second)) ∧
    IsOnline { e with LastSeen := some (now - 11 * Second) } now = false ∧
    IsLoggedIn { e with LastActiveLogin := some (now - 15 * Second) } now = false ∧
    (IsOnline e now = false → IsLoggedIn e now = false) := by
  refine ⟨IsOnline_iff e now, IsLoggedIn_iff e now, ?_, ?_, ?_⟩
  · rw [← Bool.not_eq_true, IsOnline_iff]
    simp [Second]
  · rw [← Bool.not_eq_true, IsLoggedIn_iff]
    simp [Second]
  · intro h
    rw [← Bool.not_eq_true, IsLoggedIn_iff]
    simp [h]

/-- C9. `MetaState` is decided by the first matching rule in the order Offline if not
online, NotLoggedIn if not logged in, Error if the error set is non-empty, Charging if
`outputState = 1`, PluggedIn if `gunState > 1`, else Idle.  In particular a logged-in record
with errors is Error even when `outputState = 1`, and a newly defined record is Offline. -/
theorem MetaState_first_match (e : Evse) (now : Int) :
    MetaState e now =
      firstMatch (metaStateRules (IsOnline e now) (IsLoggedIn e now) e.state.Errors_
        e.state.OutputState_ e.state.GunState_) ∧
    (IsLoggedIn e now = true → e.state.Errors_ ≠ [] → MetaState e now = .MetaStateError) ∧
    (∀ serial, MetaState (newEvse serial) now = .MetaStateOffline) := by
  have hl : IsLoggedIn e now = true → IsOnline e now = true := fun h =>
    ((IsLoggedIn_iff e now).1 h).1
  refine ⟨?_, ?_, ?_⟩
  · unfold MetaState firstMatch metaStateRules OutputStateCharging GunNotConnected
    have hbeq : (e.state.OutputState_ == 1) = decide (e.state.OutputState_ = 1) := by
      by_cases ho : e.state.OutputState_ = 1 <;> simp [ho]
    rw [hbeq]
    cases hon : IsOnline e now <;> cases hlog : IsLoggedIn e now <;>
      cases herr : e.state.Errors_ <;>
      by_cases ho : e.state.OutputState_ = 1 <;>
      by_cases hg : e.state.GunState_ > 1 <;>
      simp [List.find?, ho, hg]
  · intro hlog herr
    have hon := hl hlog
    have hlen : e.state.Errors_.length > 0 := List.length_pos.2 herr
    simp [MetaState, hon, hlog, hlen]
  · intro serial
    simp [MetaState, IsOnline, newEvse]

theorem MetaState_first_match_witness :
    MetaState
        { LastSeen := some 0
          LastActiveLogin := some 0
          state := { Errors_ := [3], OutputState_ := 1 } } 5 =
      firstMatch (metaStateRules true true [3] 1 0) ∧
    MetaState
        { LastSeen := some 0
          LastActiveLogin := some 0
          state := { Errors_ := [3], OutputState_ := 1 } } 5 = .MetaStateError ∧
    (∀ serial, MetaState (newEvse serial) 5 = .MetaStateOffline) :=
  ⟨(MetaState_first_match
      { LastSeen := some 0
        LastActiveLogin := some 0
        state := { Errors_ := [3], OutputState_ := 1 } } 5).1,
    (MetaState_first_match
      { LastSeen := some 0
        LastActiveLogin := some 0
        state := { Errors_ := [3], OutputState_ := 1 } } 5).2.1 (by decide) (by decide),
    (MetaState_first_match { serial := [49] } 5).2.2⟩

/-- C10. Removal guard: `RemoveEvse` called on a record for which `IsOnline` is true
returns the `EvseOnlineError` and leaves the communicator, hence the registry map, the
pending debounced events and the debounce timers, exactly as it was. -/
theorem RemoveEvse_online_guard (c : Communicator) (evse : Evse) (now : Int)
    (h : IsOnline evse now = true) :
    RemoveEvse c evse now = (c, some (.EvseOnlineError evse.serial)) ∧
    (RemoveEvse c evse now).1.evses = c.evses ∧
    (RemoveEvse c evse now).1.debouncedEvents = c.debouncedEvents ∧
    (RemoveEvse c evse now).1.debounceTimers = c.debounceTimers := by
  have hr : RemoveEvse c evse now = (c, some (.EvseOnlineError evse.serial)) := by
    simp [RemoveEvse, h]
  rw [hr]
  exact ⟨rfl, rfl, rfl, rfl⟩

theorem RemoveEvse_online_guard_witness :
    RemoveEvse
        { evses := [([49], { serial := [49], LastSeen := some 0 })]
          debouncedEvents := [(eventKey [49] .EvseOnline, ⟨.EvseOnline, [49], 0⟩)]
          debounceTimers := [(eventKey [49] .EvseOnline, 400 * Millisecond)] }
        { serial := [49], LastSeen := some 0 } (5 * Second) =
      ({ evses := [([49], { serial := [49], LastSeen := some 0 })]
         debouncedEvents := [(eventKey [49] .EvseOnline, ⟨.EvseOnline, [49], 0⟩)]
         debounceTimers := [(eventKey [49] .EvseOnline, 400 * Millisecond)] },
        some (.EvseOnlineError [49])) :=
  (RemoveEvse_online_guard _ { serial := [49], LastSeen := some 0 } (5 * Second)
    (by decide)).1

/-! ## The fuel of the loops suffices -/

theorem DecodeRune_size_pos (p : List Nat) (h : p ≠ []) : 1 ≤ (DecodeRune p).2 := by
  rcases p with _ | ⟨p0, _ | ⟨b1, _ | ⟨b2, _ | ⟨b3, rest⟩⟩⟩⟩
  · exact absurd rfl h
  all_goals
    unfold DecodeRune
    dsimp only
    generalize (if p0 < 0xE0 then 2 else if p0 < 0xF0 then 3 else 4) = sz
    generalize (if p0 = 0xE0 then 0xA0 else if p0 = 0xF0 then 0x90 else 0x80) = lo
    generalize (if p0 = 0xED then 0x9F else if p0 = 0xF4 then 0x8F else 0xBF) = hi
    split_ifs <;> simp

theorem lastRuneStart_le (p : List Nat) (lim : Int) (fuel : Nat) (start : Int) :
    lastRuneStart p lim fuel start ≤ start := by
  induction fuel generalizing start with
  | zero => simp [lastRuneStart]
  | succ n ih =>
    unfold lastRuneStart
    split_ifs
    · exact le_refl _
    · have := ih (start - 1)
      omega
    · exact le_refl _

theorem DecodeLastRune_size_pos (p : List Nat) (h : p ≠ []) : 1 ≤ (DecodeLastRune p).2 := by
  have hlen : 0 < p.length := List.length_pos.2 h
  unfold DecodeLastRune
  rw [if_neg (by omega)]
  dsimp only
  by_cases h1 : p.getD (p.length - 1) 0 < 0x80
  · rw [if_pos h1]
  · rw [if_neg h1]
    generalize (if (p.length : Int) - 4 < 0 then (0 : Int) else (p.length : Int) - 4) = lim
    have hle := lastRuneStart_le p lim 4 ((p.length : Int) - 2)
    generalize lastRuneStart p lim 4 ((p.length : Int) - 2) = start0 at hle ⊢
    have hst : (if start0 < 0 then 0 else start0.toNat) < p.length := by
      split_ifs <;> omega
    generalize (if start0 < 0 then 0 else start0.toNat) = start at hst ⊢
    by_cases h2 : start + (DecodeRune (p.drop start)).2 ≠ p.length
    · rw [if_pos h2]
    · rw [if_neg h2]
      apply DecodeRune_size_pos
      intro hnil
      have := List.drop_eq_nil_iff.1 hnil
      omega

theorem trimRightUnicode_fuel (fuel fuel' : Nat) (s : List Nat) (h : s.length ≤ fuel)
    (h' : s.length ≤ fuel') : trimRightUnicode fuel s = trimRightUnicode fuel' s := by
  induction fuel generalizing fuel' s with
  | zero =>
    have hs : s = [] := List.length_eq_zero.1 (by omega)
    subst hs
    cases fuel' <;> simp [trimRightUnicode]
  | succ n ih =>
    cases fuel' with
    | zero =>
      have hs : s = [] := List.length_eq_zero.1 (by omega)
      subst hs
      simp [trimRightUnicode]
    | succ m =>
      unfold trimRightUnicode
      by_cases hz : s.length = 0
      · simp [hz]
      · rw [if_neg hz, if_neg hz]
        dsimp only
        have hne : s ≠ [] := fun e => hz (by simp [e])
        have hpos : 1 ≤ (if s.getD (s.length - 1) 0 ≥ 0x80 then DecodeLastRune s
            else (s.getD (s.length - 1) 0, 1)).2 := by
          split_ifs
          · exact DecodeLastRune_size_pos s hne
          · exact le_refl _
        generalize (if s.getD (s.length - 1) 0 ≥ 0x80 then DecodeLastRune s
            else (s.getD (s.length - 1) 0, 1)) = rn at hpos ⊢
        split_ifs with hc
        · apply ih
          · rw [List.length_take]; omega
          · rw [List.length_take]; omega
        · rfl

theorem trimLeftUnicode_fuel (fuel fuel' : Nat) (s : List Nat) (h : s.length ≤ fuel)
    (h' : s.length ≤ fuel') : trimLeftUnicode fuel s = trimLeftUnicode fuel' s := by
  induction fuel generalizing fuel' s with
  | zero =>
    have hs : s = [] := List.length_eq_zero.1 (by omega)
    subst hs
    cases fuel' <;> simp [trimLeftUnicode]
  | succ n ih =>
    cases fuel' with
    | zero =>
      have hs : s = [] := List.length_eq_zero.1 (by omega)
      subst hs
      simp [trimLeftUnicode]
    | succ m =>
      cases s with
      | nil => simp [trimLeftUnicode]
      | cons s0 rest =>
        unfold trimLeftUnicode
        dsimp only
        have hpos : 1 ≤ (if s0 ≥ 0x80 then DecodeRune (s0 :: rest) else (s0, 1)).2 := by
          split_ifs
          · exact DecodeRune_size_pos _ (by simp)
          · exact le_refl _
        generalize (if s0 ≥ 0x80 then DecodeRune (s0 :: rest) else (s0, 1)) = rn at hpos ⊢
        simp only [List.length_cons] at h h'
        split_ifs with hc
        · apply ih
          · rw [List.length_drop, List.length_cons]; omega
          · rw [List.length_drop, List.length_cons]; omega
        · rfl

theorem QueueEventAux_depth (depth : Nat) (c : Communicator) (evse : Evse)
    (eventType : EmEventType) (now : Int) :
    QueueEventAux (depth + 2) c evse eventType now = QueueEventAux 2 c evse eventType now := by
  cases eventType <;> simp [QueueEventAux]

/-! ## The registry: define and remove -/

theorem mapGet_mapSet_self {K V : Type} [DecidableEq K] (m : List (K × V)) (k : K) (v : V) :
    mapGet (mapSet m k v) k = some v := by
  simp [mapGet, mapSet]

theorem mapGet_mapDelete_self {K V : Type} [DecidableEq K] (m : List (K × V)) (k : K) :
    mapGet (mapDelete m k) k = none := by
  unfold mapGet mapDelete
  have h : (List.filter (fun e => !decide (e.1 = k)) m).find? (fun e => decide (e.1 = k)) =
      none := by
    rw [List.find?_eq_none]
    intro x hx
    have := (List.mem_filter.1 hx).2
    simpa using this
  rw [h]

theorem QueueEvent_plain (c : Communicator) (evse : Evse) (eventType : EmEventType) (now : Int)
    (h1 : eventType ≠ .EvseOnline) (h2 : eventType ≠ .EvseOffline)
    (h3 : eventType ≠ .EvseLoggedIn) (h4 : eventType ≠ .EvseLoggedOut)
    (h5 : eventType ≠ .EvseChargeStarted) (h6 : eventType ≠ .EvseChargeStopped) :
    QueueEvent c (some evse) eventType now =
      { c with
        debouncedEvents := mapSet c.debouncedEvents (eventKey evse.serial eventType)
          { Evse := evse.serial, Type_ := eventType, Timestamp := now }
        debounceTimers := mapSet c.debounceTimers (eventKey evse.serial eventType)
          (now + 400 * Millisecond) } := by
  simp only [QueueEvent, QueueEventAux, mapGet_mapSet_self]
  have hforce : (match mapGet c.debounceTimers (eventKey evse.serial eventType),
      some ({ Type_ := eventType, Evse := evse.serial, Timestamp := now } : EmEvent) with
      | some _, some queued => decide (now - queued.Timestamp ≥ 2000 * Millisecond)
      | _, _ => false) = false := by
    cases mapGet c.debounceTimers (eventKey evse.serial eventType) <;> simp [Millisecond]
  simp [hforce, h1, h2, h3, h4, h5, h6]

theorem eventKey_prefix (serial : List Nat) (eventType : EmEventType) :
    (serial ++ [58]).isPrefixOf (eventKey serial eventType) = true := by
  rw [List.isPrefixOf_iff_prefix]
  exact List.prefix_append _ _

theorem mapDelete_cleared {V : Type} (m : List (List Nat × V)) (serial : List Nat)
    (eventType : EmEventType) :
    mapDelete (m.filter (fun e => !(serial ++ [58]).isPrefixOf e.1))
        (eventKey serial eventType) =
      m.filter (fun e => !(serial ++ [58]).isPrefixOf e.1) := by
  unfold mapDelete
  rw [List.filter_eq_self]
  intro x hx
  have hp := (List.mem_filter.1 hx).2
  have hne : x.1 ≠ eventKey serial eventType := by
    intro he
    rw [he, eventKey_prefix] at hp
    simp at hp
  simp [hne]

theorem filter_prefix_cleared {V : Type} (m : List (List Nat × V)) (p : List Nat) :
    (m.filter (fun e => !p.isPrefixOf e.1)).filter (fun e => p.isPrefixOf e.1) = [] := by
  rw [List.filter_eq_nil_iff]
  intro x hx
  have hp := (List.mem_filter.1 hx).2
  simp only [Bool.not_eq_true', Bool.not_eq_true] at hp ⊢
  simp [hp]

/-- C11. `DefineEvse` is idempotent: when the registry already holds the serial, the call
returns that record and leaves the communicator (registry, pending events, timers) as it
was; when it does not, the call stores one new record, whose serial is `s` and whose other
fields are zero-valued, and queues exactly one `EvseAdded` for `s`.  Hence a second call
returns the record of the first and changes nothing, so `EvseAdded` is queued once. -/
theorem defineEvseImpl_idempotent (c : Communicator) (s : List Nat) (now now' : Int) :
    (∀ e, mapGet c.evses s = some e → defineEvseImpl c s now = (c, e)) ∧
    (mapGet c.evses s = none →
      defineEvseImpl c s now =
        ({ c with
           evses := mapSet c.evses s { serial := s }
           debouncedEvents := mapSet c.debouncedEvents (eventKey s .EvseAdded)
             { Evse := s, Type_ := .EvseAdded, Timestamp := now }
           debounceTimers := mapSet c.debounceTimers (eventKey s .EvseAdded)
             (now + 400 * Millisecond) }, { serial := s })) ∧
    defineEvseImpl (defineEvseImpl c s now).1 s now' = defineEvseImpl c s now := by
  have hnew : mapGet c.evses s = none →
      defineEvseImpl c s now =
        ({ c with
           evses := mapSet c.evses s { serial := s }
           debouncedEvents := mapSet c.debouncedEvents (eventKey s .EvseAdded)
             { Evse := s, Type_ := .EvseAdded, Timestamp := now }
           debounceTimers := mapSet c.debounceTimers (eventKey s .EvseAdded)
             (now + 400 * Millisecond) }, { serial := s }) := by
    intro h
    simp only [defineEvseImpl, h]
    rw [QueueEvent_plain _ _ _ _ (by simp) (by simp) (by simp) (by simp) (by simp) (by simp)]
    rfl
  refine ⟨?_, hnew, ?_⟩
  · intro e h
    simp [defineEvseImpl, h]
  · cases h : mapGet c.evses s with
    | some e =>
      have h1 : defineEvseImpl c s now = (c, e) := by simp [defineEvseImpl, h]
      rw [h1]
      simp [defineEvseImpl, h]
    | none =>
      rw [hnew h]
      simp only [defineEvseImpl, mapGet_mapSet_self]

/-- C12. Successful removal: `RemoveEvse` called on a record that is not online returns no
error; afterwards the registry has no entry for its serial, every event and timer that was
pending under the serial has been dropped from the tables without being dispatched, and the
events pending for the serial consist of exactly one `EvseRemoved`. -/
theorem RemoveEvse_offline (c : Communicator) (evse : Evse) (now : Int)
    (h : IsOnline evse now = false) :
    (RemoveEvse c evse now).2 = none ∧
    mapGet (RemoveEvse c evse now).1.evses evse.serial = none ∧
    (RemoveEvse c evse now).1.debouncedEvents =
      (eventKey evse.serial .EvseRemoved,
        { Evse := evse.serial, Type_ := .EvseRemoved, Timestamp := now }) ::
        c.debouncedEvents.filter (fun e => !(evse.serial ++ [58]).isPrefixOf e.1) ∧
    (RemoveEvse c evse now).1.debounceTimers =
      (eventKey evse.serial .EvseRemoved, now + 400 * Millisecond) ::
        c.debounceTimers.filter (fun e => !(evse.serial ++ [58]).isPrefixOf e.1) ∧
    (RemoveEvse c evse now).1.dispatched = c.dispatched ∧
    pendingFor (RemoveEvse c evse now).1 evse.serial =
      [(eventKey evse.serial .EvseRemoved,
        { Evse := evse.serial, Type_ := .EvseRemoved, Timestamp := now })] := by
  have hr : RemoveEvse c evse now =
      ({ c with
         evses := mapDelete c.evses evse.serial
         debouncedEvents := (eventKey evse.serial .EvseRemoved,
           { Evse := evse.serial, Type_ := .EvseRemoved, Timestamp := now }) ::
           c.debouncedEvents.filter (fun e => !(evse.serial ++ [58]).isPrefixOf e.1)
         debounceTimers := (eventKey evse.serial .EvseRemoved, now + 400 * Millisecond) ::
           c.debounceTimers.filter (fun e => !(evse.serial ++ [58]).isPrefixOf e.1) },
        none) := by
    simp only [RemoveEvse, h]
    rw [QueueEvent_plain _ _ _ _ (by simp) (by simp) (by simp) (by simp) (by simp) (by simp)]
    simp only [clearQueuedEvents, mapSet, mapDelete_cleared]
    rfl
  rw [hr]
  refine ⟨rfl, mapGet_mapDelete_self _ _, rfl, rfl, rfl, ?_⟩
  simp only [pendingFor, List.filter_cons, eventKey_prefix, if_true, filter_prefix_cleared]

theorem RemoveEvse_offline_witness :
    (RemoveEvse
        { evses := [([49], { serial := [49] })]
          debouncedEvents := [(eventKey [49] .EvseOnline, ⟨.EvseOnline, [49], 0⟩)]
          debounceTimers := [(eventKey [49] .EvseOnline, 400 * Millisecond)] }
        { serial := [49] } (20 * Second)).2 = none ∧
    mapGet (RemoveEvse
        { evses := [([49], { serial := [49] })]
          debouncedEvents := [(eventKey [49] .EvseOnline, ⟨.EvseOnline, [49], 0⟩)]
          debounceTimers := [(eventKey [49] .EvseOnline, 400 * Millisecond)] }
        { serial := [49] } (20 * Second)).1.evses [49] = none ∧
    pendingFor (RemoveEvse
        { evses := [([49], { serial := [49] })]
          debouncedEvents := [(eventKey [49] .EvseOnline, ⟨.EvseOnline, [49], 0⟩)]
          debounceTimers := [(eventKey [49] .EvseOnline, 400 * Millisecond)] }
        { serial := [49] } (20 * Second)).1 [49] =
      [(eventKey [49] .EvseRemoved, ⟨.EvseRemoved, [49], 20 * Second⟩)] :=
  have w := RemoveEvse_offline
    { evses := [([49], { serial := [49] })]
      debouncedEvents := [(eventKey [49] .EvseOnline, ⟨.EvseOnline, [49], 0⟩)]
      debounceTimers := [(eventKey [49] .EvseOnline, 400 * Millisecond)] }
    { serial := [49] } (20 * Second) (by decide)
  ⟨w.1, w.2.1, w.2.2.2.2.2⟩

/-! ## The payload of the charge commands -/

theorem padTo_length (n : Nat) (src : List Nat) : (padTo n src).length = n := by
  simp [padTo]
  omega

theorem copyInto_block (l A C src : List Nat) (n lo hi : Nat)
    (hl : l = A ++ List.replicate n 0 ++ C) (hlo : A.length = lo) (hhi : lo + n = hi) :
    copyInto l lo hi src = A ++ padTo n src ++ C := by
  subst hl hlo hhi
  unfold copyInto padTo
  have h1 : A.length + n - A.length = n := by omega
  rw [h1, List.append_assoc A, List.take_left]
  have h2 : List.drop (A.length + min n src.length) (A ++ (List.replicate n 0 ++ C)) =
      List.replicate (n - src.length) 0 ++ C := by
    rw [List.drop_append_eq_append_drop]
    simp only [List.drop_eq_nil_of_le (show A.length ≤ A.length + min n src.length by omega),
      List.nil_append, Nat.add_sub_cancel_left]
    rw [List.drop_append_eq_append_drop, List.drop_replicate, List.length_replicate]
    have h3 : min n src.length - n = 0 := by omega
    have h4 : n - min n src.length = n - src.length := by omega
    rw [h3, h4, List.drop_zero]
  rw [h2]
  simp only [List.append_assoc]

theorem set_block (l A C : List Nat) (x v i : Nat) (hl : l = A ++ [x] ++ C)
    (hi : A.length = i) : l.set i v = A ++ [v] ++ C := by
  subst hl hi
  simp

theorem padTo_full (n : Nat) (src : List Nat) (h : src.length = n) : padTo n src = src := by
  subst h
  simp [padTo]

theorem padTo_truncated (src : List Nat) :
    padTo 16 (if src.length > 16 then src.take 16 else src) = padTo 16 src := by
  unfold padTo
  split_ifs with h
  · simp only [List.take_take, Nat.min_self, List.length_take]
    have h1 : 16 - min 16 src.length = 0 := by omega
    have h2 : 16 - src.length = 0 := by omega
    rw [h1, h2]
  · rfl

theorem copyInto_zeros (A src : List Nat) (n m k lo hi : Nat) (hk : k = n + m)
    (hlo : A.length = lo) (hhi : lo + n = hi) :
    copyInto (A ++ List.replicate k 0) lo hi src = A ++ padTo n src ++ List.replicate m 0 := by
  subst hk
  exact copyInto_block _ A (List.replicate m 0) src n lo hi
    (by rw [List.append_assoc, List.replicate_add]) hlo hhi

theorem set_zeros (A : List Nat) (v m k i : Nat) (hk : k = 1 + m) (hi : A.length = i) :
    (A ++ List.replicate k 0).set i v = A ++ [v] ++ List.replicate m 0 := by
  subst hk
  exact set_block _ A (List.replicate m 0) 0 v i
    (by rw [List.append_assoc, List.replicate_add]; rfl) hi

theorem charge_payload_writes (b0 isRes ct cur : Nat) (user cid ts dur en : List Nat)
    (hts : ts.length = 4) (hdur : dur.length = 2) (hen : en.length = 2) :
    (copyInto (copyInto (copyInto (((copyInto ((copyInto (WriteUserId
        ((List.replicate 47 0).set 0 b0) 1 17 user) 17 33 cid).set 33 isRes) 34 38 ts).set
        38 1).set 39 ct) 40 42 dur) 42 44 en) 44 46 (putUint16 0xFFFF)).set 46 cur =
      [b0] ++ padTo 16 user ++ padTo 16 cid ++ [isRes] ++ ts ++ [1] ++ [ct] ++ dur ++ en ++
        [255, 255] ++ [cur] := by
  have s1 : (List.replicate 47 0).set 0 b0 = [b0] ++ List.replicate 46 0 := rfl
  rw [s1]
  unfold WriteUserId
  have l1 : ([b0]).length = 1 := by
    simp [padTo_length, hts, hdur, hen, putUint16_length]
  rw [copyInto_zeros ([b0]) _ 16 30 46 1 17 rfl l1 rfl]
  rw [padTo_truncated]
  have l2 : ([b0] ++ padTo 16 user).length = 17 := by
    simp [padTo_length, hts, hdur, hen, putUint16_length]
  rw [copyInto_zeros ([b0] ++ padTo 16 user) _ 16 14 30 17 33 rfl l2 rfl]
  have l3 : ([b0] ++ padTo 16 user ++ padTo 16 cid).length = 33 := by
    simp [padTo_length, hts, hdur, hen, putUint16_length]
  rw [set_zeros ([b0] ++ padTo 16 user ++ padTo 16 cid) isRes 13 14 33 rfl l3]
  have l4 : ([b0] ++ padTo 16 user ++ padTo 16 cid ++ [isRes]).length = 34 := by
    simp [padTo_length, hts, hdur, hen, putUint16_length]
  rw [copyInto_zeros ([b0] ++ padTo 16 user ++ padTo 16 cid ++ [isRes]) _ 4 9 13 34 38 rfl l4 rfl]
  rw [padTo_full 4 _ hts]
  have l5 : ([b0] ++ padTo 16 user ++ padTo 16 cid ++ [isRes] ++ ts).length = 38 := by
    simp [padTo_length, hts, hdur, hen, putUint16_length]
  rw [set_zeros ([b0] ++ padTo 16 user ++ padTo 16 cid ++ [isRes] ++ ts) 1 8 9 38 rfl l5]
  have l6 : ([b0] ++ padTo 16 user ++ padTo 16 cid ++ [isRes] ++ ts ++ [1]).length = 39 := by
    simp [padTo_length, hts, hdur, hen, putUint16_length]
  rw [set_zeros ([b0] ++ padTo 16 user ++ padTo 16 cid ++ [isRes] ++ ts ++ [1]) ct 7 8 39 rfl l6]
  have l7 : ([b0] ++ padTo 16 user ++ padTo 16 cid ++ [isRes] ++ ts ++ [1] ++ [ct]).length = 40 := by
    simp [padTo_length, hts, hdur, hen, putUint16_length]
  rw [copyInto_zeros ([b0] ++ padTo 16 user ++ padTo 16 cid ++ [isRes] ++ ts ++ [1] ++ [ct]) _ 2 5 7 40 42 rfl l7 rfl]
  rw [padTo_full 2 _ hdur]
  have l8 : ([b0] ++ padTo 16 user ++ padTo 16 cid ++ [isRes] ++ ts ++ [1] ++ [ct] ++ dur).length = 42 := by
    simp [padTo_length, hts, hdur, hen, putUint16_length]
  rw [copyInto_zeros ([b0] ++ padTo 16 user ++ padTo 16 cid ++ [isRes] ++ ts ++ [1] ++ [ct] ++ dur) _ 2 3 5 42 44 rfl l8 rfl]
  rw [padTo_full 2 _ hen]
  have l9 : ([b0] ++ padTo 16 user ++ padTo 16 cid ++ [isRes] ++ ts ++ [1] ++ [ct] ++ dur ++ en).length = 44 := by
    simp [padTo_length, hts, hdur, hen, putUint16_length]
  rw [copyInto_zeros ([b0] ++ padTo 16 user ++ padTo 16 cid ++ [isRes] ++ ts ++ [1] ++ [ct] ++ dur ++ en) _ 2 1 3 44 46 rfl l9 rfl]
  rw [padTo_full 2 (putUint16 0xFFFF) rfl]
  have l10 : ([b0] ++ padTo 16 user ++ padTo 16 cid ++ [isRes] ++ ts ++ [1] ++ [ct] ++ dur ++ en ++ putUint16 0xFFFF).length = 46 := by
    simp [padTo_length, hts, hdur, hen, putUint16_length]
  rw [set_zeros ([b0] ++ padTo 16 user ++ padTo 16 cid ++ [isRes] ++ ts ++ [1] ++ [ct] ++ dur ++ en ++ putUint16 0xFFFF) cur 0 1 46 rfl l10]
  simp [putUint16]

/-- The 47 bytes `createChargeStartDatagram` builds, field by field. -/
theorem createChargeStartDatagram_payload (appName : List Nat) (evse : Evse)
    (params : ChargeStartParams) (env : CallEnv) :
    (createChargeStartDatagram appName evse params env).Payload =
      [(if params.ForceSinglePhase then
          if CanForceSinglePhase evse.info then ((1 : Nat), (11 : Nat)) else (2, 1)
        else (2, 1)).1 % 256] ++
      padTo 16 (if params.UserId = [] then appName else params.UserId) ++
      padTo 16 (MakeChargeId env.shanghai env.unixNano params.ChargeId) ++
      [(if params.StartAt / 1000000000 > 0 then
          (params.StartAt, if params.StartAt > env.now + 5 * Second then (1 : Nat) else 0)
        else (env.now, 0)).2 % 256] ++
      putUint32 (TimeToEmTimestamp env.zones (some
        (if params.StartAt / 1000000000 > 0 then
          (params.StartAt, if params.StartAt > env.now + 5 * Second then (1 : Nat) else 0)
        else (env.now, 0)).1)) ++
      [1] ++
      [(if params.ForceSinglePhase then
          if CanForceSinglePhase evse.info then ((1 : Nat), (11 : Nat)) else (2, 1)
        else (2, 1)).2 % 256] ++
      (if params.MaxDuration ≤ 0 then putUint16 0xFFFF
        else putUint16 (max 1 (minutesToUint16 env.fl params.MaxDuration))) ++
      (if params.MaxEnergy ≤ 0 then putUint16 0xFFFF
        else putUint16 (floatToUint16 env.fl (env.fl.mul100 params.MaxEnergy))) ++
      [255, 255] ++
      [floatToByte env.fl (chargeStartCurrent evse params)] := by
  unfold createChargeStartDatagram
  dsimp only
  have hts : ∀ v, (putUint32 v).length = 4 := fun _ => rfl
  split_ifs <;> exact charge_payload_writes _ _ _ _ _ _ _ _ _ (hts _) rfl rfl

theorem charge_layout_bytes (b0 r ct cur : Nat) (U Cd ts dur en : List Nat)
    (hU : U.length = 16) (hC : Cd.length = 16) (hts : ts.length = 4) (hdur : dur.length = 2)
    (hen : en.length = 2) (L : List Nat)
    (hL : L = [b0] ++ U ++ Cd ++ [r] ++ ts ++ [1] ++ [ct] ++ dur ++ en ++ [255, 255] ++ [cur]) :
    L.length = 47 ∧ L.getD 0 0 = b0 ∧ slice L 1 17 = some U ∧ L.getD 39 0 = ct ∧
      slice L 40 42 = some dur ∧ L.getD 46 0 = cur := by
  subst hL
  refine ⟨by simp [hU, hC, hts, hdur, hen], by simp, ?_, ?_, ?_, ?_⟩
  · exact slice_eq _ [b0] U (Cd ++ [r] ++ ts ++ [1] ++ [ct] ++ dur ++ en ++ [255, 255] ++ [cur])
      1 17 (by simp) rfl (by omega)
  · have h := getD_append_at ([b0] ++ U ++ Cd ++ [r] ++ ts ++ [1])
      ([ct] ++ dur ++ en ++ [255, 255] ++ [cur]) 39 0 (by simp [hU, hC, hts])
    simpa using h
  · exact slice_eq _ ([b0] ++ U ++ Cd ++ [r] ++ ts ++ [1] ++ [ct]) dur (en ++ [255, 255] ++ [cur])
      40 42 (by simp) (by simp [hU, hC, hts]) (by omega)
  · exact getD_append_at _ [cur] 46 0 (by simp [hU, hC, hts, hdur, hen])

theorem chargeStart_bytes (appName : List Nat) (evse : Evse) (params : ChargeStartParams)
    (env : CallEnv) :
    (createChargeStartDatagram appName evse params env).Payload.length = 47 ∧
    (createChargeStartDatagram appName evse params env).Payload.getD 0 0 =
      (if params.ForceSinglePhase then
          if CanForceSinglePhase evse.info then ((1 : Nat), (11 : Nat)) else (2, 1)
        else (2, 1)).1 % 256 ∧
    slice (createChargeStartDatagram appName evse params env).Payload 1 17 =
      some (padTo 16 (if params.UserId = [] then appName else params.UserId)) ∧
    (createChargeStartDatagram appName evse params env).Payload.getD 39 0 =
      (if params.ForceSinglePhase then
          if CanForceSinglePhase evse.info then ((1 : Nat), (11 : Nat)) else (2, 1)
        else (2, 1)).2 % 256 ∧
    slice (createChargeStartDatagram appName evse params env).Payload 40 42 =
      some (if params.MaxDuration ≤ 0 then putUint16 0xFFFF
        else putUint16 (max 1 (minutesToUint16 env.fl params.MaxDuration))) ∧
    (createChargeStartDatagram appName evse params env).Payload.getD 46 0 =
      floatToByte env.fl (chargeStartCurrent evse params) := by
  have hdur : (if params.MaxDuration ≤ 0 then putUint16 0xFFFF
      else putUint16 (max 1 (minutesToUint16 env.fl params.MaxDuration))).length = 2 := by
    split_ifs <;> rfl
  have hen : (if params.MaxEnergy ≤ 0 then putUint16 0xFFFF
      else putUint16 (floatToUint16 env.fl (env.fl.mul100 params.MaxEnergy))).length = 2 := by
    split_ifs <;> rfl
  exact charge_layout_bytes _ _ _ _ _ _ (putUint32 _) _ _ (padTo_length _ _) (padTo_length _ _)
    rfl hdur hen _ (createChargeStartDatagram_payload appName evse params env)

/-! ## Claims on the charge commands -/

/-- C13. Preflight of `StartCharge` and `StopCharge`: on a record that is not online they
return error reason 160 with an `EvseOfflineError`, on a record that is online but not
logged in error reason 161 with an `EvseNotLoggedInError`; in both cases the communicator
and the record come back as they were, so no datagram is sent and no waiter registered. -/
theorem charge_preflight (c : Communicator) (evse : Evse) (start : ChargeStartParams)
    (stop : ChargeStopParams) (env : CallEnv) :
    (IsOnline evse env.now = false →
      StartCharge c evse start env =
        some (c, evse, { ErrorReason := 160, ErrorMessage := "EVSE is offline" },
          some (.EvseOfflineError evse.serial)) ∧
      StopCharge c evse stop env =
        some (c, evse, { ErrorReason := 160 }, some (.EvseOfflineError evse.serial))) ∧
    (IsOnline evse env.now = true → IsLoggedIn evse env.now = false →
      StartCharge c evse start env =
        some (c, evse, { ErrorReason := 161, ErrorMessage := "EVSE is not logged in" },
          some (.EvseNotLoggedInError evse.serial)) ∧
      StopCharge c evse stop env =
        some (c, evse, { ErrorReason := 161 }, some (.EvseNotLoggedInError evse.serial))) := by
  constructor
  · intro h
    constructor
    · simp [StartCharge, h, ChargeStartErrorEvseOffline, GetChargeStartErrorReasonMessage]
    · simp [StopCharge, h, ChargeStopErrorEvseOffline]
  · intro h1 h2
    constructor
    · simp [StartCharge, h1, h2, ChargeStartErrorEvseNotLoggedIn,
        GetChargeStartErrorReasonMessage]
    · simp [StopCharge, h1, h2, ChargeStopErrorEvseNotLoggedIn]

theorem charge_preflight_witness :
    StartCharge { udpConn := true } { serial := [49] } {} sampleEnv =
      some ({ udpConn := true }, { serial := [49] },
        { ErrorReason := 160, ErrorMessage := "EVSE is offline" },
        some (.EvseOfflineError [49])) ∧
    StopCharge { udpConn := true } { serial := [49], LastSeen := some sampleEnv.now } {}
        sampleEnv =
      some ({ udpConn := true }, { serial := [49], LastSeen := some sampleEnv.now },
        { ErrorReason := 161 }, some (.EvseNotLoggedInError [49])) :=
  ⟨((charge_preflight { udpConn := true } { serial := [49] } {} {} sampleEnv).1
      (by decide)).1,
    ((charge_preflight { udpConn := true } { serial := [49], LastSeen := some sampleEnv.now }
      {} {} sampleEnv).2 (by decide) (by decide)).2⟩

theorem floatToByte_natCast (fl : FloatOps) (n : Nat) (h : n < 256) :
    floatToByte fl (n : ℚ) = n := by
  unfold floatToByte
  have h1 : (-1 : ℚ) < (n : ℚ) := by
    have : (0 : ℚ) ≤ (n : ℚ) := Nat.cast_nonneg n
    linarith
  have h2 : (n : ℚ) < 256 := by exact_mod_cast h
  rw [if_pos ⟨h1, h2⟩]
  simp

theorem chargeStartCurrent_eq_claim (evse : Evse) (params : ChargeStartParams)
    (hc : 6 ≤ evse.config.MaxCurrent_) (hi : 6 ≤ evse.info.MaxCurrent_) :
    chargeStartCurrent evse params =
      min (clamp params.MaxCurrent 6 evse.info.MaxCurrent_) evse.config.MaxCurrent_ := by
  unfold chargeStartCurrent clamp
  simp only
  rcases le_total params.MaxCurrent evse.config.MaxCurrent_ with h1 | h1 <;>
    rcases le_total params.MaxCurrent evse.info.MaxCurrent_ with h2 | h2 <;>
    rcases le_total params.MaxCurrent 6 with h3 | h3 <;>
    rcases le_total evse.config.MaxCurrent_ evse.info.MaxCurrent_ with h4 | h4 <;>
    simp only [min_def, max_def] <;> split_ifs <;> linarith

/-- C14, counterexample. With `info.maxCurrent = 32` and the zero default of
`config.maxCurrent`, a request of 16 gives byte 46 = 6, whereas
`min(clamp(16, 6, 32), 0)` is 0. -/
theorem chargeStart_current_counterexample :
    (createChargeStartDatagram [] { info := { MaxCurrent_ := 32 } } { MaxCurrent := 16 }
      sampleEnv).Payload.getD 46 0 = 6 ∧
    floatToByte sampleEnv.fl (min (clamp 16 6 32) 0) = 0 := by
  constructor
  · rw [(chargeStart_bytes [] _ _ sampleEnv).2.2.2.2.2]
    have h : chargeStartCurrent { info := { MaxCurrent_ := 32 } } { MaxCurrent := 16 } =
        ((6 : Nat) : ℚ) := by
      norm_num [chargeStartCurrent]
    rw [h]
    exact floatToByte_natCast _ 6 (by norm_num)
  · have h : min (clamp 16 6 32) (0 : ℚ) = ((0 : Nat) : ℚ) := by
      norm_num [clamp]
    rw [h]
    exact floatToByte_natCast _ 0 (by norm_num)

theorem chargeStartCurrent_low_config (evse : Evse) (params : ChargeStartParams)
    (hc : evse.config.MaxCurrent_ < 6) :
    chargeStartCurrent evse params = ((6 : Nat) : ℚ) := by
  unfold chargeStartCurrent
  simp only
  rw [if_pos (le_trans (min_le_right _ _) (le_of_lt hc))]
  norm_num

/-- C14, amended. When `config.maxCurrent` and `info.maxCurrent` are both at least 6,
byte 46 of the ChargeStart payload is the byte conversion of
`min(clamp(params.MaxCurrent, 6, info.maxCurrent), config.maxCurrent)`; when
`config.maxCurrent` is below 6, byte 46 is 6. -/
theorem chargeStart_current (appName : List Nat) (evse : Evse) (params : ChargeStartParams)
    (env : CallEnv) :
    (6 ≤ evse.config.MaxCurrent_ → 6 ≤ evse.info.MaxCurrent_ →
      (createChargeStartDatagram appName evse params env).Payload.getD 46 0 =
        floatToByte env.fl
          (min (clamp params.MaxCurrent 6 evse.info.MaxCurrent_) evse.config.MaxCurrent_)) ∧
    (evse.config.MaxCurrent_ < 6 →
      (createChargeStartDatagram appName evse params env).Payload.getD 46 0 = 6) := by
  have hb := (chargeStart_bytes appName evse params env).2.2.2.2.2
  constructor
  · intro hc hi
    rw [hb, chargeStartCurrent_eq_claim evse params hc hi]
  · intro hc
    rw [hb, chargeStartCurrent_low_config evse params hc]
    exact floatToByte_natCast _ 6 (by norm_num)

theorem chargeStart_current_witness :
    (createChargeStartDatagram []
      { info := { MaxCurrent_ := 32 }, config := { MaxCurrent_ := 32 } } { MaxCurrent := 200 }
      sampleEnv).Payload.getD 46 0 =
      floatToByte sampleEnv.fl (min (clamp 200 6 32) 32) :=
  (chargeStart_current [] { info := { MaxCurrent_ := 32 }, config := { MaxCurrent_ := 32 } }
    { MaxCurrent := 200 } sampleEnv).1 (by norm_num) (by norm_num)

theorem chargeStart_current_examples :
    (createChargeStartDatagram []
      { info := { MaxCurrent_ := 32 }, config := { MaxCurrent_ := 32 } } { MaxCurrent := 200 }
      sampleEnv).Payload.getD 46 0 = 32 ∧
    (createChargeStartDatagram []
      { info := { MaxCurrent_ := 32 }, config := { MaxCurrent_ := 32 } } { MaxCurrent := 16 }
      sampleEnv).Payload.getD 46 0 = 16 ∧
    (createChargeStartDatagram []
      { info := { MaxCurrent_ := 32 }, config := { MaxCurrent_ := 32 } } { MaxCurrent := 3 }
      sampleEnv).Payload.getD 46 0 = 6 := by
  refine ⟨?_, ?_, ?_⟩
  · rw [(chargeStart_bytes [] _ _ sampleEnv).2.2.2.2.2]
    have h : chargeStartCurrent
        { info := { MaxCurrent_ := 32 }, config := { MaxCurrent_ := 32 } }
        { MaxCurrent := 200 } = ((32 : Nat) : ℚ) := by
      norm_num [chargeStartCurrent]
    rw [h]
    exact floatToByte_natCast _ 32 (by norm_num)
  · rw [(chargeStart_bytes [] _ _ sampleEnv).2.2.2.2.2]
    have h : chargeStartCurrent
        { info := { MaxCurrent_ := 32 }, config := { MaxCurrent_ := 32 } }
        { MaxCurrent := 16 } = ((16 : Nat) : ℚ) := by
      norm_num [chargeStartCurrent]
    rw [h]
    exact floatToByte_natCast _ 16 (by norm_num)
  · rw [(chargeStart_bytes [] _ _ sampleEnv).2.2.2.2.2]
    have h : chargeStartCurrent
        { info := { MaxCurrent_ := 32 }, config := { MaxCurrent_ := 32 } }
        { MaxCurrent := 3 } = ((6 : Nat) : ℚ) := by
      norm_num [chargeStartCurrent]
    rw [h]
    exact floatToByte_natCast _ 6 (by norm_num)

/-- C15, failing input. With `config.maxCurrent = 16` and the zero default of
`info.maxCurrent`, a request of 16 gives byte 46 = 0, below 6: the request passes the floor
of 6 and is then cut to `info.maxCurrent`. -/
theorem chargeStart_current_below_six :
    (createChargeStartDatagram [] { config := { MaxCurrent_ := 16 } } { MaxCurrent := 16 }
      sampleEnv).Payload.getD 46 0 = 0 := by
  rw [(chargeStart_bytes [] _ _ sampleEnv).2.2.2.2.2]
  have h : chargeStartCurrent { config := { MaxCurrent_ := 16 } } { MaxCurrent := 16 } =
      ((0 : Nat) : ℚ) := by
    norm_num [chargeStartCurrent]
  rw [h]
  exact floatToByte_natCast _ 0 (by norm_num)

/-- C16, failing input. With `params.MaxCurrent` left at zero, `config.maxCurrent = 16`
and `info.maxCurrent = 32`, byte 46 is 6 and not the configured 16: the minimum of the
request and the configured maximum is 0, which the floor raises to 6. -/
theorem chargeStart_current_unset :
    (createChargeStartDatagram []
      { info := { MaxCurrent_ := 32 }, config := { MaxCurrent_ := 16 } } {}
      sampleEnv).Payload.getD 46 0 = 6 := by
  rw [(chargeStart_bytes [] _ _ sampleEnv).2.2.2.2.2]
  have h : chargeStartCurrent
      { info := { MaxCurrent_ := 32 }, config := { MaxCurrent_ := 16 } } {} =
      ((6 : Nat) : ℚ) := by
    norm_num [chargeStartCurrent]
  rw [h]
  exact floatToByte_natCast _ 6 (by norm_num)

/-- C17. Forced single phase: the ChargeStart payload has byte 0 = 1 and byte 39 = 11 iff
`params.ForceSinglePhase` is set and the EVSE can force single phase (`evseType` in 22..25
and `byte70 < 11`); in every other case byte 0 = 2 and byte 39 = 1.  The datagram is produced
in all cases, with command 0x8007 and 47 payload bytes. -/
theorem chargeStart_single_phase (appName : List Nat) (evse : Evse)
    (params : ChargeStartParams) (env : CallEnv) :
    (((createChargeStartDatagram appName evse params env).Payload.getD 0 0 = 1 ∧
        (createChargeStartDatagram appName evse params env).Payload.getD 39 0 = 11) ↔
      (params.ForceSinglePhase = true ∧ 22 ≤ evse.info.EvseType_ ∧
        evse.info.EvseType_ ≤ 25 ∧ evse.info.Byte70_ < 11)) ∧
    (¬(params.ForceSinglePhase = true ∧ 22 ≤ evse.info.EvseType_ ∧
        evse.info.EvseType_ ≤ 25 ∧ evse.info.Byte70_ < 11) →
      (createChargeStartDatagram appName evse params env).Payload.getD 0 0 = 2 ∧
        (createChargeStartDatagram appName evse params env).Payload.getD 39 0 = 1) ∧
    (createChargeStartDatagram appName evse params env).Command = 0x8007 ∧
    (createChargeStartDatagram appName evse params env).Payload.length = 47 := by
  obtain ⟨hlen, h0, -, h39, -, -⟩ := chargeStart_bytes appName evse params env
  have hcan : CanForceSinglePhase evse.info = true ↔
      (22 ≤ evse.info.EvseType_ ∧ evse.info.EvseType_ ≤ 25 ∧ evse.info.Byte70_ < 11) := by
    simp [CanForceSinglePhase, and_assoc]
  rw [h0, h39]
  refine ⟨?_, ?_, rfl, hlen⟩
  · cases hf : params.ForceSinglePhase <;> cases hcf : CanForceSinglePhase evse.info <;>
      simp [← hcan, hcf]
  · cases hf : params.ForceSinglePhase <;> cases hcf : CanForceSinglePhase evse.info <;>
      simp [← hcan, hcf]

theorem chargeStart_single_phase_witness :
    (createChargeStartDatagram [] { info := { EvseType_ := 10 } } { ForceSinglePhase := true }
      sampleEnv).Payload.getD 0 0 = 2 ∧
    (createChargeStartDatagram [] { info := { EvseType_ := 10 } } { ForceSinglePhase := true }
      sampleEnv).Payload.getD 39 0 = 1 :=
  (chargeStart_single_phase [] { info := { EvseType_ := 10 } } { ForceSinglePhase := true }
    sampleEnv).2.1 (by decide)

/-- C18, failing input. A maximum duration of 65535 minutes is positive, and bytes 40..41
of the ChargeStart payload are `FF FF`, the value that stands for no limit. -/
theorem chargeStart_duration_sentinel :
    0 < 65535 * Minute ∧
    slice (createChargeStartDatagram [] {} { MaxDuration := 65535 * Minute }
      sampleEnv).Payload 40 42 = some [0xFF, 0xFF] := by
  refine ⟨by decide, ?_⟩
  rw [(chargeStart_bytes [] _ _ sampleEnv).2.2.2.2.1]
  decide

/-- Bytes 40..41 of the ChargeStart payload (big-endian) are 0xFFFF when
`params.MaxDuration <= 0`, and for every positive `MaxDuration` of fewer than 65535 whole
minutes they are `max(1, whole minutes of MaxDuration)`, which is not 0xFFFF. -/
theorem chargeStart_duration (appName : List Nat) (evse : Evse) (params : ChargeStartParams)
    (env : CallEnv) :
    (params.MaxDuration ≤ 0 →
      slice (createChargeStartDatagram appName evse params env).Payload 40 42 =
        some (putUint16 0xFFFF)) ∧
    (0 < params.MaxDuration → params.MaxDuration / Minute < 65535 →
      slice (createChargeStartDatagram appName evse params env).Payload 40 42 =
          some (putUint16 (max 1 (params.MaxDuration / Minute).toNat)) ∧
        max 1 (params.MaxDuration / Minute).toNat < 0xFFFF ∧
        putUint16 (max 1 (params.MaxDuration / Minute).toNat) ≠ putUint16 0xFFFF) := by
  have hb := (chargeStart_bytes appName evse params env).2.2.2.2.1
  constructor
  · intro h
    rw [hb, if_pos h]
  · intro hpos hlt
    have hm : minutesToUint16 env.fl params.MaxDuration =
        (params.MaxDuration / Minute).toNat := by
      unfold minutesToUint16
      rw [if_pos (by omega)]
    have hnn : 0 ≤ params.MaxDuration / Minute :=
      Int.ediv_nonneg (le_of_lt hpos) (by decide)
    have hlt' : max 1 (params.MaxDuration / Minute).toNat < 0xFFFF := by
      have : (params.MaxDuration / Minute).toNat < 65535 := by omega
      omega
    refine ⟨by rw [hb, if_neg (by omega), hm], hlt', ?_⟩
    intro heq
    unfold putUint16 at heq
    simp only [List.cons.injEq, and_true] at heq
    omega

theorem chargeStart_duration_witness :
    slice (createChargeStartDatagram [] {} { MaxDuration := 90 * Second }
        sampleEnv).Payload 40 42 =
      some (putUint16 (max 1 ((90 * Second) / Minute).toNat)) ∧
    max 1 ((90 * Second) / Minute).toNat < 0xFFFF ∧
    putUint16 (max 1 ((90 * Second) / Minute).toNat) ≠ putUint16 0xFFFF :=
  (chargeStart_duration [] {} { MaxDuration := 90 * Second } sampleEnv).2 (by decide)
    (by decide)

theorem appendInt_two (x : Nat) (h : x < 100) :
    appendInt x 2 = [48 + x / 10, 48 + x % 10] := by
  simp [appendInt, h]

theorem appendInt_four (x : Nat) (h : x < 10000) :
    appendInt x 4 = [48 + x / 1000, 48 + x / 100 % 10, 48 + x / 10 % 10, 48 + x % 10] := by
  simp [appendInt, h]

theorem formatDate_digits (t : Civil) (h : t.valid = true) :
    (formatDate t).length = 8 ∧ ∀ ch ∈ formatDate t, isAsciiDigit ch = true := by
  simp only [Civil.valid, Bool.and_eq_true, decide_eq_true_eq] at h
  obtain ⟨⟨⟨⟨⟨⟨hy, hm1⟩, hm2⟩, hd1⟩, hd2⟩, hh⟩, hmi⟩ := h
  unfold formatDate
  rw [appendInt_four _ (by omega), appendInt_two _ (by omega), appendInt_two _ (by omega)]
  refine ⟨rfl, ?_⟩
  intro ch hch
  rw [isAsciiDigit_iff]
  simp only [List.cons_append, List.nil_append, List.mem_cons, List.mem_singleton,
    List.not_mem_nil, or_false] at hch
  omega

theorem formatDateTime_digits (t : Civil) (h : t.valid = true) :
    (formatDateTime t).length = 12 ∧ ∀ ch ∈ formatDateTime t, isAsciiDigit ch = true := by
  obtain ⟨hlen, hdig⟩ := formatDate_digits t h
  simp only [Civil.valid, Bool.and_eq_true, decide_eq_true_eq] at h
  obtain ⟨⟨⟨⟨⟨⟨hy, hm1⟩, hm2⟩, hd1⟩, hd2⟩, hh⟩, hmi⟩ := h
  unfold formatDateTime
  rw [appendInt_two _ (by omega), appendInt_two _ (by omega)]
  refine ⟨by simp [hlen], ?_⟩
  intro ch hch
  simp only [List.mem_append, List.mem_cons, List.mem_singleton, List.not_mem_nil,
    or_false] at hch
  rcases hch with (hch | hch) | hch
  · exact hdig ch hch
  · rw [isAsciiDigit_iff]; omega
  · rw [isAsciiDigit_iff]; omega

theorem nanoDigit_digit (n : Int) (h : 0 ≤ n) : isAsciiDigit (nanoDigit n) = true := by
  rw [isAsciiDigit_iff]
  unfold nanoDigit
  have h1 : 0 ≤ Int.tmod n 10 := Int.tmod_nonneg _ h
  have h2 : Int.tmod n 10 < 10 := Int.tmod_lt_of_pos _ (by decide)
  omega

theorem nanoDigit_nonneg (n : Int) (h : 0 ≤ n) : nanoDigit n = 48 + (n % 10).toNat := by
  unfold nanoDigit
  rw [Int.tmod_eq_emod h (by decide)]
  omega

/-- C19. ChargeId shape, for a clock that reads a date of the years 0..9999 and instants
not before the Unix epoch, `shanghai` being the civil fields of the present instant in
Asia/Shanghai: for every non-empty suffix `MakeChargeId` returns the 8 decimal digits
`yyyyMMdd` of the Shanghai date (four of the year, two of the month, two of the day)
followed by the first `min(len(suffix), 8)` bytes of the suffix; for the empty suffix it
returns exactly 16 decimal digits, the twelve of `yyyyMMddHHmm` followed by the last
decimal digit of each of four clock readings; so the result never exceeds 16 bytes. -/
theorem MakeChargeId_shape (shanghai : Civil) (unixNano : Nat → Int) (suffix : List Nat)
    (hvalid : shanghai.valid = true) (hnano : ∀ i, 0 ≤ unixNano i) :
    (suffix ≠ [] →
      MakeChargeId shanghai unixNano suffix =
        [48 + shanghai.year / 1000, 48 + shanghai.year / 100 % 10,
          48 + shanghai.year / 10 % 10, 48 + shanghai.year % 10,
          48 + shanghai.month / 10, 48 + shanghai.month % 10,
          48 + shanghai.day / 10, 48 + shanghai.day % 10] ++
        suffix.take (min suffix.length 8)) ∧
    (∀ ch ∈ [48 + shanghai.year / 1000, 48 + shanghai.year / 100 % 10,
          48 + shanghai.year / 10 % 10, 48 + shanghai.year % 10,
          48 + shanghai.month / 10, 48 + shanghai.month % 10,
          48 + shanghai.day / 10, 48 + shanghai.day % 10], isAsciiDigit ch = true) ∧
    (MakeChargeId shanghai unixNano [] =
      [48 + shanghai.year / 1000, 48 + shanghai.year / 100 % 10,
        48 + shanghai.year / 10 % 10, 48 + shanghai.year % 10,
        48 + shanghai.month / 10, 48 + shanghai.month % 10,
        48 + shanghai.day / 10, 48 + shanghai.day % 10,
        48 + shanghai.hour / 10, 48 + shanghai.hour % 10,
        48 + shanghai.minute / 10, 48 + shanghai.minute % 10,
        48 + (unixNano 0 % 10).toNat, 48 + (unixNano 1 % 10).toNat,
        48 + (unixNano 2 % 10).toNat, 48 + (unixNano 3 % 10).toNat] ∧
      (MakeChargeId shanghai unixNano []).length = 16 ∧
      ∀ ch ∈ MakeChargeId shanghai unixNano [], isAsciiDigit ch = true) ∧
    (MakeChargeId shanghai unixNano suffix).length ≤ 16 := by
  have hv := hvalid
  simp only [Civil.valid, Bool.and_eq_true, decide_eq_true_eq] at hv
  obtain ⟨⟨⟨⟨⟨⟨hy, hm1⟩, hm2⟩, hd1⟩, hd2⟩, hh⟩, hmi⟩ := hv
  have hdate : formatDate shanghai =
      [48 + shanghai.year / 1000, 48 + shanghai.year / 100 % 10,
        48 + shanghai.year / 10 % 10, 48 + shanghai.year % 10,
        48 + shanghai.month / 10, 48 + shanghai.month % 10,
        48 + shanghai.day / 10, 48 + shanghai.day % 10] := by
    unfold formatDate
    rw [appendInt_four _ (by omega), appendInt_two _ (by omega), appendInt_two _ (by omega)]
    rfl
  have hempty : MakeChargeId shanghai unixNano [] =
      [48 + shanghai.year / 1000, 48 + shanghai.year / 100 % 10,
        48 + shanghai.year / 10 % 10, 48 + shanghai.year % 10,
        48 + shanghai.month / 10, 48 + shanghai.month % 10,
        48 + shanghai.day / 10, 48 + shanghai.day % 10,
        48 + shanghai.hour / 10, 48 + shanghai.hour % 10,
        48 + shanghai.minute / 10, 48 + shanghai.minute % 10,
        48 + (unixNano 0 % 10).toNat, 48 + (unixNano 1 % 10).toNat,
        48 + (unixNano 2 % 10).toNat, 48 + (unixNano 3 % 10).toNat] := by
    have hr : (List.range 4).map (fun i => nanoDigit (unixNano i)) =
        [nanoDigit (unixNano 0), nanoDigit (unixNano 1), nanoDigit (unixNano 2),
          nanoDigit (unixNano 3)] := rfl
    simp only [MakeChargeId, List.length_nil, if_true, formatDateTime, hdate, hr,
      appendInt_two shanghai.hour (by omega), appendInt_two shanghai.minute (by omega),
      nanoDigit_nonneg _ (hnano 0), nanoDigit_nonneg _ (hnano 1),
      nanoDigit_nonneg _ (hnano 2), nanoDigit_nonneg _ (hnano 3)]
    rfl
  have hsuf : suffix ≠ [] → MakeChargeId shanghai unixNano suffix =
      formatDate shanghai ++ suffix.take (min suffix.length 8) := by
    intro hne
    have hlen : suffix.length ≠ 0 := fun h => hne (List.length_eq_zero.1 h)
    unfold MakeChargeId
    rw [if_neg hlen]
    split_ifs with h8
    · rw [Nat.min_eq_right (by omega)]
    · rw [Nat.min_eq_left (by omega), List.take_length]
  have hdig8 : ∀ ch ∈ [48 + shanghai.year / 1000, 48 + shanghai.year / 100 % 10,
      48 + shanghai.year / 10 % 10, 48 + shanghai.year % 10,
      48 + shanghai.month / 10, 48 + shanghai.month % 10,
      48 + shanghai.day / 10, 48 + shanghai.day % 10], isAsciiDigit ch = true := by
    intro ch hch
    rw [isAsciiDigit_iff]
    simp only [List.mem_cons, List.mem_singleton, List.not_mem_nil, or_false] at hch
    omega
  refine ⟨fun hne => by rw [hsuf hne, hdate], hdig8, ⟨hempty, ?_, ?_⟩, ?_⟩
  · rw [hempty]
    rfl
  · rw [hempty]
    intro ch hch
    rw [isAsciiDigit_iff]
    have h0 := hnano 0
    have h1 := hnano 1
    have h2 := hnano 2
    have h3 := hnano 3
    simp only [List.mem_cons, List.mem_singleton, List.not_mem_nil, or_false] at hch
    omega
  · by_cases hne : suffix = []
    · subst hne
      rw [hempty]
      exact Nat.le_refl _
    · rw [hsuf hne, hdate]
      simp only [List.length_append, List.length_take, List.length_cons, List.length_nil]
      omega

theorem MakeChargeId_shape_witness :
    MakeChargeId sampleEnv.shanghai sampleEnv.unixNano [65, 66, 67, 68] =
      [50, 48, 50, 54, 49, 49, 48, 52, 65, 66, 67, 68] ∧
    MakeChargeId sampleEnv.shanghai sampleEnv.unixNano [] =
      [50, 48, 50, 54, 49, 49, 48, 52, 48, 57, 48, 53, 48, 49, 50, 51] ∧
    (MakeChargeId sampleEnv.shanghai sampleEnv.unixNano [65, 66, 67, 68]).length ≤ 16 :=
  have w := MakeChargeId_shape sampleEnv.shanghai sampleEnv.unixNano [65, 66, 67, 68]
    (by decide) (by intro i; simp only [sampleEnv, Second]; omega)
  ⟨(w.1 (by decide)).trans (by decide), w.2.2.1.1.trans (by decide), w.2.2.2⟩

theorem chargeStopPayload_userId (params : ChargeStopParams) :
    slice (chargeStopPayload params) 1 17 = some (padTo 16 params.UserId) := by
  have hset : ∀ v : Nat, (List.replicate 47 0).set 0 v = [v] ++ List.replicate 46 0 :=
    fun _ => rfl
  have hw : ∀ v : Nat, WriteUserId ((List.replicate 47 0).set 0 v) 1 17 params.UserId =
      [v] ++ padTo 16 params.UserId ++ List.replicate 30 0 := by
    intro v
    unfold WriteUserId
    rw [hset, copyInto_zeros [v] _ 16 30 46 1 17 rfl rfl rfl, padTo_truncated]
  unfold chargeStopPayload
  dsimp only
  split_ifs <;> rw [hw] <;>
    exact slice_eq _ _ _ _ 1 17 rfl rfl (by rw [padTo_length])

/-- C20, failing input. With the app name `app` and `params.UserId` empty, bytes 1..16 of
the ChargeStop payload are sixteen zero bytes and not the app name, in the payload
`StopCharge` builds and in the frame it hands to the socket (payload offset 0 is frame
offset 21). -/
theorem StopCharge_empty_userId :
    slice (chargeStopPayload { UserId := [] }) 1 17 = some (List.replicate 16 0) ∧
    (StopCharge { AppName_ := [97, 112, 112], udpConn := true }
        { serial := List.replicate 16 48
          LastSeen := some sampleEnv.now
          LastActiveLogin := some sampleEnv.now }
        { UserId := [] } sampleEnv).map (fun r => r.1.written.map (fun f => slice f 22 38)) =
      some [some (List.replicate 16 0)] := by
  constructor
  · decide
  · decide

/-! ## The debouncer: secondary events, coalescing and the two-second rule -/

theorem QueueEventAux_step (depth : Nat) (c : Communicator) (evse : Evse)
    (eventType : EmEventType) (now : Int) :
    QueueEventAux (depth + 1) c evse eventType now =
      if eventType = .EvseChargeStarted ∨ eventType = .EvseChargeStopped then
        QueueEventAux depth
          (if eventType = .EvseOnline ∨ eventType = .EvseOffline ∨
              eventType = .EvseLoggedIn ∨ eventType = .EvseLoggedOut then
            QueueEventAux depth (queued c evse.serial eventType now) evse .EvseInfoUpdated now
          else queued c evse.serial eventType now) evse .EvseStateUpdated now
      else
        if eventType = .EvseOnline ∨ eventType = .EvseOffline ∨
            eventType = .EvseLoggedIn ∨ eventType = .EvseLoggedOut then
          QueueEventAux depth (queued c evse.serial eventType now) evse .EvseInfoUpdated now
        else queued c evse.serial eventType now := by
  simp only [QueueEventAux, mapGet_mapSet_self]
  have hforce : (match mapGet c.debounceTimers (eventKey evse.serial eventType),
      some ({ Type_ := eventType, Evse := evse.serial, Timestamp := now } : EmEvent) with
      | some _, some queued => decide (now - queued.Timestamp ≥ 2000 * Millisecond)
      | _, _ => false) = false := by
    cases mapGet c.debounceTimers (eventKey evse.serial eventType) <;> simp [Millisecond]
  simp only [hforce, Bool.false_eq_true, if_false, queued]

theorem QueueEvent_eq (c : Communicator) (evse : Evse) (eventType : EmEventType) (now : Int) :
    QueueEvent c (some evse) eventType now =
      if eventType = .EvseOnline ∨ eventType = .EvseOffline ∨
          eventType = .EvseLoggedIn ∨ eventType = .EvseLoggedOut then
        queued (queued c evse.serial eventType now) evse.serial .EvseInfoUpdated now
      else if eventType = .EvseChargeStarted ∨ eventType = .EvseChargeStopped then
        queued (queued c evse.serial eventType now) evse.serial .EvseStateUpdated now
      else queued c evse.serial eventType now := by
  simp only [QueueEvent]
  rw [QueueEventAux_step]
  cases eventType <;> simp [QueueEventAux_step]

theorem QueueEvent_dispatched (c : Communicator) (evse : Evse) (eventType : EmEventType)
    (now : Int) : (QueueEvent c (some evse) eventType now).dispatched = c.dispatched := by
  rw [QueueEvent_eq]
  split_ifs <;> rfl

theorem mapGet_eq_head {K V : Type} [DecidableEq K] (m : List (K × V)) (k : K) :
    mapGet m k = ((m.filter (fun e => decide (e.1 = k))).head?).map (fun e => e.2) := by
  induction m with
  | nil => rfl
  | cons a m ih =>
    by_cases h : a.1 = k
    · simp [mapGet, List.find?_cons, List.filter_cons, h]
    · simp only [mapGet, List.find?_cons, List.filter_cons, h, decide_False,
        Bool.false_eq_true, if_false] at ih ⊢
      exact ih

theorem mapGet_mem {K V : Type} [DecidableEq K] (m : List (K × V)) (k : K) (v : V)
    (h : mapGet m k = some v) : (k, v) ∈ m := by
  unfold mapGet at h
  cases hf : m.find? (fun e => decide (e.1 = k)) with
  | none => rw [hf] at h; cases h
  | some e =>
    rw [hf] at h
    have hk : e.1 = k := by simpa using List.find?_some hf
    have hm := List.mem_of_find?_eq_some hf
    have hv : e.2 = v := by simpa using h
    have he : e = (k, v) := Prod.ext hk hv
    rw [← he]
    exact hm

theorem mem_mapDelete {K V : Type} [DecidableEq K] (m : List (K × V)) (k : K) (p : K × V)
    (h : p ∈ mapDelete m k) : p ∈ m :=
  (List.mem_filter.1 h).1

theorem filter_key_mapDelete_self {K V : Type} [DecidableEq K] (m : List (K × V)) (k : K) :
    (mapDelete m k).filter (fun e => decide (e.1 = k)) = [] := by
  rw [List.filter_eq_nil_iff]
  intro x hx
  have := (List.mem_filter.1 hx).2
  simpa using this

theorem filter_key_mapDelete_ne {K V : Type} [DecidableEq K] (m : List (K × V)) (k k' : K)
    (h : k' ≠ k) :
    (mapDelete m k').filter (fun e => decide (e.1 = k)) =
      m.filter (fun e => decide (e.1 = k)) := by
  unfold mapDelete
  rw [List.filter_filter]
  apply List.filter_congr
  intro x _
  by_cases hx : x.1 = k
  · have : k ≠ k' := fun e => h e.symm
    simp [hx, this]
  · simp [hx]

theorem filter_key_mapSet_self {K V : Type} [DecidableEq K] (m : List (K × V)) (k : K)
    (v : V) : (mapSet m k v).filter (fun e => decide (e.1 = k)) = [(k, v)] := by
  unfold mapSet
  rw [List.filter_cons, filter_key_mapDelete_self]
  simp

theorem filter_key_mapSet_ne {K V : Type} [DecidableEq K] (m : List (K × V)) (k k' : K)
    (v : V) (h : k' ≠ k) :
    (mapSet m k' v).filter (fun e => decide (e.1 = k)) =
      m.filter (fun e => decide (e.1 = k)) := by
  unfold mapSet
  rw [List.filter_cons, filter_key_mapDelete_ne m k k' h]
  simp [h]

theorem eventKey_type_inj (serial : List Nat) (a b : EmEventType)
    (h : eventKey serial a = eventKey serial b) : a = b := by
  unfold eventKey at h
  have h' := List.append_cancel_left h
  revert h'
  cases a <;> cases b <;> first | (intro _; rfl) | (intro h'; exact absurd h' (by decide))

theorem eventKey_of_event (serial : List Nat) (eventType : EmEventType) (ev : EmEvent)
    (h1 : ev.Evse = serial) (h2 : ev.Type_ = eventType) :
    eventKey ev.Evse ev.Type_ = eventKey serial eventType := by
  rw [h1, h2]

theorem queued_pendingAt_self (c : Communicator) (serial : List Nat) (eventType : EmEventType)
    (now : Int) :
    pendingAt (queued c serial eventType now) (eventKey serial eventType) =
      [(eventKey serial eventType,
        { Evse := serial, Type_ := eventType, Timestamp := now })] := by
  simp only [pendingAt, queued, filter_key_mapSet_self]

theorem queued_timersAt_self (c : Communicator) (serial : List Nat) (eventType : EmEventType)
    (now : Int) :
    timersAt (queued c serial eventType now) (eventKey serial eventType) =
      [(eventKey serial eventType, now + 400 * Millisecond)] := by
  simp only [timersAt, queued, filter_key_mapSet_self]

theorem queued_other (c : Communicator) (serial : List Nat) (a b : EmEventType) (now : Int)
    (h : a ≠ b) :
    pendingAt (queued c serial a now) (eventKey serial b) = pendingAt c (eventKey serial b) ∧
    timersAt (queued c serial a now) (eventKey serial b) = timersAt c (eventKey serial b) := by
  have hk : eventKey serial a ≠ eventKey serial b := fun e => h (eventKey_type_inj _ _ _ e)
  simp only [pendingAt, timersAt, queued, filter_key_mapSet_ne _ _ _ _ hk, and_self]

theorem queued_wellKeyed (c : Communicator) (serial : List Nat) (eventType : EmEventType)
    (now : Int) (h : wellKeyed c) : wellKeyed (queued c serial eventType now) := by
  intro p hp
  simp only [queued, mapSet, List.mem_cons] at hp
  rcases hp with rfl | hp
  · rfl
  · exact h p (mem_mapDelete _ _ _ hp)

theorem QueueEvent_key (c : Communicator) (evse : Evse) (eventType : EmEventType) (now : Int)
    (h : wellKeyed c) :
    wellKeyed (QueueEvent c (some evse) eventType now) ∧
    pendingAt (QueueEvent c (some evse) eventType now) (eventKey evse.serial eventType) =
      [(eventKey evse.serial eventType,
        { Evse := evse.serial, Type_ := eventType, Timestamp := now })] ∧
    timersAt (QueueEvent c (some evse) eventType now) (eventKey evse.serial eventType) =
      [(eventKey evse.serial eventType, now + 400 * Millisecond)] := by
  rw [QueueEvent_eq]
  split_ifs with h1 h2
  · have hne : EmEventType.EvseInfoUpdated ≠ eventType := by
      rcases h1 with h1 | h1 | h1 | h1 <;> rw [h1] <;> decide
    have ho := queued_other (queued c evse.serial eventType now) evse.serial _ _ now hne
    exact ⟨queued_wellKeyed _ _ _ _ (queued_wellKeyed _ _ _ _ h),
      by rw [ho.1, queued_pendingAt_self], by rw [ho.2, queued_timersAt_self]⟩
  · have hne : EmEventType.EvseStateUpdated ≠ eventType := by
      rcases h2 with h2 | h2 <;> rw [h2] <;> decide
    have ho := queued_other (queued c evse.serial eventType now) evse.serial _ _ now hne
    exact ⟨queued_wellKeyed _ _ _ _ (queued_wellKeyed _ _ _ _ h),
      by rw [ho.1, queued_pendingAt_self], by rw [ho.2, queued_timersAt_self]⟩
  · exact ⟨queued_wellKeyed _ _ _ _ h, queued_pendingAt_self _ _ _ _,
      queued_timersAt_self _ _ _ _⟩

theorem dispatchDebouncedEvent_absent (c : Communicator) (key : List Nat)
    (h : pendingAt c key = []) : dispatchDebouncedEvent c key = c := by
  have hg : mapGet c.debouncedEvents key = none := by
    rw [mapGet_eq_head]
    unfold pendingAt at h
    rw [h]
    rfl
  simp only [dispatchDebouncedEvent, hg]

theorem dispatchDebouncedEvent_other (c : Communicator) (serial : List Nat)
    (eventType : EmEventType) (k : List Nat) (hk : k ≠ eventKey serial eventType)
    (hw : wellKeyed c) :
    wellKeyed (dispatchDebouncedEvent c k) ∧
    pendingAt (dispatchDebouncedEvent c k) (eventKey serial eventType) =
      pendingAt c (eventKey serial eventType) ∧
    timersAt (dispatchDebouncedEvent c k) (eventKey serial eventType) =
      timersAt c (eventKey serial eventType) ∧
    dispatchCount (dispatchDebouncedEvent c k) serial eventType =
      dispatchCount c serial eventType := by
  cases hg : mapGet c.debouncedEvents k with
  | none =>
    have : dispatchDebouncedEvent c k = c := by simp only [dispatchDebouncedEvent, hg]
    rw [this]
    exact ⟨hw, rfl, rfl, rfl⟩
  | some ev =>
    have hkey : k = eventKey ev.Evse ev.Type_ := hw (k, ev) (mapGet_mem _ _ _ hg)
    have hev : ¬(ev.Evse = serial ∧ ev.Type_ = eventType) := by
      intro h
      exact hk (by rw [hkey, h.1, h.2])
    have hwd : wellKeyed { c with debouncedEvents := mapDelete c.debouncedEvents k } :=
      fun p hp => hw p (mem_mapDelete _ _ _ hp)
    cases ht : mapGet c.debounceTimers k with
    | none =>
      have hd : dispatchDebouncedEvent c k =
          { c with
            debouncedEvents := mapDelete c.debouncedEvents k
            dispatched := c.dispatched ++ [ev] } := by
        simp only [dispatchDebouncedEvent, hg, ht, dispatchEvent]
      rw [hd]
      refine ⟨hwd, ?_, rfl, ?_⟩
      · simp only [pendingAt, filter_key_mapDelete_ne _ _ _ hk]
      · simp [dispatchCount, List.filter_append, List.filter_cons, hev]
    | some due =>
      have hd : dispatchDebouncedEvent c k =
          { c with
            debouncedEvents := mapDelete c.debouncedEvents k
            debounceTimers := mapDelete c.debounceTimers k
            dispatched := c.dispatched ++ [ev] } := by
        simp only [dispatchDebouncedEvent, hg, ht, dispatchEvent]
      rw [hd]
      refine ⟨hwd, ?_, ?_, ?_⟩
      · simp only [pendingAt, filter_key_mapDelete_ne _ _ _ hk]
      · simp only [timersAt, filter_key_mapDelete_ne _ _ _ hk]
      · simp [dispatchCount, List.filter_append, List.filter_cons, hev]

theorem dispatchDebouncedEvent_self (c : Communicator) (serial : List Nat)
    (eventType : EmEventType) (t due : Int) (hw : wellKeyed c)
    (hp : pendingAt c (eventKey serial eventType) =
      [(eventKey serial eventType, { Evse := serial, Type_ := eventType, Timestamp := t })])
    (ht : timersAt c (eventKey serial eventType) = [(eventKey serial eventType, due)]) :
    wellKeyed (dispatchDebouncedEvent c (eventKey serial eventType)) ∧
    pendingAt (dispatchDebouncedEvent c (eventKey serial eventType))
      (eventKey serial eventType) = [] ∧
    timersAt (dispatchDebouncedEvent c (eventKey serial eventType))
      (eventKey serial eventType) = [] ∧
    (dispatchDebouncedEvent c (eventKey serial eventType)).dispatched =
      c.dispatched ++ [{ Evse := serial, Type_ := eventType, Timestamp := t }] := by
  have hg : mapGet c.debouncedEvents (eventKey serial eventType) =
      some { Evse := serial, Type_ := eventType, Timestamp := t } := by
    rw [mapGet_eq_head]
    unfold pendingAt at hp
    rw [hp]
    rfl
  have hgt : mapGet c.debounceTimers (eventKey serial eventType) = some due := by
    rw [mapGet_eq_head]
    unfold timersAt at ht
    rw [ht]
    rfl
  have hd : dispatchDebouncedEvent c (eventKey serial eventType) =
      { c with
        debouncedEvents := mapDelete c.debouncedEvents (eventKey serial eventType)
        debounceTimers := mapDelete c.debounceTimers (eventKey serial eventType)
        dispatched := c.dispatched ++
          [{ Evse := serial, Type_ := eventType, Timestamp := t }] } := by
    simp only [dispatchDebouncedEvent, hg, hgt, dispatchEvent]
  rw [hd]
  refine ⟨fun p hp' => hw p (mem_mapDelete _ _ _ hp'), ?_, ?_, rfl⟩
  · simp only [pendingAt, filter_key_mapDelete_self]
  · simp only [timersAt, filter_key_mapDelete_self]

/-- Firing timers of other keys leaves the entries of the key and its dispatches alone. -/
theorem fire_others (serial : List Nat) (eventType : EmEventType) (keys : List (List Nat))
    (c : Communicator) (hk : ∀ k ∈ keys, k ≠ eventKey serial eventType) (hw : wellKeyed c) :
    wellKeyed (keys.foldl dispatchDebouncedEvent c) ∧
    pendingAt (keys.foldl dispatchDebouncedEvent c) (eventKey serial eventType) =
      pendingAt c (eventKey serial eventType) ∧
    timersAt (keys.foldl dispatchDebouncedEvent c) (eventKey serial eventType) =
      timersAt c (eventKey serial eventType) ∧
    dispatchCount (keys.foldl dispatchDebouncedEvent c) serial eventType =
      dispatchCount c serial eventType := by
  induction keys generalizing c with
  | nil => exact ⟨hw, rfl, rfl, rfl⟩
  | cons k keys ih =>
    have h1 := dispatchDebouncedEvent_other c serial eventType k
      (hk k (List.mem_cons_self _ _)) hw
    have h2 := ih (dispatchDebouncedEvent c k)
      (fun k' hk' => hk k' (List.mem_cons_of_mem _ hk')) h1.1
    rw [List.foldl_cons]
    exact ⟨h2.1, h2.2.1.trans h1.2.1, h2.2.2.1.trans h1.2.2.1, h2.2.2.2.trans h1.2.2.2⟩

/-- Once the key has no pending event and no timer, firing any timers keeps it so. -/
theorem fire_after (serial : List Nat) (eventType : EmEventType) (keys : List (List Nat))
    (c : Communicator) (hw : wellKeyed c)
    (hp : pendingAt c (eventKey serial eventType) = [])
    (ht : timersAt c (eventKey serial eventType) = []) :
    pendingAt (keys.foldl dispatchDebouncedEvent c) (eventKey serial eventType) = [] ∧
    timersAt (keys.foldl dispatchDebouncedEvent c) (eventKey serial eventType) = [] ∧
    dispatchCount (keys.foldl dispatchDebouncedEvent c) serial eventType =
      dispatchCount c serial eventType := by
  induction keys generalizing c with
  | nil => exact ⟨hp, ht, rfl⟩
  | cons k keys ih =>
    rw [List.foldl_cons]
    by_cases hk : k = eventKey serial eventType
    · rw [hk, dispatchDebouncedEvent_absent c _ hp]
      exact ih c hw hp ht
    · have h1 := dispatchDebouncedEvent_other c serial eventType k hk hw
      have h2 := ih (dispatchDebouncedEvent c k) h1.1 (h1.2.1.trans hp) (h1.2.2.1.trans ht)
      exact ⟨h2.1, h2.2.1, h2.2.2.trans h1.2.2.2⟩

/-- Firing a list of timers that holds the key dispatches the pending event of the key
once and leaves the key without pending event and timer. -/
theorem fire_with (serial : List Nat) (eventType : EmEventType) (t due : Int)
    (keys : List (List Nat)) (c : Communicator) (hw : wellKeyed c)
    (hmem : eventKey serial eventType ∈ keys)
    (hp : pendingAt c (eventKey serial eventType) =
      [(eventKey serial eventType, { Evse := serial, Type_ := eventType, Timestamp := t })])
    (ht : timersAt c (eventKey serial eventType) = [(eventKey serial eventType, due)]) :
    pendingAt (keys.foldl dispatchDebouncedEvent c) (eventKey serial eventType) = [] ∧
    timersAt (keys.foldl dispatchDebouncedEvent c) (eventKey serial eventType) = [] ∧
    dispatchCount (keys.foldl dispatchDebouncedEvent c) serial eventType =
      dispatchCount c serial eventType + 1 := by
  induction keys generalizing c with
  | nil => cases hmem
  | cons k keys ih =>
    rw [List.foldl_cons]
    by_cases hk : k = eventKey serial eventType
    · rw [hk]
      have h1 := dispatchDebouncedEvent_self c serial eventType t due hw hp ht
      have h2 := fire_after serial eventType keys _ h1.1 h1.2.1 h1.2.2.1
      refine ⟨h2.1, h2.2.1, ?_⟩
      rw [h2.2.2]
      simp [dispatchCount, h1.2.2.2, List.filter_append]
    · have h1 := dispatchDebouncedEvent_other c serial eventType k hk hw
      have hmem' : eventKey serial eventType ∈ keys := by
        rcases List.mem_cons.1 hmem with h | h
        · exact absurd h.symm hk
        · exact h
      have h2 := ih (dispatchDebouncedEvent c k) h1.1 hmem' (h1.2.1.trans hp)
        (h1.2.2.1.trans ht)
      exact ⟨h2.1, h2.2.1, by rw [h2.2.2, h1.2.2.2]⟩

theorem fireDue_early (c : Communicator) (serial : List Nat) (eventType : EmEventType)
    (due now : Int) (hw : wellKeyed c) (hlt : now < due)
    (ht : timersAt c (eventKey serial eventType) = [(eventKey serial eventType, due)]) :
    wellKeyed (fireDue c now) ∧
    pendingAt (fireDue c now) (eventKey serial eventType) =
      pendingAt c (eventKey serial eventType) ∧
    timersAt (fireDue c now) (eventKey serial eventType) =
      timersAt c (eventKey serial eventType) ∧
    dispatchCount (fireDue c now) serial eventType = dispatchCount c serial eventType := by
  apply fire_others serial eventType _ c _ hw
  intro k hk
  simp only [List.mem_map, List.mem_reverse, List.mem_filter, decide_eq_true_eq] at hk
  obtain ⟨p, ⟨hp, hdue⟩, rfl⟩ := hk
  intro hkey
  have hin : p ∈ timersAt c (eventKey serial eventType) := by
    unfold timersAt
    exact List.mem_filter.2 ⟨hp, by simpa using hkey⟩
  rw [ht, List.mem_singleton] at hin
  rw [hin] at hdue
  simp only at hdue
  omega

theorem fireDue_late (c : Communicator) (serial : List Nat) (eventType : EmEventType)
    (t due now : Int) (hw : wellKeyed c) (hle : due ≤ now)
    (hp : pendingAt c (eventKey serial eventType) =
      [(eventKey serial eventType, { Evse := serial, Type_ := eventType, Timestamp := t })])
    (ht : timersAt c (eventKey serial eventType) = [(eventKey serial eventType, due)]) :
    pendingAt (fireDue c now) (eventKey serial eventType) = [] ∧
    timersAt (fireDue c now) (eventKey serial eventType) = [] ∧
    dispatchCount (fireDue c now) serial eventType =
      dispatchCount c serial eventType + 1 := by
  apply fire_with serial eventType t due _ c hw _ hp ht
  simp only [List.mem_map, List.mem_reverse, List.mem_filter, decide_eq_true_eq]
  have hin : (eventKey serial eventType, due) ∈ timersAt c (eventKey serial eventType) := by
    rw [ht]
    exact List.mem_singleton.2 rfl
  exact ⟨(eventKey serial eventType, due), ⟨(List.mem_filter.1 hin).1, hle⟩, rfl⟩

theorem fireDue_wellKeyed (c : Communicator) (now : Int) (hw : wellKeyed c) :
    wellKeyed (fireDue c now) := by
  unfold fireDue
  generalize ((c.debounceTimers.filter (fun t => decide (t.2 ≤ now))).reverse.map
    (fun t => t.1)) = keys
  induction keys generalizing c with
  | nil => exact hw
  | cons k keys ih =>
    rw [List.foldl_cons]
    apply ih
    cases hg : mapGet c.debouncedEvents k with
    | none =>
      have : dispatchDebouncedEvent c k = c := by simp only [dispatchDebouncedEvent, hg]
      rw [this]
      exact hw
    | some ev =>
      intro p hp
      apply hw p
      cases ht : mapGet c.debounceTimers k <;>
        simp only [dispatchDebouncedEvent, hg, ht, dispatchEvent] at hp <;>
        exact mem_mapDelete _ _ _ hp

/-- The keying of the pending events is an invariant of the communicator: it holds when
the table is empty and every operation on the table keeps it. -/
theorem wellKeyed_invariant (c : Communicator) (evse : Evse) (eventType : EmEventType)
    (now : Int) :
    wellKeyed {} ∧
    (wellKeyed c →
      wellKeyed (QueueEvent c (some evse) eventType now) ∧ wellKeyed (fireDue c now) ∧
      wellKeyed (clearQueuedEvents c evse) ∧ wellKeyed (RemoveEvse c evse now).1 ∧
      wellKeyed (defineEvseImpl c evse.serial now).1) := by
  refine ⟨fun p hp => (by cases hp), fun hw => ?_⟩
  have hclear : wellKeyed (clearQueuedEvents c evse) :=
    fun p hp => hw p (List.mem_filter.1 hp).1
  refine ⟨(QueueEvent_key c evse eventType now hw).1, fireDue_wellKeyed c now hw, hclear, ?_, ?_⟩
  · unfold RemoveEvse
    split_ifs
    · exact hw
    · exact (QueueEvent_key _ evse .EvseRemoved now hclear).1
  · unfold defineEvseImpl
    cases mapGet c.evses evse.serial with
    | some e => exact hw
    | none =>
      have hw' : wellKeyed { c with evses := mapSet c.evses evse.serial (newEvse evse.serial) } :=
        hw
      exact (QueueEvent_key _ (newEvse evse.serial) .EvseAdded now hw').1

theorem burst_cons (c : Communicator) (evse : Evse) (eventType : EmEventType) (t t' : Int)
    (ts : List Int) :
    burst c evse eventType t (t' :: ts) =
      burst (fireDue (QueueEvent c (some evse) eventType t) t') evse eventType t' ts := rfl

section
set_option maxRecDepth 100000

/-- C21, failing input. `QueueEvent` is called for one record and type every 100 ms for
3 s (31 calls, the timers that are due firing before each call): no event has been
dispatched after the last call, none is at 3399 ms, and the only dispatch is the one of the
timer of the last call, at 3400 ms. -/
theorem QueueEvent_two_second_rule :
    (queueRun {} { serial := [49] } .EvseStateUpdated
      ((List.range 31).map fun i => (i : Int) * (100 * Millisecond))).dispatched = [] ∧
    (fireDue (queueRun {} { serial := [49] } .EvseStateUpdated
      ((List.range 31).map fun i => (i : Int) * (100 * Millisecond)))
      (3399 * Millisecond)).dispatched = [] ∧
    (fireDue (queueRun {} { serial := [49] } .EvseStateUpdated
      ((List.range 31).map fun i => (i : Int) * (100 * Millisecond)))
      (3400 * Millisecond)).dispatched =
      [{ Type_ := .EvseStateUpdated, Evse := [49], Timestamp := 3000 * Millisecond }] := by
  decide

end

/-- C22. Debounce coalescing: after a burst of `N >= 1` calls of `QueueEvent` for one
record and type, each following the one before it by less than 400 ms, the key holds
exactly one pending event (that of the last call) and exactly one timer, due 400 ms after
the last call, and the burst has dispatched no event of the key; when the timers due at an
instant not before that one fire, exactly one event of the key is dispatched and the
pending entry and the timer of the key are gone. -/
theorem debounce_coalescing (c : Communicator) (evse : Evse) (eventType : EmEventType)
    (t : Int) (ts : List Int) (hw : wellKeyed c) (hc : closeCalls t ts) :
    pendingAt (burst c evse eventType t ts) (eventKey evse.serial eventType) =
      [(eventKey evse.serial eventType,
        { Evse := evse.serial, Type_ := eventType, Timestamp := lastCall t ts })] ∧
    timersAt (burst c evse eventType t ts) (eventKey evse.serial eventType) =
      [(eventKey evse.serial eventType, lastCall t ts + 400 * Millisecond)] ∧
    dispatchCount (burst c evse eventType t ts) evse.serial eventType =
      dispatchCount c evse.serial eventType ∧
    ∀ now, lastCall t ts + 400 * Millisecond ≤ now →
      pendingAt (fireDue (burst c evse eventType t ts) now)
        (eventKey evse.serial eventType) = [] ∧
      timersAt (fireDue (burst c evse eventType t ts) now)
        (eventKey evse.serial eventType) = [] ∧
      dispatchCount (fireDue (burst c evse eventType t ts) now) evse.serial eventType =
        dispatchCount c evse.serial eventType + 1 := by
  induction ts generalizing c t with
  | nil =>
    have hq := QueueEvent_key c evse eventType t hw
    have hd : dispatchCount (QueueEvent c (some evse) eventType t) evse.serial eventType =
        dispatchCount c evse.serial eventType := by
      simp only [dispatchCount, QueueEvent_dispatched]
    refine ⟨hq.2.1, hq.2.2, hd, ?_⟩
    intro now hnow
    have hf := fireDue_late _ evse.serial eventType t _ now hq.1 hnow hq.2.1 hq.2.2
    exact ⟨hf.1, hf.2.1, hf.2.2.trans (congrArg (· + 1) hd)⟩
  | cons t' ts ih =>
    obtain ⟨⟨hle, hlt⟩, hrest⟩ := hc
    have hq := QueueEvent_key c evse eventType t hw
    have hd : dispatchCount (QueueEvent c (some evse) eventType t) evse.serial eventType =
        dispatchCount c evse.serial eventType := by
      simp only [dispatchCount, QueueEvent_dispatched]
    have hf := fireDue_early (QueueEvent c (some evse) eventType t) evse.serial eventType
      (t + 400 * Millisecond) t' hq.1 (by omega) hq.2.2
    have h := ih (fireDue (QueueEvent c (some evse) eventType t) t') t' hf.1 hrest
    rw [burst_cons]
    simp only [lastCall]
    rw [hf.2.2.2, hd] at h
    exact h

theorem debounce_coalescing_witness :
    pendingAt (burst {} { serial := [49] } .EvseOnline 0 [100 * Millisecond, 300 * Millisecond])
        (eventKey [49] .EvseOnline) =
      [(eventKey [49] .EvseOnline,
        { Evse := [49], Type_ := .EvseOnline, Timestamp := 300 * Millisecond })] ∧
    timersAt (burst {} { serial := [49] } .EvseOnline 0 [100 * Millisecond, 300 * Millisecond])
        (eventKey [49] .EvseOnline) =
      [(eventKey [49] .EvseOnline, 300 * Millisecond + 400 * Millisecond)] ∧
    dispatchCount (fireDue
        (burst {} { serial := [49] } .EvseOnline 0 [100 * Millisecond, 300 * Millisecond])
        (700 * Millisecond)) [49] .EvseOnline = 1 :=
  have w := debounce_coalescing {} { serial := [49] } .EvseOnline 0
    [100 * Millisecond, 300 * Millisecond] (by decide) (by decide)
  ⟨w.1, w.2.1, (w.2.2.2 (700 * Millisecond) (by decide)).2.2⟩

/-- C23. Secondary events: a `QueueEvent` of type Online, Offline, LoggedIn or LoggedOut
for a record puts the event and an `InfoUpdated` for the same serial in the debounce table,
one of type ChargeStarted or ChargeStopped puts the event and a `StateUpdated` for the same
serial, and one of any other type puts the event alone. -/
theorem QueueEvent_secondary (c : Communicator) (evse : Evse) (eventType : EmEventType)
    (now : Int) :
    (eventType = .EvseOnline ∨ eventType = .EvseOffline ∨ eventType = .EvseLoggedIn ∨
        eventType = .EvseLoggedOut →
      QueueEvent c (some evse) eventType now =
        queued (queued c evse.serial eventType now) evse.serial .EvseInfoUpdated now) ∧
    (eventType = .EvseChargeStarted ∨ eventType = .EvseChargeStopped →
      QueueEvent c (some evse) eventType now =
        queued (queued c evse.serial eventType now) evse.serial .EvseStateUpdated now) ∧
    (eventType ≠ .EvseOnline → eventType ≠ .EvseOffline → eventType ≠ .EvseLoggedIn →
        eventType ≠ .EvseLoggedOut → eventType ≠ .EvseChargeStarted →
        eventType ≠ .EvseChargeStopped →
      QueueEvent c (some evse) eventType now = queued c evse.serial eventType now) := by
  rw [QueueEvent_eq]
  refine ⟨fun h => by rw [if_pos h], fun h => ?_, fun h1 h2 h3 h4 h5 h6 => ?_⟩
  · rcases h with h | h <;> subst h <;> simp
  · rw [if_neg (by simp [h1, h2, h3, h4]), if_neg (by simp [h5, h6])]

theorem QueueEvent_secondary_witness :
    QueueEvent {} (some { serial := [49] }) .EvseOnline 0 =
      queued (queued {} [49] .EvseOnline 0) [49] .EvseInfoUpdated 0 :=
  (QueueEvent_secondary {} { serial := [49] } .EvseOnline 0).1 (Or.inl rfl)

/-! ## Watchers: the filter of `Notify` and `Stop` -/

theorem RemoveWatcher_allocated (s : Fanout) (watcher : Nat) (h : watcher < s.nextAddr)
    (hl : s.readLocked = false) :
    RemoveWatcher s watcher = .done { s with nextAddr := s.nextAddr + s.watchers.length } := by
  have hf : (List.range s.watchers.length).find? (fun i => decide (s.nextAddr + i = watcher)) =
      none := by
    rw [List.find?_eq_none]
    intro i _
    simp only [decide_eq_true_eq]
    omega
  simp only [RemoveWatcher, hl, hf, Bool.false_eq_true, if_false]

/-- `Stop` on an object allocated before the call leaves the slice of watchers as it is:
the address of the loop variable of `RemoveWatcher` is the address of no such object. -/
theorem Stop_keeps_watchers (s : Fanout) (addr : Nat) (w : EventWatcher)
    (h : addr < s.nextAddr) (s' : Fanout) (w' : EventWatcher)
    (hstop : Stop s addr w = .done (s', w')) : s'.watchers = s.watchers := by
  unfold Stop at hstop
  simp only at hstop
  cases hch : mapGet s.channels w.channel with
  | none => rw [hch] at hstop; cases hstop
  | some ch =>
    rw [hch] at hstop
    simp only at hstop
    by_cases hc : ch.closed = true
    · rw [if_pos hc] at hstop; cases hstop
    · rw [if_neg hc] at hstop
      generalize hs2 : ({ s with
        channels := mapSet s.channels w.channel { ch with closed := true } } : Fanout) = s2
        at hstop
      have hw2 : s2.watchers = s.watchers := by rw [← hs2]
      have h2 : addr < s2.nextAddr := by rw [← hs2]; exact h
      by_cases hl : s2.readLocked = true
      · simp [RemoveWatcher, hl] at hstop
      · rw [RemoveWatcher_allocated s2 addr h2 (by simpa using hl)] at hstop
        simp only [Outcome.done.injEq, Prod.mk.injEq] at hstop
        rw [← hstop.1]
        exact hw2

theorem any_eq_contains (l : List EmEventType) (a : EmEventType) :
    l.any (fun t => decide (t = a)) = l.contains a := by
  induction l with
  | nil => rfl
  | cons t ts ih =>
    rw [List.any_cons, List.contains_cons, ih]
    by_cases h : t = a
    · subst h
      simp
    · have h' : ¬ a = t := fun e => h e.symm
      simp [h, h']

theorem passesFilter_iff (w : EventWatcher) (event : EmEvent) :
    passesFilter w event = true ↔
      ¬(w.evse.isSome ∧ some event.Evse ≠ w.evse) ∧
      ¬(w.eventTypes.length > 0 ∧
        ¬ w.eventTypes.any (fun t => decide (t = event.Type_)) = true) := by
  unfold passesFilter
  rw [any_eq_contains]
  rcases w with ⟨evse, types, channel, stopped⟩
  have he : (evse.isNone || evse == some event.Evse) = true ↔
      ¬(evse.isSome ∧ some event.Evse ≠ evse) := by
    cases evse with
    | none => simp
    | some serial =>
      by_cases h : serial = event.Evse
      · subst h
        simp
      · have h' : ¬ event.Evse = serial := fun e => h e.symm
        simp [h, h']
  have ht : (types.isEmpty || types.contains event.Type_) = true ↔
      ¬(types.length > 0 ∧ ¬ types.contains event.Type_ = true) := by
    cases types with
    | nil => simp
    | cons t ts =>
      simp only [List.isEmpty_cons, Bool.false_or, List.length_cons, gt_iff_lt,
        Nat.zero_lt_succ, true_and, not_not]
  simp only [Bool.and_eq_true]
  rw [he, ht]

/-- C24, counterexample. A watcher without record and without event types passes every
event, and its channel is open but can take no event at once: `Notify` sends nothing (the
channel has received no event), it stops the watcher and closes the channel; called as
`dispatchEvent` calls it, with the read lock held, it does not return. -/
theorem Notify_full_channel :
    passesFilter { channel := 1 } ⟨.EvseOnline, [49], 0⟩ = true ∧
    Notify { channels := [(1, {})] } 5 { channel := 1 } ⟨.EvseOnline, [49], 0⟩ =
      .done ({ channels := [(1, { closed := true, received := [] })] },
        { channel := 1, stopped := true }) ∧
    Notify { channels := [(1, {})], readLocked := true } 5 { channel := 1 }
      ⟨.EvseOnline, [49], 0⟩ = .deadlock := by
  decide

/-- C24, amended. For a watcher that is not stopped: an event that fails the filter
(record or event types) leaves the watcher and every channel unchanged; and when the
channel of the watcher is open and can take an event at once, `Notify` sends the event on
it iff (the watcher has no record or its record has the serial of the event) and (its list
of event types is empty or holds the type of the event). -/
theorem Notify_filter (s : Fanout) (addr : Nat) (w : EventWatcher) (event : EmEvent)
    (hs : w.stopped = false) :
    (passesFilter w event = false → Notify s addr w event = .done (s, w)) ∧
    (∀ ch, mapGet s.channels w.channel = some ch → ch.closed = false → 0 < ch.room →
      (passesFilter w event = true →
        Notify s addr w event =
          .done ({ s with
                   channels := mapSet s.channels w.channel
                     { ch with room := ch.room - 1, received := ch.received ++ [event] } },
            w)) ∧
      ((∃ s', Notify s addr w event = .done (s', w) ∧
          receivedOn s' w.channel = some (ch.received ++ [event])) ↔
        passesFilter w event = true)) := by
  have hfail : passesFilter w event = false → Notify s addr w event = .done (s, w) := by
    intro hp
    have hn : ¬(passesFilter w event = true) := by simp [hp]
    rw [passesFilter_iff, not_and_or, not_not, not_not] at hn
    unfold Notify
    rw [if_neg (by simp [hs])]
    by_cases h1 : w.evse.isSome ∧ some event.Evse ≠ w.evse
    · rw [if_pos h1]
    · rw [if_neg h1]
      rcases hn with hn | hn
      · exact absurd hn h1
      · rw [if_pos hn]
  refine ⟨hfail, ?_⟩
  intro ch hch hopen hroom
  have hpass : passesFilter w event = true →
      Notify s addr w event =
        .done ({ s with
                 channels := mapSet s.channels w.channel
                   { ch with room := ch.room - 1, received := ch.received ++ [event] } },
          w) := by
    intro hp
    have hy := (passesFilter_iff w event).1 hp
    unfold Notify
    rw [if_neg (by simp [hs]), if_neg hy.1, if_neg hy.2, hch]
    simp only
    rw [if_neg (by simp [hopen]), if_pos hroom]
  refine ⟨hpass, ?_, ?_⟩
  · rintro ⟨s', hn, hr⟩
    by_contra hp
    have hp' : passesFilter w event = false := by simpa using hp
    rw [hfail hp'] at hn
    simp only [Outcome.done.injEq, Prod.mk.injEq, and_true] at hn
    rw [← hn, receivedOn, hch] at hr
    simp only [Option.map_some', Option.some.injEq] at hr
    have := congrArg List.length hr
    simp at this
  · intro hp
    exact ⟨_, hpass hp, by simp [receivedOn, mapGet_mapSet_self]⟩

theorem Notify_filter_witness :
    Notify { channels := [(1, { room := 1 })] } 5
        { evse := some [49], eventTypes := [.EvseOnline], channel := 1 }
        ⟨.EvseOnline, [49], 0⟩ =
      .done ({ channels := [(1, { room := 0, received := [⟨.EvseOnline, [49], 0⟩] })] },
        { evse := some [49], eventTypes := [.EvseOnline], channel := 1 }) :=
  ((Notify_filter { channels := [(1, { room := 1 })] } 5
    { evse := some [49], eventTypes := [.EvseOnline], channel := 1 }
    ⟨.EvseOnline, [49], 0⟩ rfl).2 { room := 1 } (by decide) rfl (by decide)).1 (by decide)

/-- C25, failing input. A watcher for all records and types is registered on an open
channel and `Stop()` is called on the handle `WatchImpl` returned: the handle is stopped
and the channel closed, but the slice of watchers still holds the watcher, not stopped, and
the next event dispatched is sent to the closed channel, which panics. -/
theorem Stop_leaves_watcher :
    WatchImpl { channels := [(1, { room := 1 })] } none [] 1 =
      .done ({ watchers := [{ channel := 1 }]
               channels := [(1, { room := 1 })]
               heap := [(0, { channel := 1 })]
               nextAddr := 1 }, 0) ∧
    StopHandle { watchers := [{ channel := 1 }]
                 channels := [(1, { room := 1 })]
                 heap := [(0, { channel := 1 })]
                 nextAddr := 1 } 0 =
      .done { watchers := [{ channel := 1 }]
              channels := [(1, { room := 1, closed := true })]
              heap := [(0, { channel := 1, stopped := true })]
              nextAddr := 2 } ∧
    dispatchEventFanout { watchers := [{ channel := 1 }]
                          channels := [(1, { room := 1, closed := true })]
                          heap := [(0, { channel := 1, stopped := true })]
                          nextAddr := 2 } ⟨.EvseOnline, [49], 0⟩ = .panic := by
  decide

/-! ## Logging in, the waiters and the handlers -/

theorem orPanic_some {α β : Type} (a : α) (k : α → Option β) : orPanic (some a) k = k a := rfl

theorem orPanic_none {α β : Type} (k : α → Option β) : orPanic none k = none := rfl

theorem getElem?_getD (p : List Nat) (i : Nat) (h : i < p.length) :
    p[i]? = some (p.getD i 0) := by
  rw [List.getD_eq_getElem?_getD, List.getElem?_eq_getElem h]
  rfl

theorem uint16At_some (p : List Nat) (off : Nat) (h : off + 2 ≤ p.length) :
    ∃ v, uint16At p off = some v := by
  unfold uint16At slice
  rw [if_pos ⟨by omega, h⟩]
  have hlen : ((p.take (off + 2)).drop off).length = 2 := by
    rw [List.length_drop, List.length_take]
    omega
  rcases hd : (p.take (off + 2)).drop off with _ | ⟨b0, _ | ⟨b1, rest⟩⟩
  · rw [hd] at hlen; simp at hlen
  · rw [hd] at hlen; simp at hlen
  · exact ⟨b0 * 256 + b1, rfl⟩

theorem uint32At_some (p : List Nat) (off : Nat) (h : off + 4 ≤ p.length) :
    ∃ v, uint32At p off = some v := by
  unfold uint32At slice
  rw [if_pos ⟨by omega, h⟩]
  have hlen : ((p.take (off + 4)).drop off).length = 4 := by
    rw [List.length_drop, List.length_take]
    omega
  rcases hd : (p.take (off + 4)).drop off with
    _ | ⟨b0, _ | ⟨b1, _ | ⟨b2, _ | ⟨b3, rest⟩⟩⟩⟩
  · rw [hd] at hlen; simp at hlen
  · rw [hd] at hlen; simp at hlen
  · rw [hd] at hlen; simp at hlen
  · rw [hd] at hlen; simp at hlen
  · exact ⟨_, rfl⟩

theorem ReadTemperature_some (fl : FloatOps) (p : List Nat) (off : Nat)
    (h : off + 2 ≤ p.length) : ∃ v, ReadTemperature fl p off = some v := by
  obtain ⟨v, hv⟩ := uint16At_some p off h
  exact ⟨_, by rw [ReadTemperature, hv]; rfl⟩

/-- The status payloads that `statusParse` reads without a panic: those of at least 25
bytes other than the ones of 34 bytes; on them `NewProtocol_` is `len > 33` and the current
state is byte 34 when that holds and the byte is 18 or 19, byte 20 otherwise. -/
theorem statusParse_some (fl : FloatOps) (state : EvseState) (p : List Nat)
    (h25 : 25 ≤ p.length) (h34 : p.length ≠ 34) :
    ∃ st ch, statusParse fl state p = some (st, ch) ∧
      st.NewProtocol_ = decide (p.length > 33) ∧
      st.CurrentState_ =
        if p.length > 33 ∧ (p.getD 34 0 = 18 ∨ p.getD 34 0 = 19) then p.getD 34 0
        else p.getD 20 0 := by
  have e0 := getElem?_getD p 0 (by omega)
  have e17 := getElem?_getD p 17 (by omega)
  have e18 := getElem?_getD p 18 (by omega)
  have e19 := getElem?_getD p 19 (by omega)
  have e20 := getElem?_getD p 20 (by omega)
  obtain ⟨v1, h1⟩ := uint16At_some p 1 (by omega)
  obtain ⟨v3, h3⟩ := uint16At_some p 3 (by omega)
  obtain ⟨v5, h5⟩ := uint32At_some p 5 (by omega)
  obtain ⟨v9, h9⟩ := uint32At_some p 9 (by omega)
  obtain ⟨v13, h13⟩ := ReadTemperature_some fl p 13 (by omega)
  obtain ⟨v15, h15⟩ := ReadTemperature_some fl p 15 (by omega)
  obtain ⟨v21, h21⟩ := uint32At_some p 21 (by omega)
  by_cases hnp : p.length > 33
  · have h33 : p.length ≥ 33 := by omega
    have e34 := getElem?_getD p 34 (by omega)
    obtain ⟨v25, h25'⟩ := uint16At_some p 25 (by omega)
    obtain ⟨v27, h27⟩ := uint16At_some p 27 (by omega)
    obtain ⟨v29, h29⟩ := uint16At_some p 29 (by omega)
    obtain ⟨v31, h31⟩ := uint16At_some p 31 (by omega)
    simp only [statusParse, e0, e17, e18, e19, e20, e34, h1, h3, h5, h9, h13, h15, h21, h25',
      h27, h29, h31, orPanic_some, if_pos h33, hnp, decide_True, if_true]
    refine ⟨_, _, rfl, rfl, ?_⟩
    simp only [true_and]
  · by_cases h33 : p.length ≥ 33
    · obtain ⟨v25, h25'⟩ := uint16At_some p 25 (by omega)
      obtain ⟨v27, h27⟩ := uint16At_some p 27 (by omega)
      obtain ⟨v29, h29⟩ := uint16At_some p 29 (by omega)
      obtain ⟨v31, h31⟩ := uint16At_some p 31 (by omega)
      simp only [statusParse, e0, e17, e18, e19, e20, h1, h3, h5, h9, h13, h15, h21, h25',
        h27, h29, h31, orPanic_some, if_pos h33, hnp, decide_False, if_false,
        Bool.false_eq_true]
      refine ⟨_, _, rfl, rfl, ?_⟩
      simp only [false_and, if_false]
    · simp only [statusParse, e0, e17, e18, e19, e20, h1, h3, h5, h9, h13, h15, h21,
        orPanic_some, if_neg h33, hnp, decide_False, if_false, Bool.false_eq_true]
      refine ⟨_, _, rfl, rfl, ?_⟩
      simp only [false_and, if_false]

theorem QueueEvent_written (c : Communicator) (evse : Evse) (eventType : EmEventType)
    (now : Int) : (QueueEvent c (some evse) eventType now).written = c.written := by
  rw [QueueEvent_eq]
  split_ifs <;> rfl

theorem IsLoggedIn_online (evse : Evse) (now : Int) (h : IsLoggedIn evse now = true) :
    IsOnline evse now = true := by
  unfold IsLoggedIn at h
  by_cases ho : IsOnline evse now = true
  · exact ho
  · simp [ho] at h

/-- `SendDatagram` of an answer (a command other than the two login commands) for a record
that is not logged in writes nothing. -/
theorem SendDatagram_not_logged_in (c : Communicator) (evse : Evse) (command b : Nat)
    (env : CallEnv) (h : IsLoggedIn evse env.now = false) (h1 : command ≠ CmdRequestLogin)
    (h2 : command ≠ CmdLoginConfirm) :
    (SendDatagram c evse (ackDatagram command b) env).1 = c := by
  unfold SendDatagram
  by_cases ho : IsOnline evse env.now = true
  · simp [ho, h, ackDatagram, h1, h2]
  · simp [ho]

/-- `SendDatagram` of an answer for a record that is logged in hands the encoded datagram,
with the serial and the password of the record, to the socket. -/
theorem SendDatagram_logged_in (c : Communicator) (evse : Evse) (command b : Nat)
    (env : CallEnv) (frame : List Nat) (h : IsLoggedIn evse env.now = true)
    (hconn : c.udpConn = true)
    (henc : Encode (some { Key := 0, Serial := evse.serial, Password := evse.password
                           Command := command, Payload := [b] }) = .ok frame) :
    (SendDatagram c evse (ackDatagram command b) env).1.written = c.written ++ [frame] := by
  have ho := IsLoggedIn_online evse env.now h
  have hd : (if ({ ackDatagram command b with Serial := evse.serial } : Datagram).Password = [] ∧
        evse.password ≠ [] then
        { ({ ackDatagram command b with Serial := evse.serial } : Datagram) with
          Password := evse.password }
      else ({ ackDatagram command b with Serial := evse.serial } : Datagram)) =
      { Key := 0, Serial := evse.serial, Password := evse.password
        Command := command, Payload := [b] } := by
    by_cases hp : evse.password = []
    · simp [ackDatagram, hp]
    · simp [ackDatagram, hp]
  unfold SendDatagram
  simp only [ho, h, Bool.not_true, Bool.false_eq_true, if_false, Bool.false_and, hd, henc,
    hconn]
  cases env.write with
  | none => rfl
  | some n =>
    simp only
    split_ifs <;> rfl

/-- What the status handler hands to the socket, for a payload it reads without panic. -/
theorem status_handler_sends (c : Communicator) (evse : Evse) (datagram : Datagram)
    (env : CallEnv) (h25 : 25 ≤ datagram.Payload.length)
    (h34 : datagram.Payload.length ≠ 34) :
    ∃ c' evse', SingleAcStatusHandler.Handle c evse datagram env = some (c', evse') ∧
      (IsLoggedIn evse env.now = false → c'.written = c.written) ∧
      (IsLoggedIn evse env.now = true → c.udpConn = true →
        ∀ frame, Encode (some { Key := 0, Serial := evse.serial, Password := evse.password
                                Command := 0x8004, Payload := [1] }) = .ok frame →
          c'.written = c.written ++ [frame]) := by
  obtain ⟨st, ch, hparse, -, -⟩ := statusParse_some env.fl evse.state datagram.Payload h25 h34
  have hlen : CheckPayloadLength datagram 25 = false := by
    simp only [CheckPayloadLength, decide_eq_false_iff_not]
    omega
  obtain ⟨F, hF⟩ : ∃ F : Communicator → Evse → Communicator, F = fun c0 e =>
      (if MetaState evse env.now ≠ .MetaStateCharging ∧
            MetaState e env.now = .MetaStateCharging then
          QueueEvent (if ch = true then QueueEvent c0 (some e) .EvseStateUpdated env.now
            else c0) (some e) .EvseChargeStarted env.now
        else if MetaState evse env.now = .MetaStateCharging ∧
            MetaState e env.now ≠ .MetaStateCharging then
          QueueEvent (if ch = true then QueueEvent c0 (some e) .EvseStateUpdated env.now
            else c0) (some e) .EvseChargeStopped env.now
        else (if ch = true then QueueEvent c0 (some e) .EvseStateUpdated env.now
            else c0)) := ⟨_, rfl⟩
  have hw : ∀ (c0 : Communicator) (e : Evse), (F c0 e).written = c0.written := by
    intro c0 e
    subst hF
    simp only
    split_ifs <;> simp only [QueueEvent_written]
  have hH : SingleAcStatusHandler.Handle c evse datagram env =
      some (F (SendDatagram c { evse with state := st }
        (ackDatagram CmdSingleACStatusAck 1) env).1 { evse with state := st },
        { evse with state := st }) := by
    subst hF
    simp only [SingleAcStatusHandler.Handle, hlen, hparse, Bool.false_eq_true, if_false]
  refine ⟨_, _, hH, ?_, ?_⟩
  · intro hl
    rw [hw]
    rw [SendDatagram_not_logged_in c { evse with state := st } CmdSingleACStatusAck 1 env hl
      (by decide) (by decide)]
  · intro hl hconn frame henc
    rw [hw]
    exact SendDatagram_logged_in c { evse with state := st } CmdSingleACStatusAck 1 env frame
      hl hconn henc

/-- C28, counterexample. Scenario S1: a status frame of 25 zero bytes is handled for a
record that is online (its `LastSeen` is the present instant) but not logged in; the
handler completes and nothing has been handed to the socket. -/
theorem status_ack_not_logged_in :
    IsOnline { serial := List.replicate 16 48, LastSeen := some sampleEnv.now }
      sampleEnv.now = true ∧
    IsLoggedIn { serial := List.replicate 16 48, LastSeen := some sampleEnv.now }
      sampleEnv.now = false ∧
    (SingleAcStatusHandler.Handle { udpConn := true }
        { serial := List.replicate 16 48, LastSeen := some sampleEnv.now }
        { Key := 0, Serial := List.replicate 16 48, Password := []
          Command := CmdSingleACStatus, Payload := List.replicate 25 0 }
        sampleEnv).map (fun r => r.1.written) = some [] := by
  refine ⟨by decide, by decide, ?_⟩
  obtain ⟨c', evse', h, hw, -⟩ := status_handler_sends { udpConn := true }
    { serial := List.replicate 16 48, LastSeen := some sampleEnv.now }
    { Key := 0, Serial := List.replicate 16 48, Password := []
      Command := CmdSingleACStatus, Payload := List.replicate 25 0 }
    sampleEnv (by decide) (by decide)
  rw [h, Option.map_some', hw (by decide)]

/-- C28, amended. When a SingleACStatus frame with a payload of at least 25 bytes, other
than one of 34 bytes, is handled, the handler completes; for a record that is logged in,
with the socket set and a serial that `Encode` accepts, the frame of a SingleACStatusAck
(0x8004) with the single-byte payload 0x01, the serial and the password of the record is
handed to the socket; for a record that is not logged in nothing is handed to it. -/
theorem status_ack (c : Communicator) (evse : Evse) (datagram : Datagram) (env : CallEnv)
    (h25 : 25 ≤ datagram.Payload.length) (h34 : datagram.Payload.length ≠ 34) :
    ∃ c' evse', SingleAcStatusHandler.Handle c evse datagram env = some (c', evse') ∧
      (IsLoggedIn evse env.now = false → c'.written = c.written) ∧
      (IsLoggedIn evse env.now = true → c.udpConn = true →
        ∀ frame, Encode (some { Key := 0, Serial := evse.serial, Password := evse.password
                                Command := 0x8004, Payload := [1] }) = .ok frame →
          c'.written = c.written ++ [frame]) :=
  status_handler_sends c evse datagram env h25 h34

theorem status_ack_witness :
    ∃ c' evse',
      SingleAcStatusHandler.Handle { udpConn := true }
        { serial := List.replicate 16 48, LastSeen := some sampleEnv.now
          LastActiveLogin := some sampleEnv.now }
        { Key := 0, Serial := List.replicate 16 48, Password := []
          Command := CmdSingleACStatus, Payload := List.replicate 25 0 }
        sampleEnv = some (c', evse') ∧
      c'.written =
        [[6, 1, 0, 26, 0, 0, 0, 0, 0, 0, 0, 0, 0, 0, 0, 0, 0, 0, 0, 128, 4, 1, 0, 166, 15, 2]] :=
  have w := status_ack { udpConn := true }
    { serial := List.replicate 16 48, LastSeen := some sampleEnv.now
      LastActiveLogin := some sampleEnv.now }
    { Key := 0, Serial := List.replicate 16 48, Password := []
      Command := CmdSingleACStatus, Payload := List.replicate 25 0 }
    sampleEnv (by decide) (by decide)
  w.elim fun c' h => h.elim fun evse' h' =>
    ⟨c', evse', h'.1, h'.2.2 (by decide) rfl _ (by decide)⟩

/-- C29. Short payloads are dropped: each of the five handlers with a minimum payload
length (status 25, charging 74, login and info 54, version 35, config 2) returns at once on
a shorter payload, with the communicator (pending events, frames handed to the socket) and
the record (info, state, charge and config sections with their `LastFetched` stamps) as
they were. -/
theorem short_payload_dropped (c : Communicator) (evse : Evse) (datagram : Datagram)
    (env : CallEnv) :
    (datagram.Payload.length < 25 →
      SingleAcStatusHandler.Handle c evse datagram env = some (c, evse)) ∧
    (datagram.Payload.length < 74 →
      SingleAcChargingHandler.Handle c evse datagram env = some (c, evse)) ∧
    (datagram.Payload.length < 54 →
      LoginInfoHandler.Handle c evse datagram env = some (c, evse)) ∧
    (datagram.Payload.length < 35 →
      VersionHandler.Handle c evse datagram env = some (c, evse)) ∧
    (datagram.Payload.length < 2 →
      ConfigHandler.Handle c evse datagram env = some (c, evse)) := by
  refine ⟨fun h => ?_, fun h => ?_, fun h => ?_, fun h => ?_, fun h => ?_⟩
  · simp only [SingleAcStatusHandler.Handle, CheckPayloadLength, h, decide_True, if_true]
  · simp only [SingleAcChargingHandler.Handle, CheckPayloadLength, h, decide_True, if_true]
  · simp only [LoginInfoHandler.Handle, CheckPayloadLength, h, decide_True, if_true]
  · simp only [VersionHandler.Handle, CheckPayloadLength, h, decide_True, if_true]
  · simp only [ConfigHandler.Handle, CheckPayloadLength, h, decide_True, if_true]

theorem short_payload_dropped_witness :
    SingleAcStatusHandler.Handle {} { serial := [49] }
      { Key := 0, Serial := [49], Password := [], Command := CmdSingleACStatus
        Payload := List.replicate 24 0 } sampleEnv = some ({}, { serial := [49] }) ∧
    SingleAcChargingHandler.Handle {} { serial := [49] }
      { Key := 0, Serial := [49], Password := [], Command := CmdSingleACStatus
        Payload := List.replicate 24 0 } sampleEnv = some ({}, { serial := [49] }) :=
  have w := short_payload_dropped {} { serial := [49] }
    { Key := 0, Serial := [49], Password := [], Command := CmdSingleACStatus
      Payload := List.replicate 24 0 } sampleEnv
  ⟨w.1 (by decide), w.2.1 (by decide)⟩

/-- Every status payload of 34 bytes makes the handler panic: `NewProtocol_` is set, since
the length is above 33, and `Payload[34]` is out of range. -/
theorem status_panics_at_34 (c : Communicator) (evse : Evse) (datagram : Datagram)
    (env : CallEnv) (h : datagram.Payload.length = 34) :
    SingleAcStatusHandler.Handle c evse datagram env = none := by
  have hlen : CheckPayloadLength datagram 25 = false := by
    simp only [CheckPayloadLength, decide_eq_false_iff_not]
    omega
  generalize hp : datagram.Payload = p at h hlen
  have e0 := getElem?_getD p 0 (by omega)
  have e17 := getElem?_getD p 17 (by omega)
  have e18 := getElem?_getD p 18 (by omega)
  have e19 := getElem?_getD p 19 (by omega)
  have e20 := getElem?_getD p 20 (by omega)
  have e34 : p[34]? = none := List.getElem?_eq_none (by omega)
  obtain ⟨v1, h1⟩ := uint16At_some p 1 (by omega)
  obtain ⟨v3, h3⟩ := uint16At_some p 3 (by omega)
  obtain ⟨v5, h5⟩ := uint32At_some p 5 (by omega)
  obtain ⟨v9, h9⟩ := uint32At_some p 9 (by omega)
  obtain ⟨v13, h13⟩ := ReadTemperature_some env.fl p 13 (by omega)
  obtain ⟨v15, h15⟩ := ReadTemperature_some env.fl p 15 (by omega)
  obtain ⟨v25, h25'⟩ := uint16At_some p 25 (by omega)
  obtain ⟨v27, h27⟩ := uint16At_some p 27 (by omega)
  obtain ⟨v29, h29⟩ := uint16At_some p 29 (by omega)
  obtain ⟨v31, h31⟩ := uint16At_some p 31 (by omega)
  have hparse : statusParse env.fl evse.state p = none := by
    simp only [statusParse, e0, e17, e18, e19, e20, e34, h1, h3, h5, h9, h13, h15, h25', h27,
      h29, h31, orPanic_some, orPanic_none, h, ge_iff_le, Nat.reduceLeDiff, if_true,
      gt_iff_lt, Nat.reduceLT, decide_True]
  simp only [SingleAcStatusHandler.Handle, hlen, hp, hparse, Bool.false_eq_true, if_false]

/-- C30, failing input. A SingleACStatus payload of 34 bytes: the handler does not
complete, it panics on the index `Payload[34]`; the payloads of 33 and of 35 bytes are
handled. -/
theorem status_handler_panics :
    SingleAcStatusHandler.Handle { udpConn := true }
      { serial := List.replicate 16 48, LastSeen := some sampleEnv.now }
      { Key := 0, Serial := List.replicate 16 48, Password := []
        Command := CmdSingleACStatus, Payload := List.replicate 34 0 } sampleEnv = none ∧
    (SingleAcStatusHandler.Handle { udpConn := true }
      { serial := List.replicate 16 48, LastSeen := some sampleEnv.now }
      { Key := 0, Serial := List.replicate 16 48, Password := []
        Command := CmdSingleACStatus, Payload := List.replicate 33 0 } sampleEnv).isSome = true ∧
    (SingleAcStatusHandler.Handle { udpConn := true }
      { serial := List.replicate 16 48, LastSeen := some sampleEnv.now }
      { Key := 0, Serial := List.replicate 16 48, Password := []
        Command := CmdSingleACStatus, Payload := List.replicate 35 0 } sampleEnv).isSome = true := by
  decide

theorem SendDatagram_tables (c : Communicator) (evse : Evse) (datagram : Datagram)
    (env : CallEnv) :
    (SendDatagram c evse datagram env).1.debouncedEvents = c.debouncedEvents ∧
    (SendDatagram c evse datagram env).1.debounceTimers = c.debounceTimers := by
  unfold SendDatagram
  dsimp only
  repeat' split
  all_goals exact ⟨rfl, rfl⟩

theorem WaitForDatagram_password (evse : Evse) (ch : Nat) (commands : List Nat)
    (outcome : WaitOutcome) :
    (WaitForDatagram evse ch commands outcome).1.password = evse.password ∧
    (WaitForDatagram evse ch commands outcome).1.LastActiveLogin = evse.LastActiveLogin := by
  unfold WaitForDatagram
  split_ifs
  · exact ⟨rfl, rfl⟩
  · cases outcome <;> exact ⟨rfl, rfl⟩

/-- A `Login` that fails before its second send (no password, a failed send of
RequestLogin, a failed wait, a password-error response) leaves the stored password, the
login stamp and the pending events as they were. -/
theorem Login_fails_early (c : Communicator) (evse : Evse) (password : List Nat)
    (env env2 : CallEnv) (c' : Communicator) (evse' : Evse) (err : EvseError)
    (h : Login c evse password env env2 = some (c', evse', some err))
    (hearly : (if password = [] then evse.password else password) = [] ∨
      (SendDatagram c evse
        { Key := 0, Serial := [], Password := if password = [] then evse.password else password
          Command := CmdRequestLogin, Payload := [0] } env).2 ≠ none ∨
      (WaitForDatagram evse env.ch [CmdLoginResponse, CmdPasswordErrorResponse]
        env.wait).2.2 ≠ none ∨
      ∃ d, env.wait = .delivered d ∧ d.Command = CmdPasswordErrorResponse) :
    evse'.password = evse.password ∧ evse'.LastActiveLogin = evse.LastActiveLogin ∧
    c'.debouncedEvents = c.debouncedEvents := by
  unfold Login at h
  simp only at h
  by_cases hpw : (if password = [] then evse.password else password) = []
  · rw [if_pos hpw] at h
    simp only [Option.some.injEq, Prod.mk.injEq] at h
    obtain ⟨rfl, rfl, -⟩ := h
    exact ⟨rfl, rfl, rfl⟩
  · rw [if_neg hpw] at h
    have htab := SendDatagram_tables c evse
      { Key := 0, Serial := [], Password := if password = [] then evse.password else password
        Command := CmdRequestLogin, Payload := [0] } env
    rcases hs : SendDatagram c evse
      { Key := 0, Serial := [], Password := if password = [] then evse.password else password
        Command := CmdRequestLogin, Payload := [0] } env with ⟨c1, e1⟩
    rw [hs] at h htab hearly
    cases e1 with
    | some e =>
      simp only [Option.some.injEq, Prod.mk.injEq] at h
      obtain ⟨rfl, rfl, -⟩ := h
      exact ⟨rfl, rfl, htab.1⟩
    | none =>
      simp only at h
      have hwp := WaitForDatagram_password evse env.ch
        [CmdLoginResponse, CmdPasswordErrorResponse] env.wait
      have hwd : ∀ d, env.wait = .delivered d →
          WaitForDatagram evse env.ch [CmdLoginResponse, CmdPasswordErrorResponse] env.wait =
            ((WaitForDatagram evse env.ch [CmdLoginResponse, CmdPasswordErrorResponse]
              env.wait).1, some d, none) := by
        intro d hd
        rw [hd]
        simp [WaitForDatagram]
      rcases hwt : WaitForDatagram evse env.ch [CmdLoginResponse, CmdPasswordErrorResponse]
        env.wait with ⟨e2, resp, werr⟩
      rw [hwt] at h hwp hearly hwd
      cases werr with
      | some e =>
        simp only [Option.some.injEq, Prod.mk.injEq] at h
        obtain ⟨rfl, rfl, -⟩ := h
        exact ⟨hwp.1, hwp.2, htab.1⟩
      | none =>
        cases resp with
        | none => simp at h
        | some response =>
          simp only at h
          rcases hearly with hE | hE | hE | ⟨d, hd, hcmd⟩
          · exact absurd hE hpw
          · simp at hE
          · simp at hE
          · have := hwd d hd
            simp only [Prod.mk.injEq, Option.some.injEq, true_and, and_true] at this
            rw [this, if_pos hcmd] at h
            simp only [Option.some.injEq, Prod.mk.injEq] at h
            obtain ⟨rfl, rfl, -⟩ := h
            exact ⟨hwp.1, hwp.2, htab.1⟩

/-- On a record that is not online `UsePassword` stores the password and returns no
error; the communicator, and so the list of frames handed to the socket, is as it was. -/
theorem UsePassword_offline (c : Communicator) (evse : Evse) (password : List Nat)
    (env env2 : CallEnv) (h : IsOnline evse env.now = false) :
    UsePassword c evse password env env2 = some (c, { evse with password := password }, none) := by
  simp only [UsePassword, h, Bool.not_false, if_true]

section
set_option maxRecDepth 100000

/-- C26, failing input. `Login` registers its channel (here channel 1) for LoginResponse
and for PasswordErrorResponse; a LoginResponse then arrives and is processed by
`DatagramReceived`: the channel holds the datagram and its entry under LoginResponse is
gone, but the channel still stands in the table under PasswordErrorResponse (0x0155).  A
wait that ends by timeout leaves no entry. -/
theorem waiter_left_registered :
    (WaitForDatagram { serial := List.replicate 16 48 } 1
        [CmdLoginResponse, CmdPasswordErrorResponse] .timeout).1.waiters = [] ∧
    (WaitForDatagram { serial := List.replicate 16 48 } 1
        [CmdLoginResponse, CmdPasswordErrorResponse]
        (.delivered { Key := 0, Serial := List.replicate 16 48, Password := []
                      Command := CmdLoginResponse, Payload := List.replicate 54 0 })).1.waiters =
      [(CmdPasswordErrorResponse, [1]), (CmdLoginResponse, [1])] ∧
    (DatagramReceived { udpConn := true }
        { serial := List.replicate 16 48
          waiters := [(CmdPasswordErrorResponse, [1]), (CmdLoginResponse, [1])] }
        { Key := 0, Serial := List.replicate 16 48, Password := []
          Command := CmdLoginResponse, Payload := List.replicate 54 0 }
        {} sampleEnv).map (fun r => (r.2.waiters, waitingChannels r.2, r.2.inbox.map fun e => e.1)) =
      some ([(0x0155, [1])], [1], [1]) := by
  decide

/-- C27, failing input. A record that is online holds the password `111111`;
`UsePassword("222222")` sends RequestLogin, a LoginResponse arrives, and the write of
LoginConfirm fails: the call returns the error, no event is pending, and the stored
password is `222222`. -/
theorem UsePassword_confirm_failure :
    (UsePassword { udpConn := true }
        { serial := List.replicate 16 48, LastSeen := some sampleEnv.now
          password := [49, 49, 49, 49, 49, 49] }
        [50, 50, 50, 50, 50, 50]
        { sampleEnv with
          write := some 26
          wait := .delivered { Key := 0, Serial := List.replicate 16 48, Password := []
                               Command := CmdLoginResponse, Payload := List.replicate 54 0 } }
        { sampleEnv with write := none }).map
      (fun r => (r.2.2, r.2.1.password, r.1.debouncedEvents)) =
      some (some .WriteFailed, [50, 50, 50, 50, 50, 50], []) := by
  decide

end

/-! ## The version and the charging handler -/

theorem slice_some (p : List Nat) (lo hi : Nat) (h1 : lo ≤ hi) (h2 : hi ≤ p.length) :
    slice p lo hi = some ((p.take hi).drop lo) := by
  unfold slice
  rw [if_pos ⟨h1, h2⟩]

theorem uint32At_none (p : List Nat) (off : Nat) (h : p.length < off + 4) :
    uint32At p off = none := by
  unfold uint32At slice
  rw [if_neg (by omega)]
  rfl

/-- Every payload of 35 bytes makes the version handler panic: the slice
`Payload[32:36]` is out of range. -/
theorem version_panics_at_35 (c : Communicator) (evse : Evse) (datagram : Datagram)
    (env : CallEnv) (h : datagram.Payload.length = 35) :
    VersionHandler.Handle c evse datagram env = none := by
  have hlen : CheckPayloadLength datagram 35 = false := by
    simp only [CheckPayloadLength, decide_eq_false_iff_not]
    omega
  have hs1 := slice_some datagram.Payload 0 16 (by omega) (by omega)
  have hs2 := slice_some datagram.Payload 16 32 (by omega) (by omega)
  have hs3 := uint32At_none datagram.Payload 32 (by omega)
  have hparse : versionParse evse.info datagram.Payload = none := by
    simp only [versionParse, hs1, hs2, hs3, orPanic_some, orPanic_none]
  simp only [VersionHandler.Handle, hlen, hparse, Bool.false_eq_true, if_false]

/-- On a payload of at least 36 bytes the version handler completes: the hardware version
is read from bytes 0..15, the software version from bytes 16..31, the feature bitmap from
bytes 32..35, `supportNew` from byte 36 when the payload has at least 37 bytes, and
`LastFetched` is set. -/
theorem version_completes (c : Communicator) (evse : Evse) (datagram : Datagram)
    (env : CallEnv) (h : 36 ≤ datagram.Payload.length) :
    ∃ c' evse' feature, VersionHandler.Handle c evse datagram env = some (c', evse') ∧
      uint32At datagram.Payload 32 = some feature ∧
      evse'.info.HardwareVersion_ = ReadString ((datagram.Payload.take 16).drop 0) ∧
      evse'.info.SoftwareVersion_ = ReadString ((datagram.Payload.take 32).drop 16) ∧
      evse'.info.Feature_ = feature ∧
      evse'.info.SupportNew_ =
        (if datagram.Payload.length ≥ 37 then datagram.Payload.getD 36 0
          else evse.info.SupportNew_) ∧
      evse'.info.LastFetched = some env.now := by
  have hlen : CheckPayloadLength datagram 35 = false := by
    simp only [CheckPayloadLength, decide_eq_false_iff_not]
    omega
  obtain ⟨feature, hf⟩ := uint32At_some datagram.Payload 32 (by omega)
  have hs1 := slice_some datagram.Payload 0 16 (by omega) (by omega)
  have hs2 := slice_some datagram.Payload 16 32 (by omega) (by omega)
  have hsn : (if datagram.Payload.length ≥ 37 then datagram.Payload[36]?
      else some evse.info.SupportNew_) =
      some (if datagram.Payload.length ≥ 37 then datagram.Payload.getD 36 0
        else evse.info.SupportNew_) := by
    split_ifs with h37
    · exact getElem?_getD datagram.Payload 36 (by omega)
    · rfl
  obtain ⟨E, hE⟩ : ∃ E : EvseInfo, E =
      { evse.info with
        HardwareVersion_ := ReadString ((datagram.Payload.take 16).drop 0)
        SoftwareVersion_ := ReadString ((datagram.Payload.take 32).drop 16)
        Feature_ := feature
        SupportNew_ := (if datagram.Payload.length ≥ 37 then datagram.Payload.getD 36 0
          else evse.info.SupportNew_) } := ⟨_, rfl⟩
  obtain ⟨ch, hp⟩ : ∃ ch, versionParse evse.info datagram.Payload = some (E, ch) := by
    simp only [versionParse, hs1, hs2, hf, hsn, orPanic_some]
    rw [hE]
    exact ⟨_, rfl⟩
  have hH : VersionHandler.Handle c evse datagram env =
      some (if ch = true then
          QueueEvent c (some { evse with info := { E with LastFetched := some env.now } })
            .EvseInfoUpdated env.now
        else c, { evse with info := { E with LastFetched := some env.now } }) := by
    simp only [VersionHandler.Handle, hlen, hp, Bool.false_eq_true, if_false]
  refine ⟨_, _, feature, hH, hf, ?_⟩
  subst hE
  exact ⟨rfl, rfl, rfl, rfl, rfl⟩

section
set_option maxRecDepth 100000

/-- C31, failing input. A GetVersionResponse payload of 35 bytes, the minimum the handler
checks for: the handler does not complete, it panics on the slice `Payload[32:36]`; a
payload of 36 bytes is handled. -/
theorem version_handler_panics :
    VersionHandler.Handle { udpConn := true }
      { serial := List.replicate 16 48, LastSeen := some sampleEnv.now }
      { Key := 0, Serial := List.replicate 16 48, Password := []
        Command := CmdGetVersionResponse, Payload := List.replicate 35 0 } sampleEnv = none ∧
    (VersionHandler.Handle { udpConn := true }
      { serial := List.replicate 16 48, LastSeen := some sampleEnv.now }
      { Key := 0, Serial := List.replicate 16 48, Password := []
        Command := CmdGetVersionResponse, Payload := List.replicate 36 0 }
      sampleEnv).isSome = true := by
  decide

end

theorem ite_some_some {α : Type} (c : Prop) [Decidable c] (a b : α) :
    (if c then some a else some b) = some (if c then a else b) := by
  split_ifs <;> rfl

theorem CompareAndSetPtr_fst {α : Type} (old new : Option α) :
    (CompareAndSetPtr old new).1 = new := by
  unfold CompareAndSetPtr
  cases old <;> cases new <;> rfl

theorem CompareAndSetPtr_snd {α : Type} (old : Option α) (a : α) :
    (CompareAndSetPtr old (some a)).2 = true := by
  unfold CompareAndSetPtr
  cases old <;> rfl

/-- The reads of `chargingParse` on a payload of at least 74 bytes: the only ones that can
panic are the three dereferences of `ReadEnergy32`, at the offsets 55, 59 and 63. When none
of them does, the section read does not depend on the section stored (apart from
`LastFetched`, which the parse keeps), and the flag `changed` is set whenever the maximum
duration at offset 20 is present. -/
theorem chargingParse_spec (fl : FloatOps) (z : Zones) (charge : EvseCharge) (p : List Nat)
    (h : 74 ≤ p.length) :
    ∃ v20 v55 v59 v63, uint16At p 20 = some v20 ∧ uint32At p 55 = some v55 ∧
      uint32At p 59 = some v59 ∧ uint32At p 63 = some v63 ∧
      ((v55 = 0xFFFFFFFF ∨ v59 = 0xFFFFFFFF ∨ v63 = 0xFFFFFFFF) →
        chargingParse fl z charge p = none) ∧
      (¬ (v55 = 0xFFFFFFFF ∨ v59 = 0xFFFFFFFF ∨ v63 = 0xFFFFFFFF) →
        ∃ ch changed, chargingParse fl z charge p = some (ch, changed) ∧
          (v20 ≠ 0xFFFF → changed = true) ∧
          (∀ charge2, ∃ changed2, chargingParse fl z charge2 p =
            some ({ ch with LastFetched := charge2.LastFetched }, changed2)) ∧
          ch.Port_ = p.getD 0 0 ∧
          ch.MaxDuration_ =
            (if (v20 : Int) = 0xFFFF then none else some ((v20 : Int) * Minute)) ∧
          ch.StartEnergyCounter_ = fl.hundredth64 v55 ∧
          ch.CurrentEnergyCounter_ = fl.hundredth64 v59 ∧
          ch.ChargedEnergy_ = fl.hundredth64 v63) := by
  have e0 := getElem?_getD p 0 (by omega)
  have e1 := getElem?_getD p 1 (by omega)
  have e18 := getElem?_getD p 18 (by omega)
  have e19 := getElem?_getD p 19 (by omega)
  have e46 := getElem?_getD p 46 (by omega)
  have e71 := getElem?_getD p 71 (by omega)
  have s2 := slice_some p 2 18 (by omega) (by omega)
  have s30 := slice_some p 30 46 (by omega) (by omega)
  obtain ⟨v20, h20⟩ := uint16At_some p 20 (by omega)
  obtain ⟨v22, h22⟩ := uint16At_some p 22 (by omega)
  obtain ⟨v26, h26⟩ := uint32At_some p 26 (by omega)
  obtain ⟨v47, h47⟩ := uint32At_some p 47 (by omega)
  obtain ⟨v51, h51⟩ := uint32At_some p 51 (by omega)
  obtain ⟨v55, h55⟩ := uint32At_some p 55 (by omega)
  obtain ⟨v59, h59⟩ := uint32At_some p 59 (by omega)
  obtain ⟨v63, h63⟩ := uint32At_some p 63 (by omega)
  obtain ⟨v67, h67⟩ := uint32At_some p 67 (by omega)
  obtain ⟨v72, h72⟩ := uint16At_some p 72 (by omega)
  have hd : ReadDurationMinutes p 20 =
      some (if (v20 : Int) = 0xFFFF then none else some ((v20 : Int) * Minute)) := by
    simp [ReadDurationMinutes, h20]
  have hsec : ReadDurationSeconds p 51 = some ((v51 : Int) * Second) := by
    simp [ReadDurationSeconds, h51]
  obtain ⟨cs, hcs⟩ : ∃ cs, (if p.length ≤ 74 then p[1]?
      else
        orPanic (p[74]?) fun byte74 =>
        if !(byte74 = 18 ∨ byte74 = 19) then p[1]? else some byte74) = some cs := by
    by_cases h74 : p.length ≤ 74
    · exact ⟨_, by rw [if_pos h74, e1]⟩
    · have e74 := getElem?_getD p 74 (by omega)
      rw [if_neg h74, e74, orPanic_some, e1, ite_some_some]
      exact ⟨_, rfl⟩
  refine ⟨v20, v55, v59, v63, h20, h55, h59, h63, ?_, ?_⟩
  · intro hs
    simp only [chargingParse, e0, hcs, s2, e18, e19, hd, ReadEnergy16,
      h22, ReadTimestamp, h26, s30, e46, h47, hsec, ReadEnergy32, h55, h59,
      h63, h67, e71, h72, Option.map_some', orPanic_some, Option.some_bind, id_eq]
    by_cases a : v55 = 4294967295
    · simp only [a, if_true, orPanic_none]
    · by_cases b : v59 = 4294967295
      · simp only [a, b, if_true, if_false, orPanic_some, orPanic_none]
      · have c : v63 = 4294967295 := by
          rcases hs with hs | hs | hs
          · exact absurd hs a
          · exact absurd hs b
          · exact hs
        simp only [a, b, c, if_true, if_false, orPanic_some, orPanic_none]
  · intro hs
    have a : ¬ v55 = 4294967295 := fun e => hs (Or.inl e)
    have b : ¬ v59 = 4294967295 := fun e => hs (Or.inr (Or.inl e))
    have c : ¬ v63 = 4294967295 := fun e => hs (Or.inr (Or.inr e))
    simp only [chargingParse, e0, hcs, s2, e18, e19, hd, ReadEnergy16,
      h22, ReadTimestamp, h26, s30, e46, h47, hsec, ReadEnergy32, h55, h59,
      h63, h67, e71, h72, Option.map_some', orPanic_some, a, b, c, if_false, Option.some_bind,
      id_eq, CompareAndSetPtr_fst]
    refine ⟨_, _, rfl, ?_, ?_, rfl, rfl, rfl, rfl, rfl⟩
    · intro hd
      have hd2 : ¬ (v20 : Int) = 65535 := by exact_mod_cast hd
      simp only [anyChanged, if_neg hd2, CompareAndSetPtr_snd, List.any_cons, Bool.or_true,
        Bool.true_or, id]
    · intro charge2
      exact ⟨_, rfl⟩

/-- The result of the charging handler in terms of the result of the parse. -/
theorem charging_handle_eq (c : Communicator) (evse : Evse) (datagram : Datagram)
    (env : CallEnv) (h : 74 ≤ datagram.Payload.length) :
    SingleAcChargingHandler.Handle c evse datagram env =
      match chargingParse env.fl env.zones evse.charge datagram.Payload with
      | none => none
      | some (charge, changed) =>
        some (if changed = true then
            QueueEvent (SendDatagram c
                { evse with charge := { charge with LastFetched := some env.now } }
                (ackDatagram CmdSingleACChargingAck 0) env).1
              (some { evse with charge := { charge with LastFetched := some env.now } })
              .EvseChargeUpdated env.now
          else (SendDatagram c
                { evse with charge := { charge with LastFetched := some env.now } }
                (ackDatagram CmdSingleACChargingAck 0) env).1,
          { evse with charge := { charge with LastFetched := some env.now } }) := by
  have hlen : CheckPayloadLength datagram 74 = false := by
    simp only [CheckPayloadLength, decide_eq_false_iff_not]
    omega
  simp only [SingleAcChargingHandler.Handle, hlen, Bool.false_eq_true, if_false]

/-- On a payload of at least 74 bytes whose three energy counters (offsets 55, 59 and 63)
are present, the charging handler completes: it stores the fields read, sets
`LastFetched`, and hands the ack `0x8005` with payload `0x00` to the socket when the
record is logged in. The sentinels at the offsets 20, 22, 26 and 47 do no harm. -/
theorem charging_completes (c : Communicator) (evse : Evse) (datagram : Datagram)
    (env : CallEnv) (h : 74 ≤ datagram.Payload.length)
    (h55 : uint32At datagram.Payload 55 ≠ some 0xFFFFFFFF)
    (h59 : uint32At datagram.Payload 59 ≠ some 0xFFFFFFFF)
    (h63 : uint32At datagram.Payload 63 ≠ some 0xFFFFFFFF) :
    ∃ c' evse' v55 v59 v63,
      SingleAcChargingHandler.Handle c evse datagram env = some (c', evse') ∧
      uint32At datagram.Payload 55 = some v55 ∧ uint32At datagram.Payload 59 = some v59 ∧
      uint32At datagram.Payload 63 = some v63 ∧
      evse'.charge.LastFetched = some env.now ∧
      evse'.charge.Port_ = datagram.Payload.getD 0 0 ∧
      evse'.charge.StartEnergyCounter_ = env.fl.hundredth64 v55 ∧
      evse'.charge.CurrentEnergyCounter_ = env.fl.hundredth64 v59 ∧
      evse'.charge.ChargedEnergy_ = env.fl.hundredth64 v63 ∧
      (IsLoggedIn evse env.now = true → c.udpConn = true →
        ∀ frame, Encode (some { Key := 0, Serial := evse.serial, Password := evse.password
                                Command := 0x8005, Payload := [0] }) = .ok frame →
          c'.written = c.written ++ [frame]) := by
  obtain ⟨v20, v55, v59, v63, -, e55, e59, e63, -, hok⟩ :=
    chargingParse_spec env.fl env.zones evse.charge datagram.Payload h
  have hs : ¬ (v55 = 0xFFFFFFFF ∨ v59 = 0xFFFFFFFF ∨ v63 = 0xFFFFFFFF) := by
    rintro (a | a | a)
    · exact h55 (by rw [e55, a])
    · exact h59 (by rw [e59, a])
    · exact h63 (by rw [e63, a])
  obtain ⟨ch, changed, hparse, -, -, hport, -, hs55, hs59, hs63⟩ := hok hs
  have hH := charging_handle_eq c evse datagram env h
  rw [hparse] at hH
  refine ⟨_, _, v55, v59, v63, hH, e55, e59, e63, rfl, hport, hs55, hs59, hs63, ?_⟩
  intro hl hconn frame henc
  have hw := SendDatagram_logged_in c
    { evse with charge := { ch with LastFetched := some env.now } } CmdSingleACChargingAck 0
    env frame hl hconn henc
  split_ifs
  · rw [QueueEvent_written, hw]
  · exact hw

/-- C32. Charging handler safety fails: on a SingleACCharging payload of at least 74 bytes
the charging handler panics (a nil dereference of the result of `ReadEnergy32`) exactly
when one of the 32-bit energy fields at the offsets 55, 59 and 63 holds the absent-value
sentinel 0xFFFFFFFF; the sentinels in the fields at the offsets 20, 22, 26 and 47 are read
without a panic. -/
theorem charging_handler_panics (c : Communicator) (evse : Evse) (datagram : Datagram)
    (env : CallEnv) (h : 74 ≤ datagram.Payload.length) :
    SingleAcChargingHandler.Handle c evse datagram env = none ↔
      (uint32At datagram.Payload 55 = some 0xFFFFFFFF ∨
       uint32At datagram.Payload 59 = some 0xFFFFFFFF ∨
       uint32At datagram.Payload 63 = some 0xFFFFFFFF) := by
  obtain ⟨v20, v55, v59, v63, -, e55, e59, e63, hbad, hok⟩ :=
    chargingParse_spec env.fl env.zones evse.charge datagram.Payload h
  have hH := charging_handle_eq c evse datagram env h
  rw [e55, e59, e63]
  simp only [Option.some.injEq]
  by_cases hs : v55 = 0xFFFFFFFF ∨ v59 = 0xFFFFFFFF ∨ v63 = 0xFFFFFFFF
  · rw [hbad hs] at hH
    exact ⟨fun _ => hs, fun _ => hH⟩
  · obtain ⟨ch, changed, hparse, -⟩ := hok hs
    rw [hparse] at hH
    rw [hH]
    exact ⟨fun e => (by cases e), fun e => absurd e hs⟩

section
set_option maxRecDepth 100000

theorem charging_handler_panics_witness :
    SingleAcChargingHandler.Handle { udpConn := true }
        { serial := List.replicate 16 48, LastSeen := some sampleEnv.now
          LastActiveLogin := some sampleEnv.now }
        { Key := 0, Serial := List.replicate 16 48, Password := []
          Command := CmdSingleACChargingStatusResponse
          Payload := List.replicate 55 0 ++ [255, 255, 255, 255] ++ List.replicate 15 0 }
        sampleEnv = none :=
  (charging_handler_panics { udpConn := true }
    { serial := List.replicate 16 48, LastSeen := some sampleEnv.now
      LastActiveLogin := some sampleEnv.now }
    { Key := 0, Serial := List.replicate 16 48, Password := []
      Command := CmdSingleACChargingStatusResponse
      Payload := List.replicate 55 0 ++ [255, 255, 255, 255] ++ List.replicate 15 0 }
    sampleEnv (by decide)).2 (Or.inl (by decide))

end

/-- C33. The charging handler compares the pointer fields by address: whatever the record
holds, a payload of at least 74 bytes that the handler reads without panic and whose
maximum duration (offset 20) is present makes it queue ChargeUpdated. In particular, when
the same payload is handled twice in a row, the second call stores the very values the
first stored (only `LastFetched` moves) and still queues a ChargeUpdated event. -/
theorem charging_identical_payload (c : Communicator) (evse : Evse) (datagram : Datagram)
    (env env2 : CallEnv) (h : 74 ≤ datagram.Payload.length)
    (h20 : uint16At datagram.Payload 20 ≠ some 0xFFFF)
    (h55 : uint32At datagram.Payload 55 ≠ some 0xFFFFFFFF)
    (h59 : uint32At datagram.Payload 59 ≠ some 0xFFFFFFFF)
    (h63 : uint32At datagram.Payload 63 ≠ some 0xFFFFFFFF)
    (hfl : env2.fl = env.fl) (hz : env2.zones = env.zones) :
    ∃ c1 evse1 c2 evse2,
      SingleAcChargingHandler.Handle c evse datagram env = some (c1, evse1) ∧
      SingleAcChargingHandler.Handle c1 evse1 datagram env2 = some (c2, evse2) ∧
      evse2.charge = { evse1.charge with LastFetched := some env2.now } ∧
      c2 = QueueEvent (SendDatagram c1 evse2 (ackDatagram CmdSingleACChargingAck 0) env2).1
        (some evse2) .EvseChargeUpdated env2.now ∧
      pendingAt c2 (eventKey evse.serial .EvseChargeUpdated) =
        [(eventKey evse.serial .EvseChargeUpdated,
          { Evse := evse.serial, Type_ := .EvseChargeUpdated, Timestamp := env2.now })] := by
  obtain ⟨v20, v55, v59, v63, e20, e55, e59, e63, -, hok⟩ :=
    chargingParse_spec env.fl env.zones evse.charge datagram.Payload h
  have hs : ¬ (v55 = 0xFFFFFFFF ∨ v59 = 0xFFFFFFFF ∨ v63 = 0xFFFFFFFF) := by
    rintro (a | a | a)
    · exact h55 (by rw [e55, a])
    · exact h59 (by rw [e59, a])
    · exact h63 (by rw [e63, a])
  have hd : v20 ≠ 0xFFFF := fun a => h20 (by rw [e20, a])
  obtain ⟨ch, changed, hparse, -, hany, -⟩ := hok hs
  obtain ⟨evse1, he1⟩ : ∃ evse1 : Evse, evse1 =
      { evse with charge := { ch with LastFetched := some env.now } } := ⟨_, rfl⟩
  obtain ⟨c1, hc1⟩ : ∃ c1, c1 = (if changed = true then
      QueueEvent (SendDatagram c evse1 (ackDatagram CmdSingleACChargingAck 0) env).1
        (some evse1) .EvseChargeUpdated env.now
      else (SendDatagram c evse1 (ackDatagram CmdSingleACChargingAck 0) env).1) := ⟨_, rfl⟩
  have hH : SingleAcChargingHandler.Handle c evse datagram env = some (c1, evse1) := by
    rw [charging_handle_eq c evse datagram env h, hparse, hc1, he1]
  obtain ⟨w20, w55, w59, w63, f20, f55, f59, f63, -, hok2⟩ :=
    chargingParse_spec env2.fl env2.zones evse1.charge datagram.Payload h
  have hs2 : ¬ (w55 = 0xFFFFFFFF ∨ w59 = 0xFFFFFFFF ∨ w63 = 0xFFFFFFFF) := by
    rintro (a | a | a)
    · exact h55 (by rw [f55, a])
    · exact h59 (by rw [f59, a])
    · exact h63 (by rw [f63, a])
  have hd2 : w20 ≠ 0xFFFF := fun a => h20 (by rw [f20, a])
  obtain ⟨ch2, changed2, hparse2, hch2, -, -⟩ := hok2 hs2
  have hchanged : changed2 = true := hch2 hd2
  obtain ⟨b, hb⟩ := hany evse1.charge
  rw [hfl, hz] at hparse2
  rw [hb] at hparse2
  have hch : ch2 = { ch with LastFetched := evse1.charge.LastFetched } :=
    (congrArg Prod.fst (Option.some.inj hparse2)).symm
  have hH2 := charging_handle_eq c1 evse1 datagram env2 h
  rw [hfl, hz, hb] at hH2
  have hbt : b = true := by
    have := congrArg Prod.snd (Option.some.inj hparse2)
    rw [← hchanged]
    exact this
  subst hbt
  simp only [if_true] at hH2
  refine ⟨c1, evse1, _, _, hH, hH2, ?_, rfl, ?_⟩
  · subst he1
    rfl
  · rw [QueueEvent_eq]
    simp only [reduceCtorEq, or_self, if_false]
    subst he1
    exact queued_pendingAt_self _ _ _ _

section
set_option maxRecDepth 100000

theorem charging_identical_payload_witness :
    ∃ c1 evse1 c2 evse2,
      SingleAcChargingHandler.Handle { udpConn := true }
        { serial := List.replicate 16 48, LastSeen := some sampleEnv.now
          LastActiveLogin := some sampleEnv.now }
        { Key := 0, Serial := List.replicate 16 48, Password := []
          Command := CmdSingleACChargingStatusResponse
          Payload := List.replicate 21 0 ++ [120] ++ List.replicate 28 0 ++ [1] ++
            List.replicate 24 0 }
        sampleEnv = some (c1, evse1) ∧
      SingleAcChargingHandler.Handle c1 evse1
        { Key := 0, Serial := List.replicate 16 48, Password := []
          Command := CmdSingleACChargingStatusResponse
          Payload := List.replicate 21 0 ++ [120] ++ List.replicate 28 0 ++ [1] ++
            List.replicate 24 0 }
        sampleEnv = some (c2, evse2) ∧
      evse2.charge = { evse1.charge with LastFetched := some sampleEnv.now } ∧
      c2 = QueueEvent (SendDatagram c1 evse2 (ackDatagram CmdSingleACChargingAck 0)
          sampleEnv).1 (some evse2) .EvseChargeUpdated sampleEnv.now ∧
      pendingAt c2 (eventKey (List.replicate 16 48) .EvseChargeUpdated) =
        [(eventKey (List.replicate 16 48) .EvseChargeUpdated,
          { Evse := List.replicate 16 48, Type_ := .EvseChargeUpdated
            Timestamp := sampleEnv.now })] :=
  charging_identical_payload { udpConn := true }
    { serial := List.replicate 16 48, LastSeen := some sampleEnv.now
      LastActiveLogin := some sampleEnv.now }
    { Key := 0, Serial := List.replicate 16 48, Password := []
      Command := CmdSingleACChargingStatusResponse
      Payload := List.replicate 21 0 ++ [120] ++ List.replicate 28 0 ++ [1] ++
        List.replicate 24 0 }
    sampleEnv sampleEnv (by decide) (by decide) (by decide) (by decide) (by decide) rfl rfl

end

/-! ## The error bitmap and the temperature -/

theorem foldl_append_filter (p : Nat → Prop) [DecidablePred p] (l acc : List Nat) :
    l.foldl (fun errors i => if p i then errors ++ [i] else errors) acc =
      acc ++ l.filter (fun i => decide (p i)) := by
  induction l generalizing acc with
  | nil => simp
  | cons a l ih =>
    rw [List.foldl_cons, ih, List.filter_cons]
    by_cases h : p a
    · simp [h]
    · simp [h]

theorem land_shift_ne_zero (x i : Nat) :
    Nat.land x (1 <<< i) ≠ 0 ↔ x.testBit i = true := by
  have hland : Nat.land x (1 <<< i) = x &&& 2 ^ i := by
    rw [Nat.one_shiftLeft]
    rfl
  rw [hland]
  constructor
  · intro h
    by_contra hb
    apply h
    apply Nat.eq_of_testBit_eq
    intro j
    rw [Nat.testBit_and, Nat.testBit_two_pow, Nat.zero_testBit]
    by_cases hij : i = j
    · subst hij
      simp [hb]
    · simp [hij]
  · intro h he
    have := congrArg (fun y => Nat.testBit y i) he
    simp only [Nat.testBit_and, Nat.testBit_two_pow_self, h, Nat.zero_testBit, Bool.and_self] at this
    exact absurd this (by decide)

/-- `ParseErrors` keeps, in ascending order, the codes of the bits that are set. -/
theorem ParseErrors_eq_filter (x : Nat) :
    ParseErrors x = (List.range 32).filter (fun i => x.testBit i) := by
  unfold ParseErrors
  rw [foldl_append_filter (fun i => Nat.land x (1 <<< i) ≠ 0), List.nil_append]
  apply List.filter_congr
  intro i _
  by_cases h : x.testBit i = true
  · rw [h, decide_eq_true ((land_shift_ne_zero x i).2 h)]
  · have h2 : ¬ Nat.land x (1 <<< i) ≠ 0 := fun e => h ((land_shift_ne_zero x i).1 e)
    rw [decide_eq_false h2]
    simpa using h

theorem filter_testBit_length (n x : Nat) :
    ((List.range n).filter (fun i => x.testBit i)).length = popcount n x := by
  induction n generalizing x with
  | zero => rfl
  | succ n ih =>
    have hf : ((fun i => x.testBit i) ∘ Nat.succ) = fun i => (x / 2).testBit i := by
      funext i
      exact Nat.testBit_succ x i
    rw [List.range_succ_eq_map, List.filter_cons, popcount, ← ih (x / 2), List.filter_map,
      hf, Nat.testBit_zero]
    rcases Nat.mod_two_eq_zero_or_one x with h | h
    · simp [h]
    · simp [h, Nat.add_comm]

theorem testBit_foldl_or (l : List Nat) (acc j : Nat) :
    (l.foldl (fun acc i => acc ||| (1 <<< i)) acc).testBit j =
      (acc.testBit j || decide (j ∈ l)) := by
  induction l generalizing acc with
  | nil => simp
  | cons a l ih =>
    rw [List.foldl_cons, ih, Nat.testBit_or, Nat.one_shiftLeft, Nat.testBit_two_pow]
    by_cases h : a = j
    · subst h
      simp
    · have h2 : ¬ j = a := fun e => h e.symm
      simp [h, h2]

/-- C34. Error bitmap: for every 32-bit value `x`, `ParseErrors x` is the list of the codes
`i` in 0..31 whose bit `i` is set in `x`, in strictly ascending order and so without
duplicates; its length is the number of bits set, it is empty for `x = 0`, and OR-ing
`1 << i` over its codes gives back `x`. -/
theorem ParseErrors_bitmap (x : Nat) (hx : x < 2 ^ 32) :
    ParseErrors x = (List.range 32).filter (fun i => x.testBit i) ∧
    (ParseErrors x).Pairwise (· < ·) ∧
    (ParseErrors x).Nodup ∧
    (∀ i, i ∈ ParseErrors x ↔ i < 32 ∧ x.testBit i = true) ∧
    (ParseErrors x).length = popcount 32 x ∧
    (x = 0 → ParseErrors x = []) ∧
    orBits (ParseErrors x) = x := by
  have hsorted : (ParseErrors x).Pairwise (· < ·) := by
    rw [ParseErrors_eq_filter]
    exact (List.pairwise_lt_range 32).sublist (List.filter_sublist _)
  have hmem : ∀ i, i ∈ ParseErrors x ↔ i < 32 ∧ x.testBit i = true := by
    intro i
    rw [ParseErrors_eq_filter, List.mem_filter, List.mem_range]
  refine ⟨ParseErrors_eq_filter x, hsorted, ?_, hmem, ?_, ?_, ?_⟩
  · exact hsorted.imp (fun h => Nat.ne_of_lt h)
  · rw [ParseErrors_eq_filter, filter_testBit_length]
  · intro h0
    subst h0
    rfl
  · apply Nat.eq_of_testBit_eq
    intro j
    rw [orBits, testBit_foldl_or, Nat.zero_testBit, Bool.false_or]
    by_cases hj : j < 32
    · by_cases hb : x.testBit j = true
      · rw [hb, decide_eq_true ((hmem j).2 ⟨hj, hb⟩)]
      · have : ¬ j ∈ ParseErrors x := fun e => hb ((hmem j).1 e).2
        rw [decide_eq_false this]
        simpa using hb
    · have : ¬ j ∈ ParseErrors x := fun e => hj ((hmem j).1 e).1
      rw [decide_eq_false this]
      have hlt : x < 2 ^ j :=
        Nat.lt_of_lt_of_le hx (Nat.pow_le_pow_right (by decide) (by omega))
      exact (Nat.testBit_lt_two_pow hlt).symm

theorem ParseErrors_bitmap_witness :
    (2147483653 < 2 ^ 32) ∧ ParseErrors 2147483653 = [0, 2, 31] ∧
      popcount 32 2147483653 = 3 ∧ orBits [0, 2, 31] = 2147483653 :=
  have w := ParseErrors_bitmap 2147483653 (by decide)
  have e : ParseErrors 2147483653 = [0, 2, 31] := by decide
  ⟨by decide, e, by rw [← w.2.2.2.2.1, e]; rfl, by rw [← e]; exact w.2.2.2.2.2.2⟩

/-- C35. Temperature decoding takes the subtraction in `uint16`: `ReadTemperature` returns
-1 for the raw value 0xFFFF and the hundredths of `r - 20000` for the other raw values
from 20000 on, but for a raw value `r` below 20000 the difference wraps to `r + 45536`, so
that the result is the hundredths of a number of at least 45536 (645.36 for `r = 19000`)
and not a negative temperature. -/
theorem ReadTemperature_wraps (fl : FloatOps) (data : List Nat) (offset r : Nat)
    (h : uint16At data offset = some r) :
    (r = 0xFFFF → ReadTemperature fl data offset = some (-1)) ∧
    (20000 ≤ r → r < 0xFFFF →
      ReadTemperature fl data offset = some (fl.hundredth32 (r - 20000))) ∧
    (r < 20000 → ReadTemperature fl data offset = some (fl.hundredth32 (r + 45536))) := by
  unfold ReadTemperature
  rw [h, Option.map_some']
  refine ⟨fun h1 => ?_, fun h1 h2 => ?_, fun h1 => ?_⟩
  · rw [if_pos h1]
  · rw [if_neg (by omega)]
    have e : (r + 65536 - 20000) % 65536 = r - 20000 := by omega
    rw [e]
  · rw [if_neg (by omega)]
    have e : (r + 65536 - 20000) % 65536 = r + 45536 := by omega
    rw [e]

theorem ReadTemperature_wraps_witness :
    uint16At [74, 56] 0 = some 19000 ∧
    ReadTemperature sampleEnv.fl [74, 56] 0 = some ((64536 : ℚ) / 100) ∧
    ((64536 : ℚ) / 100 ≠ -10) :=
  ⟨rfl, ((ReadTemperature_wraps sampleEnv.fl [74, 56] 0 19000 rfl).2.2 (by decide)).trans
    (by simp [sampleEnv]), by norm_num⟩

/-! ## EM timestamps -/

/-- C36, counterexample. In a local zone whose offset changes at the instant 1000000 s
(one hour east of UTC before it, two hours from then on), the instant 1000000 s has the
wire value 978400, which lies in 1..0xFFFFFFFE, and `EmTimestampToTime` takes the offset
at the instant 978400 s, before the change: it returns 1003600 s, one hour later. -/
theorem EmTimestamp_round_trip_fails :
    TimeToEmTimestamp changingZones (some (1000000 * Second)) = 978400 ∧
    ((978400 : Int) = 1000000 -
      getOffsetBetweenLocalAndShanghai changingZones (1000000 * Second)) ∧
    EmTimestampToTime changingZones
      (TimeToEmTimestamp changingZones (some (1000000 * Second))) =
        some (1003600 * Second) := by
  decide

/-- C36, amended. `EmTimestampToTime` returns absent exactly for the wire values 0 and
0xFFFFFFFF; and for an instant `t` of `s` whole seconds whose wire value
`TimeToEmTimestamp t = s - (shanghaiOffset t - localOffset t)` lies in 1..0xFFFFFFFE,
`EmTimestampToTime (TimeToEmTimestamp t)` is `t` provided that the difference of the two
offsets at the instant the wire value denotes as Unix seconds is the one at `t` (as in
every zone with a fixed offset). -/
theorem EmTimestamp_round_trip (z : Zones) (s : Int)
    (h1 : 1 ≤ TimeToEmTimestamp z (some (s * Second)))
    (h2 : TimeToEmTimestamp z (some (s * Second)) ≤ 0xFFFFFFFE)
    (hw : (TimeToEmTimestamp z (some (s * Second)) : Int) =
      s - getOffsetBetweenLocalAndShanghai z (s * Second))
    (hoff : getOffsetBetweenLocalAndShanghai z
        ((s - getOffsetBetweenLocalAndShanghai z (s * Second)) * Second) =
      getOffsetBetweenLocalAndShanghai z (s * Second)) :
    (∀ w, EmTimestampToTime z w = none ↔ (w = 0 ∨ w = 0xFFFFFFFF)) ∧
    EmTimestampToTime z (TimeToEmTimestamp z (some (s * Second))) = some (s * Second) := by
  constructor
  · intro w
    unfold EmTimestampToTime
    split_ifs with h
    · exact ⟨fun _ => h, fun _ => rfl⟩
    · exact ⟨fun e => (by cases e), fun e => absurd e h⟩
  · generalize TimeToEmTimestamp z (some (s * Second)) = w at h1 h2 hw
    unfold EmTimestampToTime
    rw [if_neg (by omega)]
    simp only [hw, hoff]
    generalize getOffsetBetweenLocalAndShanghai z (s * Second) = off
    simp only [Second, Option.some.injEq]
    omega

theorem EmTimestamp_round_trip_witness :
    TimeToEmTimestamp sampleEnv.zones (some (1793754300 * Second)) = 1793729100 ∧
    EmTimestampToTime sampleEnv.zones
      (TimeToEmTimestamp sampleEnv.zones (some (1793754300 * Second))) =
        some (1793754300 * Second) :=
  ⟨by decide,
    (EmTimestamp_round_trip sampleEnv.zones 1793754300 (by decide) (by decide) (by decide)
      (by decide)).2⟩

/-! ## The ticker -/

/-- `QueueEvent` reads the serial of the record only. -/
theorem QueueEvent_serial (c : Communicator) (e1 e2 : Evse) (eventType : EmEventType)
    (now : Int) (h : e1.serial = e2.serial) :
    QueueEvent c (some e1) eventType now = QueueEvent c (some e2) eventType now := by
  rw [QueueEvent_eq, QueueEvent_eq, h]

/-- `Tick` in closed form: the two demotions, each under its own condition on the record
as it was before the call. -/
theorem Tick_eq (c : Communicator) (evse : Evse) (now : Int) :
    Tick c evse now =
      (if !IsOnline evse now ∧ evse.LastSeen.isSome then
          QueueEvent
            (if !IsLoggedIn evse now ∧ evse.LastActiveLogin.isSome then
              QueueEvent c (some evse) .EvseLoggedOut now else c)
            (some evse) .EvseOffline now
        else
          (if !IsLoggedIn evse now ∧ evse.LastActiveLogin.isSome then
            QueueEvent c (some evse) .EvseLoggedOut now else c),
       { evse with
         LastActiveLogin :=
           if !IsLoggedIn evse now ∧ evse.LastActiveLogin.isSome then none
           else evse.LastActiveLogin
         LastSeen :=
           if !IsOnline evse now ∧ evse.LastSeen.isSome then none else evse.LastSeen }) := by
  unfold Tick
  by_cases hlo : (!IsLoggedIn evse now) = true ∧ evse.LastActiveLogin.isSome = true
  · by_cases hoff : (!IsOnline evse now) = true ∧ evse.LastSeen.isSome = true
    · have hoff2 : (!IsOnline { evse with LastActiveLogin := none } now) = true ∧
          ({ evse with LastActiveLogin := none } : Evse).LastSeen.isSome = true := hoff
      simp only [if_pos hlo, if_pos hoff, if_pos hoff2]
      rw [QueueEvent_serial _ { evse with LastActiveLogin := none, LastSeen := none } evse _ _ rfl,
        QueueEvent_serial _ { evse with LastActiveLogin := none } evse _ _ rfl]
    · have hoff2 : ¬ ((!IsOnline { evse with LastActiveLogin := none } now) = true ∧
          ({ evse with LastActiveLogin := none } : Evse).LastSeen.isSome = true) := hoff
      simp only [if_pos hlo, if_neg hoff, if_neg hoff2]
      rw [QueueEvent_serial _ { evse with LastActiveLogin := none } evse _ _ rfl]
  · by_cases hoff : (!IsOnline evse now) = true ∧ evse.LastSeen.isSome = true
    · simp only [if_neg hlo, if_pos hoff]
      rw [QueueEvent_serial _ { evse with LastSeen := none } evse _ _ rfl]
    · simp only [if_neg hlo, if_neg hoff]

/-- After `Tick` neither demotion is due. -/
theorem Tick_settled (c : Communicator) (evse : Evse) (now : Int) :
    ¬ ((!IsLoggedIn (Tick c evse now).2 now) = true ∧
        (Tick c evse now).2.LastActiveLogin.isSome = true) ∧
    ¬ ((!IsOnline (Tick c evse now).2 now) = true ∧
        (Tick c evse now).2.LastSeen.isSome = true) := by
  rw [Tick_eq]
  obtain ⟨serial, state, ls, lal, password, info, config, waiters, charge, ip, port, inbox⟩ := evse
  cases ls with
  | none =>
    cases lal with
    | none => simp [IsOnline, IsLoggedIn]
    | some a => simp [IsOnline, IsLoggedIn]
  | some l =>
    by_cases h1 : l > now + -11 * Second
    · have h1a : ¬ (l + 11 * Second ≤ now) := by omega
      have h1b : now < l + 11 * Second := by omega
      cases lal with
      | none => simp [IsOnline, IsLoggedIn, h1a, h1b]
      | some a =>
        by_cases h2 : a > now + -15 * Second
        · have h2a : ¬ (a + 15 * Second ≤ now) := by omega
          have h2b : now < a + 15 * Second := by omega
          simp [IsOnline, IsLoggedIn, h1a, h1b, h2a, h2b]
        · have h2a : a + 15 * Second ≤ now := by omega
          have h2b : ¬ (now < a + 15 * Second) := by omega
          simp [IsOnline, IsLoggedIn, h1a, h1b, h2a, h2b]
    · have h1a : l + 11 * Second ≤ now := by omega
      have h1b : ¬ (now < l + 11 * Second) := by omega
      cases lal with
      | none => simp [IsOnline, IsLoggedIn, h1a, h1b]
      | some a => simp [IsOnline, IsLoggedIn, h1a, h1b]

/-- A call of `QueueEvent` leaves the pending event and the timer of another type of the
same record as they were, unless that type is the secondary one of the call. -/
theorem QueueEvent_other (c : Communicator) (evse : Evse) (a b : EmEventType) (now : Int)
    (hab : a ≠ b) (h1 : b ≠ .EvseInfoUpdated) (h2 : b ≠ .EvseStateUpdated) :
    pendingAt (QueueEvent c (some evse) a now) (eventKey evse.serial b) =
      pendingAt c (eventKey evse.serial b) ∧
    timersAt (QueueEvent c (some evse) a now) (eventKey evse.serial b) =
      timersAt c (eventKey evse.serial b) := by
  rw [QueueEvent_eq]
  have ha := queued_other c evse.serial a b now hab
  split_ifs
  · have hi := queued_other (queued c evse.serial a now) evse.serial .EvseInfoUpdated b now
      (fun e => h1 e.symm)
    exact ⟨hi.1.trans ha.1, hi.2.trans ha.2⟩
  · have hi := queued_other (queued c evse.serial a now) evse.serial .EvseStateUpdated b now
      (fun e => h2 e.symm)
    exact ⟨hi.1.trans ha.1, hi.2.trans ha.2⟩
  · exact ha

/-- After a call of `QueueEvent` the event of the call is the pending one of its key. -/
theorem QueueEvent_pending_self (c : Communicator) (evse : Evse) (a : EmEventType)
    (now : Int) :
    pendingAt (QueueEvent c (some evse) a now) (eventKey evse.serial a) =
      [(eventKey evse.serial a, { Evse := evse.serial, Type_ := a, Timestamp := now })] := by
  rw [QueueEvent_eq]
  split_ifs with h1 h2
  · have hne : EmEventType.EvseInfoUpdated ≠ a := by
      rcases h1 with h1 | h1 | h1 | h1 <;> rw [h1] <;> decide
    rw [(queued_other (queued c evse.serial a now) evse.serial _ _ now hne).1,
      queued_pendingAt_self]
  · have hne : EmEventType.EvseStateUpdated ≠ a := by
      rcases h2 with h2 | h2 <;> rw [h2] <;> decide
    rw [(queued_other (queued c evse.serial a now) evse.serial _ _ now hne).1,
      queued_pendingAt_self]
  · exact queued_pendingAt_self _ _ _ _

/-- C37. Tick demotion: `Tick` at the instant `now` clears `LastActiveLogin` and queues one
LoggedOut exactly when `LastActiveLogin` was set and the record is not logged in at `now`,
and clears `LastSeen` and queues one Offline exactly when `LastSeen` was set and the record
is not online at `now`, LoggedOut being queued before Offline; otherwise the field and the
pending event of that type stay as they were. After `Tick` a set `LastSeen` implies
`IsOnline`, and a `Tick` repeated at once changes nothing and queues no event. -/
theorem Tick_demotion (c : Communicator) (evse : Evse) (now : Int) :
    (Tick c evse now).2 =
      { evse with
        LastActiveLogin :=
          if !IsLoggedIn evse now ∧ evse.LastActiveLogin.isSome then none
          else evse.LastActiveLogin
        LastSeen :=
          if !IsOnline evse now ∧ evse.LastSeen.isSome then none else evse.LastSeen } ∧
    (Tick c evse now).1 =
      (if !IsOnline evse now ∧ evse.LastSeen.isSome then
          QueueEvent
            (if !IsLoggedIn evse now ∧ evse.LastActiveLogin.isSome then
              QueueEvent c (some evse) .EvseLoggedOut now else c)
            (some evse) .EvseOffline now
        else
          (if !IsLoggedIn evse now ∧ evse.LastActiveLogin.isSome then
            QueueEvent c (some evse) .EvseLoggedOut now else c)) ∧
    pendingAt (Tick c evse now).1 (eventKey evse.serial .EvseLoggedOut) =
      (if !IsLoggedIn evse now ∧ evse.LastActiveLogin.isSome then
        [(eventKey evse.serial .EvseLoggedOut,
          { Evse := evse.serial, Type_ := .EvseLoggedOut, Timestamp := now })]
      else pendingAt c (eventKey evse.serial .EvseLoggedOut)) ∧
    pendingAt (Tick c evse now).1 (eventKey evse.serial .EvseOffline) =
      (if !IsOnline evse now ∧ evse.LastSeen.isSome then
        [(eventKey evse.serial .EvseOffline,
          { Evse := evse.serial, Type_ := .EvseOffline, Timestamp := now })]
      else pendingAt c (eventKey evse.serial .EvseOffline)) ∧
    ((Tick c evse now).2.LastSeen.isSome = true → IsOnline (Tick c evse now).2 now = true) ∧
    Tick (Tick c evse now).1 (Tick c evse now).2 now = Tick c evse now := by
  have hs := Tick_settled c evse now
  refine ⟨by rw [Tick_eq], by rw [Tick_eq], ?_, ?_, ?_, ?_⟩
  · rw [Tick_eq]
    simp only
    by_cases hlo : (!IsLoggedIn evse now) = true ∧ evse.LastActiveLogin.isSome = true
    · by_cases hoff : (!IsOnline evse now) = true ∧ evse.LastSeen.isSome = true
      · rw [if_pos hlo, if_pos hoff, if_pos hlo,
          (QueueEvent_other _ evse .EvseOffline .EvseLoggedOut now (by decide) (by decide)
            (by decide)).1, QueueEvent_pending_self]
      · rw [if_pos hlo, if_neg hoff, if_pos hlo, QueueEvent_pending_self]
    · by_cases hoff : (!IsOnline evse now) = true ∧ evse.LastSeen.isSome = true
      · rw [if_neg hlo, if_pos hoff, if_neg hlo,
          (QueueEvent_other _ evse .EvseOffline .EvseLoggedOut now (by decide) (by decide)
            (by decide)).1]
      · rw [if_neg hlo, if_neg hoff, if_neg hlo]
  · rw [Tick_eq]
    simp only
    by_cases hoff : (!IsOnline evse now) = true ∧ evse.LastSeen.isSome = true
    · rw [if_pos hoff, if_pos hoff, QueueEvent_pending_self]
    · rw [if_neg hoff, if_neg hoff]
      by_cases hlo : (!IsLoggedIn evse now) = true ∧ evse.LastActiveLogin.isSome = true
      · rw [if_pos hlo,
          (QueueEvent_other _ evse .EvseLoggedOut .EvseOffline now (by decide) (by decide)
            (by decide)).1]
      · rw [if_neg hlo]
  · intro h
    by_contra hn
    exact hs.2 ⟨by simpa using hn, h⟩
  · rw [Tick_eq (Tick c evse now).1 (Tick c evse now).2 now]
    simp only [if_neg hs.1, if_neg hs.2]

/-! ## The charge events of the status handler -/

theorem SendDatagram_pending (c : Communicator) (evse : Evse) (datagram : Datagram)
    (env : CallEnv) (key : List Nat) :
    pendingAt (SendDatagram c evse datagram env).1 key = pendingAt c key ∧
    timersAt (SendDatagram c evse datagram env).1 key = timersAt c key := by
  have h := SendDatagram_tables c evse datagram env
  simp only [pendingAt, timersAt, h.1, h.2, and_self]

/-- The timer of the event of a call of `QueueEvent`. -/
theorem QueueEvent_timer_self (c : Communicator) (evse : Evse) (a : EmEventType)
    (now : Int) :
    timersAt (QueueEvent c (some evse) a now) (eventKey evse.serial a) =
      [(eventKey evse.serial a, now + 400 * Millisecond)] := by
  rw [QueueEvent_eq]
  split_ifs with h1 h2
  · have hne : EmEventType.EvseInfoUpdated ≠ a := by
      rcases h1 with h1 | h1 | h1 | h1 <;> rw [h1] <;> decide
    rw [(queued_other (queued c evse.serial a now) evse.serial _ _ now hne).2,
      queued_timersAt_self]
  · have hne : EmEventType.EvseStateUpdated ≠ a := by
      rcases h2 with h2 | h2 <;> rw [h2] <;> decide
    rw [(queued_other (queued c evse.serial a now) evse.serial _ _ now hne).2,
      queued_timersAt_self]
  · exact queued_timersAt_self _ _ _ _

/-- C38. Charge start/stop events: on a payload the status handler processes (at least 25
bytes, not 34), with `old` the meta state before the payload was applied and `new` the one
after, the handler queues ChargeStarted (the pending event and the timer of that key are
the ones of this call) exactly when `old` is not Charging and `new` is, queues ChargeStopped
exactly when `old` is Charging and `new` is not, and otherwise leaves the pending event and
the timer of the key as they were; the two conditions exclude each other. -/
theorem status_charge_events (c : Communicator) (evse : Evse) (datagram : Datagram)
    (env : CallEnv) (h25 : 25 ≤ datagram.Payload.length)
    (h34 : datagram.Payload.length ≠ 34) :
    ∃ c' evse', SingleAcStatusHandler.Handle c evse datagram env = some (c', evse') ∧
      evse'.serial = evse.serial ∧
      pendingAt c' (eventKey evse.serial .EvseChargeStarted) =
        (if MetaState evse env.now ≠ .MetaStateCharging ∧
            MetaState evse' env.now = .MetaStateCharging then
          [(eventKey evse.serial .EvseChargeStarted,
            { Evse := evse.serial, Type_ := .EvseChargeStarted, Timestamp := env.now })]
        else pendingAt c (eventKey evse.serial .EvseChargeStarted)) ∧
      timersAt c' (eventKey evse.serial .EvseChargeStarted) =
        (if MetaState evse env.now ≠ .MetaStateCharging ∧
            MetaState evse' env.now = .MetaStateCharging then
          [(eventKey evse.serial .EvseChargeStarted, env.now + 400 * Millisecond)]
        else timersAt c (eventKey evse.serial .EvseChargeStarted)) ∧
      pendingAt c' (eventKey evse.serial .EvseChargeStopped) =
        (if MetaState evse env.now = .MetaStateCharging ∧
            MetaState evse' env.now ≠ .MetaStateCharging then
          [(eventKey evse.serial .EvseChargeStopped,
            { Evse := evse.serial, Type_ := .EvseChargeStopped, Timestamp := env.now })]
        else pendingAt c (eventKey evse.serial .EvseChargeStopped)) ∧
      timersAt c' (eventKey evse.serial .EvseChargeStopped) =
        (if MetaState evse env.now = .MetaStateCharging ∧
            MetaState evse' env.now ≠ .MetaStateCharging then
          [(eventKey evse.serial .EvseChargeStopped, env.now + 400 * Millisecond)]
        else timersAt c (eventKey evse.serial .EvseChargeStopped)) ∧
      ¬ ((MetaState evse env.now ≠ .MetaStateCharging ∧
            MetaState evse' env.now = .MetaStateCharging) ∧
          (MetaState evse env.now = .MetaStateCharging ∧
            MetaState evse' env.now ≠ .MetaStateCharging)) := by
  obtain ⟨st, ch, hparse, -, -⟩ := statusParse_some env.fl evse.state datagram.Payload h25 h34
  have hlen : CheckPayloadLength datagram 25 = false := by
    simp only [CheckPayloadLength, decide_eq_false_iff_not]
    omega
  obtain ⟨e, he⟩ : ∃ e : Evse, e = { evse with state := st } := ⟨_, rfl⟩
  have hser : e.serial = evse.serial := by rw [he]
  obtain ⟨base, hbase⟩ : ∃ base, base =
      (if ch = true then
        QueueEvent (SendDatagram c e (ackDatagram CmdSingleACStatusAck 1) env).1 (some e)
          .EvseStateUpdated env.now
      else (SendDatagram c e (ackDatagram CmdSingleACStatusAck 1) env).1) := ⟨_, rfl⟩
  have hb : ∀ b : EmEventType, b ≠ .EvseStateUpdated → b ≠ .EvseInfoUpdated →
      pendingAt base (eventKey evse.serial b) = pendingAt c (eventKey evse.serial b) ∧
      timersAt base (eventKey evse.serial b) = timersAt c (eventKey evse.serial b) := by
    intro b hb1 hb2
    have hsend := SendDatagram_pending c e (ackDatagram CmdSingleACStatusAck 1) env
      (eventKey evse.serial b)
    rw [hbase]
    split_ifs
    · have ho := QueueEvent_other (SendDatagram c e (ackDatagram CmdSingleACStatusAck 1) env).1
        e .EvseStateUpdated b env.now (fun x => hb1 x.symm) hb2 hb1
      rw [hser] at ho
      exact ⟨ho.1.trans hsend.1, ho.2.trans hsend.2⟩
    · exact hsend
  have hH : SingleAcStatusHandler.Handle c evse datagram env =
      some (if MetaState evse env.now ≠ .MetaStateCharging ∧
            MetaState e env.now = .MetaStateCharging then
          QueueEvent base (some e) .EvseChargeStarted env.now
        else if MetaState evse env.now = .MetaStateCharging ∧
            MetaState e env.now ≠ .MetaStateCharging then
          QueueEvent base (some e) .EvseChargeStopped env.now
        else base, e) := by
    subst hbase he
    simp only [SingleAcStatusHandler.Handle, hlen, hparse, Bool.false_eq_true, if_false]
  have hstart := hb .EvseChargeStarted (by decide) (by decide)
  have hstop := hb .EvseChargeStopped (by decide) (by decide)
  have ps := QueueEvent_pending_self base e .EvseChargeStarted env.now
  have ts := QueueEvent_timer_self base e .EvseChargeStarted env.now
  have os := QueueEvent_other base e .EvseChargeStarted .EvseChargeStopped env.now (by decide)
    (by decide) (by decide)
  have pt := QueueEvent_pending_self base e .EvseChargeStopped env.now
  have tt := QueueEvent_timer_self base e .EvseChargeStopped env.now
  have ot := QueueEvent_other base e .EvseChargeStopped .EvseChargeStarted env.now (by decide)
    (by decide) (by decide)
  rw [hser] at ps ts os pt tt ot
  refine ⟨_, e, hH, hser, ?_, ?_, ?_, ?_, fun h => h.1.1 h.2.1⟩
  all_goals
    by_cases h1 : MetaState evse env.now ≠ .MetaStateCharging ∧
      MetaState e env.now = .MetaStateCharging
    · have h2 : ¬ (MetaState evse env.now = .MetaStateCharging ∧
          MetaState e env.now ≠ .MetaStateCharging) := fun x => h1.1 x.1
      simp only [if_pos h1, if_neg h2, ps, ts, os.1, os.2, hstop.1, hstop.2]
    · by_cases h2 : MetaState evse env.now = .MetaStateCharging ∧
          MetaState e env.now ≠ .MetaStateCharging
      · simp only [if_neg h1, if_pos h2, pt, tt, ot.1, ot.2, hstart.1, hstart.2]
      · simp only [if_neg h1, if_neg h2, hstart.1, hstart.2, hstop.1, hstop.2]

section
set_option maxRecDepth 100000

theorem status_charge_events_witness :
    ∃ c' evse',
      SingleAcStatusHandler.Handle { udpConn := true }
        { serial := List.replicate 16 48, LastSeen := some sampleEnv.now
          LastActiveLogin := some sampleEnv.now }
        { Key := 0, Serial := List.replicate 16 48, Password := []
          Command := CmdSingleACStatus
          Payload := List.replicate 19 0 ++ [1] ++ List.replicate 5 0 }
        sampleEnv = some (c', evse') ∧
      MetaState evse' sampleEnv.now = .MetaStateCharging ∧
      pendingAt c' (eventKey (List.replicate 16 48) .EvseChargeStarted) =
        [(eventKey (List.replicate 16 48) .EvseChargeStarted,
          { Evse := List.replicate 16 48, Type_ := .EvseChargeStarted
            Timestamp := sampleEnv.now })] ∧
      pendingAt c' (eventKey (List.replicate 16 48) .EvseChargeStopped) = [] :=
  have w := status_charge_events { udpConn := true }
    { serial := List.replicate 16 48, LastSeen := some sampleEnv.now
      LastActiveLogin := some sampleEnv.now }
    { Key := 0, Serial := List.replicate 16 48, Password := []
      Command := CmdSingleACStatus
      Payload := List.replicate 19 0 ++ [1] ++ List.replicate 5 0 }
    sampleEnv (by decide) (by decide)
  have m : (SingleAcStatusHandler.Handle { udpConn := true }
      { serial := List.replicate 16 48, LastSeen := some sampleEnv.now
        LastActiveLogin := some sampleEnv.now }
      { Key := 0, Serial := List.replicate 16 48, Password := []
        Command := CmdSingleACStatus
        Payload := List.replicate 19 0 ++ [1] ++ List.replicate 5 0 }
      sampleEnv).map (fun r => MetaState r.2 sampleEnv.now) = some .MetaStateCharging := by
    decide
  w.elim fun c' h => h.elim fun evse' h' =>
    have hm : MetaState evse' sampleEnv.now = .MetaStateCharging := by
      rw [h'.1] at m
      exact Option.some.inj m
    ⟨c', evse', h'.1, hm,
      h'.2.2.1.trans (if_pos ⟨by decide, hm⟩),
      h'.2.2.2.2.1.trans (if_neg (fun x => absurd x.1 (by decide)))⟩

end

/-! ## The checksum on small frames -/

theorem checksum_eq_sum_mod (l : List Nat) (h : l.sum < 65536) :
    checksum l = l.sum % 65535 := by
  unfold checksum
  induction l using List.reverseRecOn with
  | nil => rfl
  | append_singleton l a ih =>
    rw [List.sum_append, List.sum_singleton] at h
    have ih2 := ih (by omega)
    rw [List.foldl_append, List.sum_append, List.sum_singleton]
    simp only [List.foldl_cons, List.foldl_nil]
    rw [ih2]
    rcases Nat.lt_or_ge l.sum 65535 with hS | hS
    · rw [Nat.mod_eq_of_lt hS, Nat.mod_eq_of_lt h]
    · have h1 : l.sum = 65535 := by omega
      have h2 : a = 0 := by omega
      rw [h1, h2]
      norm_num

theorem sum_le_of_bytes (l : List Nat) (h : ∀ b ∈ l, b < 256) : l.sum ≤ 255 * l.length := by
  induction l with
  | nil => simp
  | cons a l ih =>
    have ha := h a (List.mem_cons_self a l)
    have hl := ih (fun b hb => h b (List.mem_cons_of_mem a hb))
    rw [List.sum_cons, List.length_cons]
    omega

theorem SscanfHexByte_lt (s : List Nat) (b : Nat) (h : SscanfHexByte s = some b) : b < 256 := by
  unfold SscanfHexByte at h
  split at h
  · cases h
  · simp only at h
    split_ifs at h with h1 h2
    cases h
    exact h2

/-- The frame `Encode` returns, with the serial bytes it scanned: each fits a byte. -/
theorem Encode_ok_inv_bytes (d : Datagram) (f : List Nat) (h : Encode (some d) = .ok f) :
    ∃ sb, sb.length = 8 ∧ (∀ b ∈ sb, b < 256) ∧ f = frameOf d sb := by
  by_cases hlen : d.Serial.length = 16
  · obtain ⟨a0, a1, a2, a3, a4, a5, a6, a7, a8, a9, a10, a11, a12, a13, a14, a15, hs⟩ :=
      length_eq_sixteen d.Serial hlen
    cases h0 : SscanfHexByte [a0, a1] with
    | none => simp [Encode, hs, encodeSerial, h0] at h
    | some b0 =>
    cases h1 : SscanfHexByte [a2, a3] with
    | none => simp [Encode, hs, encodeSerial, h0, h1] at h
    | some b1 =>
    cases h2 : SscanfHexByte [a4, a5] with
    | none => simp [Encode, hs, encodeSerial, h0, h1, h2] at h
    | some b2 =>
    cases h3 : SscanfHexByte [a6, a7] with
    | none => simp [Encode, hs, encodeSerial, h0, h1, h2, h3] at h
    | some b3 =>
    cases h4 : SscanfHexByte [a8, a9] with
    | none => simp [Encode, hs, encodeSerial, h0, h1, h2, h3, h4] at h
    | some b4 =>
    cases h5 : SscanfHexByte [a10, a11] with
    | none => simp [Encode, hs, encodeSerial, h0, h1, h2, h3, h4, h5] at h
    | some b5 =>
    cases h6 : SscanfHexByte [a12, a13] with
    | none => simp [Encode, hs, encodeSerial, h0, h1, h2, h3, h4, h5, h6] at h
    | some b6 =>
    cases h7 : SscanfHexByte [a14, a15] with
    | none => simp [Encode, hs, encodeSerial, h0, h1, h2, h3, h4, h5, h6, h7] at h
    | some b7 =>
      have he := Encode_eq_frame d a0 a1 a2 a3 a4 a5 a6 a7 a8 a9 a10 a11 a12 a13 a14 a15 b0 b1
        b2 b3 b4 b5 b6 b7 hs h0 h1 h2 h3 h4 h5 h6 h7
      rw [he] at h
      refine ⟨[b0, b1, b2, b3, b4, b5, b6, b7], rfl, ?_, (EncodeResult.ok.inj h).symm⟩
      intro b hb
      simp only [List.mem_cons, List.mem_singleton, List.not_mem_nil, or_false] at hb
      rcases hb with rfl | rfl | rfl | rfl | rfl | rfl | rfl | rfl
      · exact SscanfHexByte_lt _ _ h0
      · exact SscanfHexByte_lt _ _ h1
      · exact SscanfHexByte_lt _ _ h2
      · exact SscanfHexByte_lt _ _ h3
      · exact SscanfHexByte_lt _ _ h4
      · exact SscanfHexByte_lt _ _ h5
      · exact SscanfHexByte_lt _ _ h6
      · exact SscanfHexByte_lt _ _ h7
  · rw [Encode_serial_length d hlen] at h
    exact absurd h (by simp)

theorem frameBody_length (d : Datagram) (sb : List Nat) (hsb : sb.length = 8) :
    (frameBody d sb).length = 21 + d.Payload.length := by
  simp [frameBody, putUint16, hsb, passwordField_length]
  omega

/-- The checksummed bytes of a frame are its body, and the field at `len-4` holds the
checksum of the body. -/
theorem frameOf_checksum (d : Datagram) (sb : List Nat) (hsb : sb.length = 8) :
    (frameOf d sb).take ((frameOf d sb).length - 4) = frameBody d sb ∧
    be16At (frameOf d sb) ((frameOf d sb).length - 4) = checksum (frameBody d sb) := by
  have hb := frameBody_length d sb hsb
  have hl := frameOf_length d sb hsb
  have hidx : (frameOf d sb).length - 4 = (frameBody d sb).length := by omega
  have hf : frameOf d sb = frameBody d sb ++
      [checksum (frameBody d sb) / 256 % 256, checksum (frameBody d sb) % 256, 0x0F, 0x02] := by
    simp [frameOf, putUint16]
  rw [hidx]
  constructor
  · rw [hf, List.take_left']
    rfl
  · have hck := checksum_lt (frameBody d sb)
    unfold be16At
    rw [hf, List.getD_eq_getElem?_getD, List.getD_eq_getElem?_getD,
      List.getElem?_append_right (Nat.le_refl _),
      List.getElem?_append_right (Nat.le_add_right (frameBody d sb).length 1)]
    simp only [Nat.sub_self, Nat.add_sub_cancel_left, List.getElem?_cons_zero,
      List.getElem?_cons_succ, Option.getD_some]
    omega

theorem frameBody_bytes (d : Datagram) (sb : List Nat) (hsb : ∀ b ∈ sb, b < 256)
    (hkey : d.Key < 256) (hpay : ∀ b ∈ d.Payload, b < 256)
    (hpw : ∀ b ∈ d.Password, b < 256) : ∀ b ∈ frameBody d sb, b < 256 := by
  intro b hb
  simp only [frameBody, putUint16, List.mem_append, List.mem_cons, List.mem_singleton,
    List.not_mem_nil, or_false] at hb
  rcases hb with ((((((rfl | rfl) | (rfl | rfl)) | rfl) | h) | h) | (rfl | rfl)) | h
  · decide
  · decide
  · omega
  · omega
  · exact hkey
  · exact hsb b h
  · unfold passwordField at h
    split_ifs at h
    · rw [List.eq_of_mem_replicate h]
      decide
    · exact hpw b h
  · omega
  · omega
  · exact hpay b h

/-- C39. Checksum on small frames: for every datagram `Encode` accepts whose checksummed
bytes (offsets `0..len-5` of the frame) sum to less than 65536, the checksum `Encode`
writes at `len-4` is that sum mod 0xFFFF, and `Decode` computes the same value for the
frame and parses it; the sum is below 65536 for every datagram of byte values with a
payload of at most 236 bytes. -/
theorem checksum_small_frames (d : Datagram) (f : List Nat) (h : Encode (some d) = .ok f) :
    ((f.take (f.length - 4)).sum < 65536 →
      be16At f (f.length - 4) = (f.take (f.length - 4)).sum % 65535 ∧
      checksum (f.take (f.length - 4)) = (f.take (f.length - 4)).sum % 65535 ∧
      checksumMismatch f = false ∧
      ∃ p, Decode f = some (.parsed p)) ∧
    (d.Payload.length ≤ 236 → d.Key < 256 → (∀ b ∈ d.Payload, b < 256) →
      (∀ b ∈ d.Password, b < 256) → (f.take (f.length - 4)).sum < 65536) := by
  obtain ⟨sb, hsb, hbytes, rfl⟩ := Encode_ok_inv_bytes d f h
  obtain ⟨htake, hfield⟩ := frameOf_checksum d sb hsb
  constructor
  · intro hsum
    have hck : checksum ((frameOf d sb).take ((frameOf d sb).length - 4)) =
        ((frameOf d sb).take ((frameOf d sb).length - 4)).sum % 65535 :=
      checksum_eq_sum_mod _ hsum
    have hfield2 : be16At (frameOf d sb) ((frameOf d sb).length - 4) =
        checksum ((frameOf d sb).take ((frameOf d sb).length - 4)) := by
      rw [htake]
      exact hfield
    refine ⟨hfield2.trans hck, hck, ?_, _, Decode_frameOf d sb hsb⟩
    simp only [checksumMismatch, hfield2, ne_eq, not_true_eq_false, decide_False]
  · intro hlen hkey hpay hpw
    rw [htake]
    have hb := sum_le_of_bytes _ (frameBody_bytes d sb hbytes hkey hpay hpw)
    rw [frameBody_length d sb hsb] at hb
    omega

section
set_option maxRecDepth 100000

theorem checksum_small_frames_witness :
    Encode (some ⟨7, [97, 97, 98, 98, 99, 99, 100, 100, 101, 101, 102, 102, 48, 48, 49, 49],
        [49, 50, 51, 52, 53, 54], 0x8002, [0]⟩) =
      .ok [6, 1, 0, 26, 7, 170, 187, 204, 221, 238, 255, 0, 17, 49, 50, 51, 52, 53, 54, 128, 2,
        0, 6, 235, 15, 2] ∧
    be16At [6, 1, 0, 26, 7, 170, 187, 204, 221, 238, 255, 0, 17, 49, 50, 51, 52, 53, 54, 128, 2,
        0, 6, 235, 15, 2] 22 = 1771 ∧
    ([6, 1, 0, 26, 7, 170, 187, 204, 221, 238, 255, 0, 17, 49, 50, 51, 52, 53, 54, 128, 2,
        0].sum % 65535 = 1771) :=
  have w := checksum_small_frames
    ⟨7, [97, 97, 98, 98, 99, 99, 100, 100, 101, 101, 102, 102, 48, 48, 49, 49],
      [49, 50, 51, 52, 53, 54], 0x8002, [0]⟩
    [6, 1, 0, 26, 7, 170, 187, 204, 221, 238, 255, 0, 17, 49, 50, 51, 52, 53, 54, 128, 2,
      0, 6, 235, 15, 2] (by decide)
  ⟨by decide, (w.1 (w.2 (by decide) (by decide) (by decide) (by decide))).1.trans (by decide),
    by decide⟩

end

/-! ## The serial of an inbound frame and the registry -/

/-- A serial that is not registered gets a new record, without password, whatever other
records the registry holds: the lookup compares the strings as they are. -/
theorem defineEvseImpl_miss (c : Communicator) (serial : List Nat) (now : Int)
    (h : mapGet c.evses serial = none) :
    (defineEvseImpl c serial now).2 = newEvse serial ∧
    (defineEvseImpl c serial now).2.password = [] ∧
    (defineEvseImpl c serial now).1.evses = mapSet c.evses serial (newEvse serial) := by
  unfold defineEvseImpl
  rw [h]
  refine ⟨rfl, rfl, ?_⟩
  simp only
  rw [QueueEvent_eq]
  rfl

section
set_option maxRecDepth 100000

/-- C40, failing input. `DefineEvse("AABBCCDDEEFF0011")` is called and the password
`123456` pre-seated on the record; then the frame with the serial bytes
`AA BB CC DD EE FF 00 11` (the one `Encode` makes for that serial, a Heading datagram)
arrives. `Decode` names the device `aabbccddeeff0011`, so the registry afterwards holds two
entries: a new record under the lowercase serial, which is the one that went online and
has no password, and the defined one, still never seen. With the serial defined in
lowercase the frame reaches the defined record. -/
theorem serial_routing_case_sensitive :
    Encode (some { Key := 0
                   Serial := [65, 65, 66, 66, 67, 67, 68, 68, 69, 69, 70, 70, 48, 48, 49, 49]
                   Password := [], Command := CmdHeading, Payload := [0] }) =
      .ok [6, 1, 0, 26, 0, 170, 187, 204, 221, 238, 255, 0, 17, 0, 0, 0, 0, 0, 0, 0, 3, 0, 5,
        48, 15, 2] ∧
    Decode [6, 1, 0, 26, 0, 170, 187, 204, 221, 238, 255, 0, 17, 0, 0, 0, 0, 0, 0, 0, 3, 0, 5,
        48, 15, 2] =
      some (.parsed { Key := 0
                      Serial := [97, 97, 98, 98, 99, 99, 100, 100, 101, 101, 102, 102, 48, 48,
                        49, 49]
                      Password := [], Command := CmdHeading, Payload := [0] }) ∧
    ((definedWithPassword [65, 65, 66, 66, 67, 67, 68, 68, 69, 69, 70, 70, 48, 48, 49, 49]
        [49, 50, 51, 52, 53, 54] sampleEnv).bind fun c =>
      packetReceived c [6, 1, 0, 26, 0, 170, 187, 204, 221, 238, 255, 0, 17, 0, 0, 0, 0, 0, 0,
        0, 3, 0, 5, 48, 15, 2] {} sampleEnv).map
      (fun c => c.evses.map fun e => (e.1, e.2.password, e.2.LastSeen)) =
      some [([97, 97, 98, 98, 99, 99, 100, 100, 101, 101, 102, 102, 48, 48, 49, 49], [],
              some sampleEnv.now),
            ([65, 65, 66, 66, 67, 67, 68, 68, 69, 69, 70, 70, 48, 48, 49, 49],
              [49, 50, 51, 52, 53, 54], none)] ∧
    ((definedWithPassword [97, 97, 98, 98, 99, 99, 100, 100, 101, 101, 102, 102, 48, 48, 49, 49]
        [49, 50, 51, 52, 53, 54] sampleEnv).bind fun c =>
      packetReceived c [6, 1, 0, 26, 0, 170, 187, 204, 221, 238, 255, 0, 17, 0, 0, 0, 0, 0, 0,
        0, 3, 0, 5, 48, 15, 2] {} sampleEnv).map
      (fun c => c.evses.map fun e => (e.1, e.2.password, e.2.LastSeen)) =
      some [([97, 97, 98, 98, 99, 99, 100, 100, 101, 101, 102, 102, 48, 48, 49, 49],
              [49, 50, 51, 52, 53, 54], some sampleEnv.now)] := by
  decide

end


/-! ## The checksum and the serial scan of `Encode` on the datagrams it is given -/

theorem passwordField_bytes (pw : List Nat) (h : ∀ b ∈ pw, b < 256) :
    ∀ b ∈ passwordField pw, b < 256 := by
  intro b hb
  unfold passwordField at hb
  split_ifs at hb
  · rw [List.eq_of_mem_replicate hb]
    decide
  · exact h b hb

/-- The bytes `Encode` sums for a datagram of byte values with a payload of at most 239
bytes add up to less than 65536. -/
theorem frameBody_sum_lt (d : Datagram) (sb : List Nat) (hsb : sb.length = 8)
    (hbytes : ∀ b ∈ sb, b < 256) (hlen : d.Payload.length ≤ 239) (hkey : d.Key < 256)
    (hpay : ∀ b ∈ d.Payload, b < 256) (hpw : ∀ b ∈ d.Password, b < 256) :
    (frameBody d sb).sum < 65536 := by
  have h1 := sum_le_of_bytes sb hbytes
  have h2 := sum_le_of_bytes _ (passwordField_bytes d.Password hpw)
  have h3 := sum_le_of_bytes d.Payload hpay
  rw [hsb] at h1
  rw [passwordField_length] at h2
  have hc1 : d.Command / 256 % 256 ≤ 255 := by omega
  have hc2 : d.Command % 256 ≤ 255 := by omega
  have hL : (25 + d.Payload.length) % 65536 / 256 % 256 +
      (25 + d.Payload.length) % 65536 % 256 + 255 * d.Payload.length ≤ 60954 := by
    rcases Nat.lt_or_ge d.Payload.length 231 with hn | hn
    · have e1 : (25 + d.Payload.length) % 65536 / 256 % 256 = 0 := by omega
      omega
    · have e1 : (25 + d.Payload.length) % 65536 / 256 % 256 = 1 := by omega
      have e2 : (25 + d.Payload.length) % 65536 % 256 = d.Payload.length - 231 := by omega
      omega
  simp only [frameBody, putUint16, List.sum_append, List.sum_cons, List.sum_nil]
  generalize (25 + d.Payload.length) % 65536 / 256 % 256 = l1 at hL ⊢
  generalize (25 + d.Payload.length) % 65536 % 256 = l2 at hL ⊢
  generalize d.Command / 256 % 256 = c1 at hc1 ⊢
  generalize d.Command % 256 = c2 at hc2 ⊢
  omega

/-- C3, amended. For every datagram `Encode` accepts whose checksummed bytes (offsets
`0..len-5` of the frame) sum to less than 65536, the big-endian 16-bit value `Encode`
writes at offset `len-4` is that sum, taken as an unbounded natural number, mod 0xFFFF;
and the sum is below 65536 for every datagram of byte values with a payload of at most
239 bytes. -/
theorem Encode_checksum_bounded (d : Datagram) (f : List Nat)
    (h : Encode (some d) = .ok f) :
    ((f.take (f.length - 4)).sum < 65536 →
      be16At f (f.length - 4) = (f.take (f.length - 4)).sum % 65535) ∧
    (d.Payload.length ≤ 239 → d.Key < 256 → (∀ b ∈ d.Payload, b < 256) →
      (∀ b ∈ d.Password, b < 256) →
      (f.take (f.length - 4)).sum < 65536 ∧
      be16At f (f.length - 4) = (f.take (f.length - 4)).sum % 65535) := by
  obtain ⟨sb, hsb, hbytes, rfl⟩ := Encode_ok_inv_bytes d f h
  obtain ⟨htake, hfield⟩ := frameOf_checksum d sb hsb
  rw [htake, hfield]
  have hgen : (frameBody d sb).sum < 65536 →
      checksum (frameBody d sb) = (frameBody d sb).sum % 65535 :=
    checksum_eq_sum_mod _
  refine ⟨hgen, fun hlen hkey hpay hpw => ?_⟩
  have hs := frameBody_sum_lt d sb hsb hbytes hlen hkey hpay hpw
  exact ⟨hs, hgen hs⟩

section
set_option maxRecDepth 100000

theorem Encode_checksum_bounded_witness :
    Encode (some ⟨0, List.replicate 16 48, [], 0x8107, List.replicate 47 255⟩) =
      .ok ([6, 1, 0, 72, 0, 0, 0, 0, 0, 0, 0, 0, 0, 0, 0, 0, 0, 0, 0, 129, 7] ++
        List.replicate 47 255 ++ [47, 168, 15, 2]) ∧
    (([6, 1, 0, 72, 0, 0, 0, 0, 0, 0, 0, 0, 0, 0, 0, 0, 0, 0, 0, 129, 7] ++
        List.replicate 47 255).sum = 12200) ∧
    be16At ([6, 1, 0, 72, 0, 0, 0, 0, 0, 0, 0, 0, 0, 0, 0, 0, 0, 0, 0, 129, 7] ++
        List.replicate 47 255 ++ [47, 168, 15, 2]) 68 = 12200 % 65535 :=
  have w := Encode_checksum_bounded
    ⟨0, List.replicate 16 48, [], 0x8107, List.replicate 47 255⟩
    ([6, 1, 0, 72, 0, 0, 0, 0, 0, 0, 0, 0, 0, 0, 0, 0, 0, 0, 0, 129, 7] ++
      List.replicate 47 255 ++ [47, 168, 15, 2]) (by decide)
  ⟨by decide, by decide,
    (w.2 (by decide) (by decide) (by decide) (by decide)).2.trans (by decide)⟩

end

theorem SscanfHexByte_none (a b : Nat) (ha : isHexDigit a = false)
    (hb : ¬ (isScanSpace a = true ∧ isHexDigit b = true)) : SscanfHexByte [a, b] = none := by
  unfold SscanfHexByte
  by_cases hsp : isScanSpace a = true
  · have hb2 : isHexDigit b = false := by
      cases hx : isHexDigit b
      · rfl
      · exact absurd ⟨hsp, hx⟩ hb
    have ha10 : a ≠ 10 := by
      simp only [isScanSpace, Bool.or_eq_true, decide_eq_true_eq] at hsp
      omega
    by_cases h13 : a = 13 ∧ b = 10
    · simp [skipSpace, h13.1, h13.2]
    · by_cases hb10 : b = 10
      · have : a ≠ 13 := fun e => h13 ⟨e, hb10⟩
        simp [skipSpace, this, ha10, hsp, hb10]
      · by_cases hbs : isScanSpace b = true
        · simp [skipSpace, h13, ha10, hsp, hb10, hbs, hb2]
        · simp [skipSpace, h13, ha10, hsp, hb10, hbs, hb2, List.takeWhile]
  · by_cases ha10 : a = 10
    · simp [skipSpace, ha10]
    · have h13 : a ≠ 13 := by
        intro e
        apply hsp
        rw [e]
        decide
      simp [skipSpace, h13, ha10, hsp, ha, List.takeWhile]

/-- When `Encode` returns a frame, each of the eight pairs of the serial was scanned. -/
theorem Encode_ok_pairs (d : Datagram) (f : List Nat) (h : Encode (some d) = .ok f)
    (a0 a1 a2 a3 a4 a5 a6 a7 a8 a9 a10 a11 a12 a13 a14 a15 : Nat)
    (hs : d.Serial = [a0, a1, a2, a3, a4, a5, a6, a7, a8, a9, a10, a11, a12, a13, a14, a15]) :
    SscanfHexByte [a0, a1] ≠ none ∧ SscanfHexByte [a2, a3] ≠ none ∧
    SscanfHexByte [a4, a5] ≠ none ∧ SscanfHexByte [a6, a7] ≠ none ∧
    SscanfHexByte [a8, a9] ≠ none ∧ SscanfHexByte [a10, a11] ≠ none ∧
    SscanfHexByte [a12, a13] ≠ none ∧ SscanfHexByte [a14, a15] ≠ none := by
  cases h0 : SscanfHexByte [a0, a1] with
  | none => simp [Encode, hs, encodeSerial, h0] at h
  | some b0 =>
  cases h1 : SscanfHexByte [a2, a3] with
  | none => simp [Encode, hs, encodeSerial, h0, h1] at h
  | some b1 =>
  cases h2 : SscanfHexByte [a4, a5] with
  | none => simp [Encode, hs, encodeSerial, h0, h1, h2] at h
  | some b2 =>
  cases h3 : SscanfHexByte [a6, a7] with
  | none => simp [Encode, hs, encodeSerial, h0, h1, h2, h3] at h
  | some b3 =>
  cases h4 : SscanfHexByte [a8, a9] with
  | none => simp [Encode, hs, encodeSerial, h0, h1, h2, h3, h4] at h
  | some b4 =>
  cases h5 : SscanfHexByte [a10, a11] with
  | none => simp [Encode, hs, encodeSerial, h0, h1, h2, h3, h4, h5] at h
  | some b5 =>
  cases h6 : SscanfHexByte [a12, a13] with
  | none => simp [Encode, hs, encodeSerial, h0, h1, h2, h3, h4, h5, h6] at h
  | some b6 =>
  cases h7 : SscanfHexByte [a14, a15] with
  | none => simp [Encode, hs, encodeSerial, h0, h1, h2, h3, h4, h5, h6, h7] at h
  | some b7 => simp

/-- C6, amended. `Encode` returns an error and no frame for every datagram whose serial
does not have 16 characters, and for every serial of 16 characters with a pair (the
characters `2i` and `2i+1`, `i < 8`) from which no hexadecimal digit is read: its first
character is not a hexadecimal digit, and is not a white-space character followed by one.
For a serial of 16 hexadecimal digits it returns the frame with the bytes the pairs
denote. -/
theorem Encode_serial_errors (d : Datagram) :
    (d.Serial.length ≠ 16 → Encode (some d) = .error (.serialLength d.Serial.length)) ∧
    (d.Serial.length = 16 →
      (∃ i, i < 8 ∧ isHexDigit (d.Serial.getD (2 * i) 0) = false ∧
        ¬ (isScanSpace (d.Serial.getD (2 * i) 0) = true ∧
          isHexDigit (d.Serial.getD (2 * i + 1) 0) = true)) →
      ∃ e, Encode (some d) = .error e) ∧
    (d.Serial.length = 16 → (∀ c ∈ d.Serial, isHexDigit c = true) →
      Encode (some d) = .ok (frameOf d (hexPairs d.Serial))) := by
  refine ⟨Encode_serial_length d, ?_, Encode_hex_serial d⟩
  intro hlen hbad
  obtain ⟨a0, a1, a2, a3, a4, a5, a6, a7, a8, a9, a10, a11, a12, a13, a14, a15, hs⟩ :=
    length_eq_sixteen d.Serial hlen
  cases hE : Encode (some d) with
  | error e => exact ⟨e, rfl⟩
  | ok f =>
    exfalso
    obtain ⟨p0, p1, p2, p3, p4, p5, p6, p7⟩ :=
      Encode_ok_pairs d f hE a0 a1 a2 a3 a4 a5 a6 a7 a8 a9 a10 a11 a12 a13 a14 a15 hs
    obtain ⟨i, hi, h1, h2⟩ := hbad
    rw [hs] at h1 h2
    interval_cases i
    · exact p0 (SscanfHexByte_none _ _ h1 h2)
    · exact p1 (SscanfHexByte_none _ _ h1 h2)
    · exact p2 (SscanfHexByte_none _ _ h1 h2)
    · exact p3 (SscanfHexByte_none _ _ h1 h2)
    · exact p4 (SscanfHexByte_none _ _ h1 h2)
    · exact p5 (SscanfHexByte_none _ _ h1 h2)
    · exact p6 (SscanfHexByte_none _ _ h1 h2)
    · exact p7 (SscanfHexByte_none _ _ h1 h2)

theorem Encode_serial_errors_witness :
    (∃ e, Encode (some ⟨7, [103, 48, 48, 48, 48, 48, 48, 48, 48, 48, 48, 48, 48, 48, 48, 48],
      [49, 50, 51, 52, 53, 54], 0x8002, [0]⟩) = .error e) ∧
    Encode (some ⟨7, [48, 49, 50], [49, 50, 51, 52, 53, 54], 0x8002, [0]⟩) =
      .error (.serialLength 3) ∧
    Encode (some ⟨7, [97, 97, 98, 98, 99, 99, 100, 100, 101, 101, 102, 102, 48, 48, 49, 49],
        [49, 50, 51, 52, 53, 54], 0x8002, [0]⟩) =
      .ok [6, 1, 0, 26, 7, 170, 187, 204, 221, 238, 255, 0, 17, 49, 50, 51, 52, 53, 54, 128, 2,
        0, 6, 235, 15, 2] :=
  ⟨(Encode_serial_errors ⟨7, [103, 48, 48, 48, 48, 48, 48, 48, 48, 48, 48, 48, 48, 48, 48, 48],
      [49, 50, 51, 52, 53, 54], 0x8002, [0]⟩).2.1 (by decide)
      ⟨0, by decide, by decide, by decide⟩,
    (Encode_serial_errors ⟨7, [48, 49, 50], [49, 50, 51, 52, 53, 54], 0x8002, [0]⟩).1
      (by decide),
    ((Encode_serial_errors
      ⟨7, [97, 97, 98, 98, 99, 99, 100, 100, 101, 101, 102, 102, 48, 48, 49, 49],
        [49, 50, 51, 52, 53, 54], 0x8002, [0]⟩).2.2 (by decide) (by decide)).trans (by decide)⟩

end Emproto
